import Mathlib

/-!
# Asynchronous exceptions (`rts/RaiseAsync.c`)

A shallow embedding of the asynchronous-exception code of the runtime:
`throwTo`, `throwToMsg`, `blockedThrowTo`, `maybePerformBlockedException`,
`awakenBlockedExceptionQueue`, `removeFromQueues` and `raiseAsync`.

The heap is a family of typed maps from addresses to objects.  A thread's
stack is a word memory indexed by integers with the stack pointer an index
into it (the stack grows towards smaller indices, `sp[0]` is the top).
Calls that leave the file (`allocate`, `dirty_TSO`, `sendMessage`,
`unblockOne`, `UPD_IND`, the STM calls, the queue removals) and the
`debugTrace` calls are recorded, in order, in the machine's trace.
Loops carry a fuel argument; a loop that runs out of fuel, or a lock that
can never be taken, yields `Res.spin`, and `barf` yields `Res.barf`.
-/

namespace RaiseAsync

/-- A machine word. -/
abbrev Word := Nat

/-- A heap address; `NULL` is address zero. -/
abbrev Addr := Nat

/-- The null pointer. -/
def NULL : Addr := 0

/-- Values of `tso->what_next`. -/
inductive WhatNext where
  | ThreadRunGHC
  | ThreadInterpret
  | ThreadKilled
  | ThreadRelocated
  | ThreadComplete
  deriving DecidableEq, Repr

/-- Values of `tso->why_blocked`; `other` stands for any value the code does
not name. -/
inductive WhyBlocked where
  | NotBlocked
  | BlockedOnMVar
  | BlockedOnBlackHole
  | BlockedOnRead
  | BlockedOnWrite
  | BlockedOnDelay
  | BlockedOnSTM
  | BlockedOnDoProc
  | BlockedOnCCall
  | BlockedOnCCall_NoUnblockExc
  | BlockedOnMsgWakeup
  | BlockedOnMsgThrowTo
  | other (n : Nat)
  deriving DecidableEq, Repr

/-- The `header.info` pointer of a closure, as far as the code tells the
values apart. -/
inductive Info where
  | stg_WHITEHOLE_info
  | stg_MSG_THROWTO_info
  | stg_IND_info
  | stg_AP_STACK_info
  | stg_raise_info
  | other (n : Nat)
  deriving DecidableEq, Repr

/-- The closure type found in an info table (`get_itbl(p)->type`). -/
inductive ClosureType where
  | MVAR_CLEAN
  | MVAR_DIRTY
  | other (n : Nat)
  deriving DecidableEq, Repr

/-- The type of a stack frame (`get_ret_itbl(frame)->i.type`). -/
inductive FrameType where
  | UPDATE_FRAME
  | STOP_FRAME
  | CATCH_FRAME
  | ATOMICALLY_FRAME
  | CATCH_STM_FRAME
  | CATCH_RETRY_FRAME
  | other (n : Nat)
  deriving DecidableEq, Repr

/-- The result of `throwToMsg`. -/
inductive ThrowToResult where
  | THROWTO_SUCCESS
  | THROWTO_BLOCKED
  deriving DecidableEq, Repr

/-- The scheduler queues named in this file. -/
inductive Queue where
  | blackhole_queue
  | sleeping_queue
  | blocked_queue
  deriving DecidableEq, Repr

/-- The thread state object. -/
structure StgTSO where
  _link : Addr
  what_next : WhatNext
  why_blocked : WhyBlocked
  flags : Nat
  block_info : Addr
  id : Nat
  cap : Addr
  trec : Addr
  blocked_exceptions : Addr
  sp : Int
  stack : Int → Word

/-- The fields of a `MessageThrowTo` after its header. -/
structure MessageThrowTo where
  link : Addr
  source : Addr
  target : Addr
  exception : Addr
  deriving DecidableEq, Repr

/-- An `AP_STACK` closure: a function word and the captured stack words. -/
structure StgAP_STACK where
  header : Info
  size : Nat
  fun_ : Word
  payload : List Word
  deriving DecidableEq, Repr

/-- A thunk with one payload word, as built for `raise`. -/
structure StgThunk where
  header : Info
  payload0 : Word
  deriving DecidableEq, Repr

/-- The texts passed to `debugTrace` and `debugTraceCap`. -/
inductive DebugMsg where
  | throwTo_from_to (source_id target_id : Nat)
  | throwTo_retrying
  | throwTo_sending (target_cap : Addr)
  | throwTo_blocking (target_id : Nat)
  | throwTo_inside_block (id : Nat)
  | raising_exception (id : Nat)
  | found_atomically
  deriving DecidableEq, Repr

/-- The calls that leave the file, in the order they are made. -/
inductive Event where
  | debugTrace (m : DebugMsg)
  | allocate (cap : Addr) (n : Nat) (p : Addr)
  | dirty_TSO (cap tso : Addr)
  | sendMessage (target_cap msg : Addr)
  | unblockOne (cap tso : Addr)
  | unblockOne_ (cap tso : Addr) (migrate : Bool)
  | UPD_IND (cap updatee ap : Addr)
  | removeThreadFromMVarQueue (cap mvar tso : Addr)
  | removeThreadFromQueue (cap : Addr) (q : Queue) (tso : Addr)
  | removeThreadFromDeQueue (cap : Addr) (q : Queue) (tso : Addr)
  | abandonWorkRequest (async_result : Addr)
  | stmCondemnTransaction (cap trec : Addr)
  | stmAbortTransaction (cap trec : Addr)
  | stmFreeAbortedTRec (cap trec : Addr)
  | ACQUIRE_LOCK_sched_mutex
  | RELEASE_LOCK_sched_mutex
  | lockTSO (tso : Addr)
  | unlockTSO (tso : Addr)
  deriving DecidableEq, Repr

/-- The machine state the file reads and writes. -/
structure Machine where
  tso : Addr → StgTSO
  info : Addr → Info
  msg : Addr → MessageThrowTo
  ap_stack : Addr → StgAP_STACK
  thunk : Addr → StgThunk
  enclosing_trec : Addr → Addr
  hp : Addr
  trace : List Event

/-- The constants, tables and build flags the file takes from the headers of
the runtime, which are not part of the file. -/
structure Rts where
  THREADED_RTS : Bool
  mingw32_HOST_OS : Bool
  TSO_BLOCKEX : Nat
  TSO_INTERRUPTIBLE : Nat
  ThreadFinished : Option WhatNext
  END_BLOCKED_EXCEPTIONS_QUEUE : Addr
  sizeofW_StgHeader : Nat
  sizeofW_MessageThrowTo : Nat
  sizeofW_StgThunk : Nat
  AP_STACK_sizeW : Nat → Nat
  stg_enter_info : Word
  stg_dummy_ret_closure : Word
  stg_NO_TREC_closure : Word
  stg_gc_unpt_r1_info : Word
  get_ret_itbl : Word → FrameType
  stack_frame_sizeW : (Nat → Word) → Nat
  get_itbl : Info → ClosureType
  interruptible : StgTSO → Bool

/-- An update frame is a header followed by the updatee pointer. -/
def Rts.sizeofW_StgUpdateFrame (K : Rts) : Nat := K.sizeofW_StgHeader + 1

/-- A stop frame is a header alone. -/
def Rts.sizeofW_StgStopFrame (K : Rts) : Nat := K.sizeofW_StgHeader

/-- The outcome of running a function of the file. -/
inductive Res (α : Type) where
  | ok (a : α) (s : Machine)
  | barf
  | spin

/-- Pointwise update of a map. -/
def upd {α β : Type} [DecidableEq α] (f : α → β) (a : α) (b : β) : α → β :=
  fun x => if x = a then b else f x

/-- Append an event to the trace. -/
def Machine.emit (s : Machine) (e : Event) : Machine :=
  { s with trace := s.trace ++ [e] }

/-- Change the thread state object at `t`. -/
def Machine.setTSO (s : Machine) (t : Addr) (f : StgTSO → StgTSO) : Machine :=
  { s with tso := upd s.tso t (f (s.tso t)) }

/-- Write the header of the closure at `p`. -/
def Machine.setInfo (s : Machine) (p : Addr) (i : Info) : Machine :=
  { s with info := upd s.info p i }

/-- The field `frame->updatee` of the update frame at `frame` of a stack. -/
def updateeOf (K : Rts) (stack : Int → Word) (frame : Int) : Word :=
  stack (frame + K.sizeofW_StgHeader)

/-- Modelled from the spec: `allocate(words)` of the allocator, which is not
part of the file; it hands out the next free address. -/
def allocate (s : Machine) (cap : Addr) (n : Nat) : Addr × Machine :=
  (s.hp, { s with hp := s.hp + n, trace := s.trace ++ [Event.allocate cap n s.hp] })

/-- Modelled from the spec: `lock()` of the message lock protocol
(`lockClosure`, not part of the file): it takes the closure when it is not
held, leaving it held, and returns the header it had; on a held closure it
spins (`none`). -/
def lockClosure (s : Machine) (p : Addr) : Option (Info × Machine) :=
  if s.info p = Info.stg_WHITEHOLE_info then none
  else some (s.info p, s.setInfo p Info.stg_WHITEHOLE_info)

/-- Modelled from the spec: `try_lock()` of the message lock protocol
(`tryLockClosure`, not part of the file): a single attempt, `none` standing
for the `NULL` it returns on failure. -/
def tryLockClosure (s : Machine) (p : Addr) : Option Info × Machine :=
  if s.info p = Info.stg_WHITEHOLE_info then (none, s)
  else (some (s.info p), s.setInfo p Info.stg_WHITEHOLE_info)

/-- Modelled from the spec: `unlock(new_logical_value)` of the message lock
protocol (`unlockClosure`, not part of the file). -/
def unlockClosure (s : Machine) (p : Addr) (i : Info) : Machine :=
  s.setInfo p i

/-- The loop `while (tso->what_next == ThreadRelocated) tso = tso->_link`. -/
def followRelocated : Nat → Machine → Addr → Option Addr
  | 0, _, _ => none
  | fuel + 1, s, tso =>
    if (s.tso tso).what_next = WhatNext.ThreadRelocated then
      followRelocated fuel s (s.tso tso)._link
    else some tso

/-- The loop condition `stop_here == NULL || frame < (StgPtr)stop_here`. -/
def inLoop (stop_here : Option Int) (frame : Int) : Bool :=
  match stop_here with
  | none => true
  | some p => decide (frame < p)

/-- The `UPDATE_FRAME` case of the stack walk: build an `AP_STACK` from the
words from `sp` up to the update frame at `frame`, update the frame's
updatee with it (unless the updatee is the one of `stop_here`), and leave
the `AP_STACK` (or that updatee) in the last word of the frame.  The result
is the new state and the new value of `sp`. -/
def freezeUpdateFrame (K : Rts) (cap tso updatee : Addr) (s : Machine) (sp frame : Int) :
    Machine × Int :=
  let stack := (s.tso tso).stack
  let words : Nat := (frame - sp - 1).toNat
  let a := allocate s cap (K.AP_STACK_sizeW words)
  let ap := a.1
  let obj : StgAP_STACK :=
    { header := Info.stg_AP_STACK_info, size := words, fun_ := stack sp,
      payload := (List.range words).map (fun (i : Nat) => stack (sp + 1 + (i : Int))) }
  let s1 : Machine := { a.2 with ap_stack := upd a.2.ap_stack ap obj }
  let sp1 : Int := sp + 1 + (words : Int)
  let u := updateeOf K stack frame
  let ap1 : Addr := if u = updatee then updatee else ap
  let s2 : Machine := if u = updatee then s1 else s1.emit (Event.UPD_IND cap u ap)
  let sp2 : Int := sp1 + ((K.sizeofW_StgUpdateFrame - 1 : Nat) : Int)
  (s2.setTSO tso (fun t => { t with stack := upd t.stack sp2 ap1 }), sp2)

/-- The `STOP_FRAME` case: the thread is dead. -/
def killThread (K : Rts) (tso : Addr) (s : Machine) (frame : Int) : Machine :=
  s.setTSO tso (fun t =>
    { t with what_next := WhatNext.ThreadKilled,
             sp := frame + (K.sizeofW_StgStopFrame : Int) })

/-- The `CATCH_FRAME` case with an exception to raise: build the thunk
`raise(exception)` and leave it, under `stg_enter_info`, on top of the catch
frame. -/
def raiseAtCatchFrame (K : Rts) (cap tso exception : Addr) (s : Machine) (frame : Int) :
    Machine :=
  let a := allocate s cap (K.sizeofW_StgThunk + 1)
  let raise := a.1
  let obj : StgThunk := { header := Info.stg_raise_info, payload0 := exception }
  let s1 : Machine := { a.2 with thunk := upd a.2.thunk raise obj }
  let sp1 : Int := frame - 1
  s1.setTSO tso (fun t =>
    { t with flags := t.flags ||| (K.TSO_BLOCKEX ||| K.TSO_INTERRUPTIBLE),
             stack := upd (upd t.stack sp1 raise) (sp1 - 1) K.stg_enter_info,
             sp := sp1 - 1,
             what_next := WhatNext.ThreadRunGHC })

/-- The `ATOMICALLY_FRAME` case under `stop_at_atomically`: condemn the
transaction and leave a dummy result on top of the frame. -/
def stopAtAtomically (K : Rts) (cap tso : Addr) (s : Machine) (frame : Int) : Machine :=
  let s1 := s.emit (Event.stmCondemnTransaction cap (s.tso tso).trec)
  s1.setTSO tso (fun t =>
    { t with sp := frame - 2,
             stack := upd (upd t.stack (frame - 2 + 1) K.stg_NO_TREC_closure)
               (frame - 2) K.stg_gc_unpt_r1_info,
             what_next := WhatNext.ThreadRunGHC })

/-- The transaction frames that are passed: abort and free the current
transaction record and make its enclosing record the current one. -/
def abortTransaction (cap tso : Addr) (s : Machine) : Machine :=
  let trec := (s.tso tso).trec
  let outer := s.enclosing_trec trec
  (((s.emit (Event.debugTrace DebugMsg.found_atomically)).emit
    (Event.stmAbortTransaction cap trec)).emit
    (Event.stmFreeAbortedTRec cap trec)).setTSO tso (fun t => { t with trec := outer })

/-- The statement `frame += stack_frame_sizeW((StgClosure *)frame)`. -/
def nextFrame (K : Rts) (stack : Int → Word) (frame : Int) : Int :=
  frame + (K.stack_frame_sizeW (fun (i : Nat) => stack (frame + (i : Int))) : Int)

/-- The stack walk of `raiseAsync`: the `while` loop, with the local
variables `sp` and `frame`. -/
def raiseAsyncLoop (K : Rts) (cap tso exception : Addr) (stop_at_atomically : Bool)
    (stop_here : Option Int) (updatee : Addr) : Nat → Machine → Int → Int → Res Unit
  | 0, _, _, _ => Res.spin
  | fuel + 1, s, sp, frame =>
    if inLoop stop_here frame then
      let next (s1 : Machine) : Res Unit :=
        raiseAsyncLoop K cap tso exception stop_at_atomically stop_here updatee fuel s1 sp
          (nextFrame K (s.tso tso).stack frame)
      match K.get_ret_itbl ((s.tso tso).stack frame) with
      | FrameType.UPDATE_FRAME =>
        let r := freezeUpdateFrame K cap tso updatee s sp frame
        raiseAsyncLoop K cap tso exception stop_at_atomically stop_here updatee fuel r.1 r.2
          (r.2 + 1)
      | FrameType.STOP_FRAME => Res.ok () (killThread K tso s frame)
      | FrameType.CATCH_FRAME =>
        if exception = NULL then next s
        else Res.ok () (raiseAtCatchFrame K cap tso exception s frame)
      | FrameType.ATOMICALLY_FRAME =>
        if stop_at_atomically then Res.ok () (stopAtAtomically K cap tso s frame)
        else next (abortTransaction cap tso s)
      | FrameType.CATCH_STM_FRAME => next (abortTransaction cap tso s)
      | FrameType.CATCH_RETRY_FRAME => next (abortTransaction cap tso s)
      | FrameType.other _ => next s
    else Res.ok () s

/-- The stack freezing code wants a closure pointer on top of the stack: drop
a leading `stg_enter_info`, or else push `stg_dummy_ret_closure`.  The
result is the new state and the local `sp`. -/
def normaliseTop (K : Rts) (tso : Addr) (s : Machine) : Machine × Int :=
  let sp := (s.tso tso).sp
  if (s.tso tso).stack sp = K.stg_enter_info then (s, sp + 1)
  else
    (s.setTSO tso (fun o => { o with stack := upd o.stack (sp - 1) K.stg_dummy_ret_closure }),
      sp - 1)

/-- The local `updatee` of `raiseAsync`: `stop_here->updatee`, or `NULL`
without a `stop_here`. -/
def stopUpdatee (K : Rts) (stack : Int → Word) (stop_here : Option Int) : Addr :=
  match stop_here with
  | some p => updateeOf K stack p
  | none => NULL

/-- The statements of `raiseAsync` before the loop, for the thread `t` that
the relocation links from `tso` lead to: the `debugTrace` line, `dirty_TSO`,
and the top of the stack put in order.  The result is the state and the
local `sp`. -/
def raiseStart (K : Rts) (cap tso t : Addr) (s : Machine) : Machine × Int :=
  normaliseTop K t
    ((s.emit (Event.debugTrace (DebugMsg.raising_exception (s.tso tso).id))).emit
      (Event.dirty_TSO cap t))

/-- The function `raiseAsync`: raise `exception` in `tso`, unwinding its stack. -/
def raiseAsync (K : Rts) (fuel : Nat) (s : Machine) (cap tso exception : Addr)
    (stop_at_atomically : Bool) (stop_here : Option Int) : Res Unit :=
  match followRelocated fuel
      (s.emit (Event.debugTrace (DebugMsg.raising_exception (s.tso tso).id))) tso with
  | none => Res.spin
  | some t =>
    let r := raiseStart K cap tso t s
    raiseAsyncLoop K cap t exception stop_at_atomically stop_here
      (stopUpdatee K (s.tso t).stack stop_here) fuel r.1 r.2 (r.2 + 1)

/-- Sequencing of two steps: the second runs on the state the first leaves. -/
def Res.bind {α β : Type} (r : Res α) (f : α → Machine → Res β) : Res β :=
  match r with
  | Res.ok a s => f a s
  | Res.barf => Res.barf
  | Res.spin => Res.spin

/-- The function `throwToSendMsg`: its body is compiled only under `THREADED_RTS`. -/
def throwToSendMsg (K : Rts) (s : Machine) (_cap target_cap msg : Addr) : Machine :=
  if K.THREADED_RTS then
    (s.emit (Event.debugTrace (DebugMsg.throwTo_sending target_cap))).emit
      (Event.sendMessage target_cap msg)
  else s

/-- The function `blockedThrowTo`: put `msg` at the front of the target's
`blocked_exceptions` queue. -/
def blockedThrowTo (s : Machine) (cap target msg : Addr) : Machine :=
  let s0 := s.emit (Event.debugTrace (DebugMsg.throwTo_blocking (s.tso target).id))
  let obj : MessageThrowTo := { s0.msg msg with link := (s0.tso target).blocked_exceptions }
  let s1 : Machine := { s0 with msg := upd s0.msg msg obj }
  let s2 := s1.setTSO target (fun t => { t with blocked_exceptions := msg })
  s2.emit (Event.dirty_TSO cap target)

/-- The function `removeFromQueues`: take a thread off whatever it is blocked on. -/
def removeFromQueues (K : Rts) (s : Machine) (cap tso : Addr) : Res Unit :=
  let done (s1 : Machine) : Res Unit := Res.ok () (s1.emit (Event.unblockOne cap tso))
  let io (s1 : Machine) : Res Unit :=
    let s2 := s1.emit (Event.removeThreadFromDeQueue cap Queue.blocked_queue tso)
    if K.mingw32_HOST_OS then done (s2.emit (Event.abandonWorkRequest (s.tso tso).block_info))
    else done s2
  match (s.tso tso).why_blocked with
  | WhyBlocked.NotBlocked => Res.ok () s
  | WhyBlocked.BlockedOnSTM => done s
  | WhyBlocked.BlockedOnMVar =>
    done (s.emit (Event.removeThreadFromMVarQueue cap (s.tso tso).block_info tso))
  | WhyBlocked.BlockedOnBlackHole =>
    done (s.emit (Event.removeThreadFromQueue cap Queue.blackhole_queue tso))
  | WhyBlocked.BlockedOnMsgWakeup =>
    done (s.setInfo (s.tso tso).block_info Info.stg_IND_info)
  | WhyBlocked.BlockedOnMsgThrowTo =>
    done (unlockClosure s (s.tso tso).block_info Info.stg_IND_info)
  | WhyBlocked.BlockedOnRead => if K.THREADED_RTS then Res.barf else io s
  | WhyBlocked.BlockedOnWrite => if K.THREADED_RTS then Res.barf else io s
  | WhyBlocked.BlockedOnDoProc =>
    if K.THREADED_RTS then Res.barf
    else if K.mingw32_HOST_OS then io s else Res.barf
  | WhyBlocked.BlockedOnDelay =>
    if K.THREADED_RTS then Res.barf
    else done (s.emit (Event.removeThreadFromQueue cap Queue.sleeping_queue tso))
  | WhyBlocked.BlockedOnCCall => Res.barf
  | WhyBlocked.BlockedOnCCall_NoUnblockExc => Res.barf
  | WhyBlocked.other _ => Res.barf

/-- The function `throwToSingleThreaded_`. -/
def throwToSingleThreaded_ (K : Rts) (fuel : Nat) (s : Machine) (cap tso exception : Addr)
    (stop_at_atomically : Bool) : Res Unit :=
  if (s.tso tso).what_next = WhatNext.ThreadComplete
      ∨ (s.tso tso).what_next = WhatNext.ThreadKilled then Res.ok () s
  else
    (removeFromQueues K s cap tso).bind fun _ s1 =>
      raiseAsync K fuel s1 cap tso exception stop_at_atomically none

/-- The function `throwToSingleThreaded`. -/
def throwToSingleThreaded (K : Rts) (fuel : Nat) (s : Machine) (cap tso exception : Addr) :
    Res Unit :=
  throwToSingleThreaded_ K fuel s cap tso exception false

/-- The function `suspendComputation`. -/
def suspendComputation (K : Rts) (fuel : Nat) (s : Machine) (cap tso : Addr)
    (stop_here : Option Int) : Res Unit :=
  if (s.tso tso).what_next = WhatNext.ThreadComplete
      ∨ (s.tso tso).what_next = WhatNext.ThreadKilled then Res.ok () s
  else
    (removeFromQueues K s cap tso).bind fun _ s1 =>
      raiseAsync K fuel s1 cap tso NULL false stop_here

/-- The test `(flags & TSO_BLOCKEX) && ((flags & TSO_INTERRUPTIBLE) == 0)`. -/
def blockedUninterruptibly (K : Rts) (t : StgTSO) : Bool :=
  decide (t.flags &&& K.TSO_BLOCKEX ≠ 0) && decide (t.flags &&& K.TSO_INTERRUPTIBLE = 0)

/-- The part of `throwToMsg` from the label `check_target` on; a
`goto retry` is the recursive call. -/
def throwToMsgCheck (K : Rts) (cap msg : Addr) : Nat → Machine → Addr → Res ThrowToResult
  | 0, _, _ => Res.spin
  | fuel + 1, s, target =>
    let T := s.tso target
    let retry (s1 : Machine) (target1 : Addr) : Res ThrowToResult :=
      throwToMsgCheck K cap msg fuel (s1.emit (Event.debugTrace DebugMsg.throwTo_retrying)) target1
    let raise (s1 : Machine) (after : Machine → Machine) : Res ThrowToResult :=
      (raiseAsync K fuel s1 cap target (s1.msg msg).exception false none).bind fun _ s2 =>
        Res.ok ThrowToResult.THROWTO_SUCCESS (after s2)
    let sendOrBlock (s1 : Machine) : Machine :=
      if (s1.tso target).cap ≠ cap then throwToSendMsg K s1 cap (s1.tso target).cap msg
      else blockedThrowTo s1 cap target msg
    let io : Res ThrowToResult :=
      if blockedUninterruptibly K T then
        Res.ok ThrowToResult.THROWTO_BLOCKED (blockedThrowTo s cap target msg)
      else
        (removeFromQueues K s cap target).bind fun _ s1 => raise s1 id
    if T.what_next = WhatNext.ThreadComplete ∨ T.what_next = WhatNext.ThreadKilled then
      Res.ok ThrowToResult.THROWTO_SUCCESS s
    else
      match T.why_blocked with
      | WhyBlocked.NotBlocked | WhyBlocked.BlockedOnMsgWakeup =>
        if T.cap ≠ cap then
          Res.ok ThrowToResult.THROWTO_BLOCKED (throwToSendMsg K s cap T.cap msg)
        else if T.flags &&& K.TSO_BLOCKEX = 0 then raise s id
        else Res.ok ThrowToResult.THROWTO_BLOCKED (blockedThrowTo s cap target msg)
      | WhyBlocked.BlockedOnMsgThrowTo =>
        let m := T.block_info
        let locked (i : Info) (s1 : Machine) : Res ThrowToResult :=
          if i ≠ Info.stg_MSG_THROWTO_info then retry (unlockClosure s1 m i) target
          else if (s1.tso target).cap ≠ cap then
            Res.ok ThrowToResult.THROWTO_BLOCKED
              (throwToSendMsg K (unlockClosure s1 m i) cap (s1.tso target).cap msg)
          else if blockedUninterruptibly K (s1.tso target) then
            Res.ok ThrowToResult.THROWTO_BLOCKED
              (blockedThrowTo (unlockClosure s1 m i) cap target msg)
          else
            raise (unlockClosure s1 m Info.stg_IND_info)
              (fun s2 => s2.emit (Event.unblockOne cap target))
        if m < msg then
          match lockClosure s m with
          | none => Res.spin
          | some r => locked r.1 r.2
        else
          match tryLockClosure s m with
          | (none, s1) =>
            Res.ok ThrowToResult.THROWTO_BLOCKED (throwToSendMsg K s1 cap (s1.tso target).cap msg)
          | (some i, s1) => locked i s1
      | WhyBlocked.BlockedOnMVar =>
        let mvar := T.block_info
        let isMVar : Bool :=
          match K.get_itbl (s.info mvar) with
          | ClosureType.MVAR_CLEAN => true
          | ClosureType.MVAR_DIRTY => true
          | ClosureType.other _ => false
        if isMVar then
          match lockClosure s mvar with
          | none => Res.spin
          | some r =>
            let info := r.1
            let s1 := r.2
            if (s1.tso target).what_next = WhatNext.ThreadRelocated then
              retry (unlockClosure s1 mvar info) (s1.tso target)._link
            else if (s1.tso target).why_blocked ≠ WhyBlocked.BlockedOnMVar
                ∨ (s1.tso target).block_info ≠ mvar then
              retry (unlockClosure s1 mvar info) target
            else if blockedUninterruptibly K (s1.tso target) then
              Res.ok ThrowToResult.THROWTO_BLOCKED (unlockClosure (sendOrBlock s1) mvar info)
            else
              raise (s1.emit (Event.removeThreadFromMVarQueue cap mvar target))
                (fun s2 => unlockClosure (s2.emit (Event.unblockOne cap target)) mvar info)
        else retry s target
      | WhyBlocked.BlockedOnBlackHole =>
        let s1 := s.emit Event.ACQUIRE_LOCK_sched_mutex
        if (s1.tso target).why_blocked ≠ WhyBlocked.BlockedOnBlackHole then
          retry (s1.emit Event.RELEASE_LOCK_sched_mutex) target
        else if (s1.tso target).flags &&& K.TSO_BLOCKEX ≠ 0 then
          Res.ok ThrowToResult.THROWTO_BLOCKED
            ((sendOrBlock s1).emit Event.RELEASE_LOCK_sched_mutex)
        else
          raise (s1.emit (Event.removeThreadFromQueue cap Queue.blackhole_queue target))
            (fun s2 => (s2.emit (Event.unblockOne cap target)).emit
              Event.RELEASE_LOCK_sched_mutex)
      | WhyBlocked.BlockedOnSTM =>
        let s1 := s.emit (Event.lockTSO target)
        if (s1.tso target).why_blocked ≠ WhyBlocked.BlockedOnSTM then
          retry (s1.emit (Event.unlockTSO target)) target
        else if blockedUninterruptibly K (s1.tso target) then
          Res.ok ThrowToResult.THROWTO_BLOCKED ((sendOrBlock s1).emit (Event.unlockTSO target))
        else
          raise s1 (fun s2 => (s2.emit (Event.unblockOne cap target)).emit
            (Event.unlockTSO target))
      | WhyBlocked.BlockedOnCCall | WhyBlocked.BlockedOnCCall_NoUnblockExc =>
        if T.cap ≠ cap then
          Res.ok ThrowToResult.THROWTO_BLOCKED (throwToSendMsg K s cap T.cap msg)
        else Res.ok ThrowToResult.THROWTO_BLOCKED (blockedThrowTo s cap target msg)
      | WhyBlocked.BlockedOnRead | WhyBlocked.BlockedOnWrite | WhyBlocked.BlockedOnDelay => io
      | WhyBlocked.BlockedOnDoProc => if K.mingw32_HOST_OS then io else Res.barf
      | WhyBlocked.other _ => Res.barf

/-- The function `throwToMsg`: follow `ThreadRelocated` links from `msg->target`, then
decide what to do with the message. -/
def throwToMsg (K : Rts) (fuel : Nat) (s : Machine) (cap msg : Addr) : Res ThrowToResult :=
  match followRelocated fuel s (s.msg msg).target with
  | none => Res.spin
  | some target =>
    let s0 := s.emit (Event.debugTrace (DebugMsg.throwTo_from_to
      (s.tso (s.msg msg).source).id (s.tso (s.msg msg).target).id))
    throwToMsgCheck K cap msg fuel s0 target

/-- The first statements of `throwTo`: allocate the message and fill it in,
with the header `stg_WHITEHOLE_info` (locked).  The `link` field is not
written. -/
def newMessage (K : Rts) (s : Machine) (cap source target exception : Addr) : Addr × Machine :=
  let a := allocate s cap K.sizeofW_MessageThrowTo
  let msg := a.1
  let s1 := a.2.setInfo msg Info.stg_WHITEHOLE_info
  let obj : MessageThrowTo :=
    { s1.msg msg with source := source, target := target, exception := exception }
  (msg, { s1 with msg := upd s1.msg msg obj })

/-- The function `throwTo`: build the message, locked, and hand it to `throwToMsg`; the
result is `NULL` when the exception was raised and the message otherwise. -/
def throwTo (K : Rts) (fuel : Nat) (s : Machine) (cap source target exception : Addr) :
    Res Addr :=
  let m := newMessage K s cap source target exception
  (throwToMsg K fuel m.2 cap m.1).bind fun r s3 =>
    match r with
    | ThrowToResult.THROWTO_SUCCESS => Res.ok NULL s3
    | ThrowToResult.THROWTO_BLOCKED => Res.ok m.1 s3

/-- The function `performBlockedException`.  The assertions are compiled
out; after the throw `source->sp += 3` dereferences the source, so with a
`NULL` source the run crashes there (`Res.barf`). -/
def performBlockedException (K : Rts) (fuel : Nat) (s : Machine) (cap msg : Addr) : Res Unit :=
  let source := (s.msg msg).source
  (throwToSingleThreaded K fuel s cap (s.msg msg).target (s.msg msg).exception).bind
    fun _ s1 =>
      if source = NULL then Res.barf
      else Res.ok () (s1.setTSO source (fun t => { t with sp := t.sp + 3 }))

/-- The `for` loop of `awakenBlockedExceptionQueue` over the queue from `msg`. -/
def awakenLoop (K : Rts) (cap : Addr) : Nat → Machine → Addr → Res Unit
  | 0, _, _ => Res.spin
  | fuel + 1, s, msg =>
    if msg ≠ K.END_BLOCKED_EXCEPTIONS_QUEUE then
      match lockClosure s msg with
      | none => Res.spin
      | some r =>
        let i := r.1
        let s1 := r.2
        let s2 := if i ≠ Info.stg_IND_info then
            s1.emit (Event.unblockOne_ cap (s1.msg msg).source false) else s1
        let s3 := unlockClosure s2 msg i
        awakenLoop K cap fuel s3 (s3.msg msg).link
    else Res.ok () s

/-- The function `awakenBlockedExceptionQueue`. -/
def awakenBlockedExceptionQueue (K : Rts) (fuel : Nat) (s : Machine) (cap tso : Addr) :
    Res Unit :=
  (awakenLoop K cap fuel s (s.tso tso).blocked_exceptions).bind fun _ s1 =>
    Res.ok () (s1.setTSO tso (fun t =>
      { t with blocked_exceptions := K.END_BLOCKED_EXCEPTIONS_QUEUE }))

/-- The part of `maybePerformBlockedException` from the label `loop` on. -/
def performLoop (K : Rts) (cap tso : Addr) : Nat → Machine → Res Nat
  | 0, _ => Res.spin
  | fuel + 1, s =>
    let msg := (s.tso tso).blocked_exceptions
    if msg = K.END_BLOCKED_EXCEPTIONS_QUEUE then Res.ok 0 s
    else
      match lockClosure s msg with
      | none => Res.spin
      | some r =>
        let i := r.1
        let s1 := r.2.setTSO tso (fun t => { t with blocked_exceptions := (r.2.msg msg).link })
        if i = Info.stg_IND_info then performLoop K cap tso fuel (unlockClosure s1 msg i)
        else
          (performBlockedException K fuel s1 cap msg).bind fun _ s2 =>
            let s3 := s2.emit (Event.unblockOne_ cap (s2.msg msg).source false)
            Res.ok 1 (unlockClosure s3 msg Info.stg_IND_info)

/-- The function `maybePerformBlockedException`. -/
def maybePerformBlockedException (K : Rts) (fuel : Nat) (s : Machine) (cap tso : Addr) :
    Res Nat :=
  let T := s.tso tso
  if T.what_next = WhatNext.ThreadComplete ∨ K.ThreadFinished = some T.what_next then
    if T.blocked_exceptions ≠ K.END_BLOCKED_EXCEPTIONS_QUEUE then
      (awakenBlockedExceptionQueue K fuel s cap tso).bind fun _ s1 => Res.ok 1 s1
    else Res.ok 0 s
  else
    let s0 :=
      if T.blocked_exceptions ≠ K.END_BLOCKED_EXCEPTIONS_QUEUE ∧ T.flags &&& K.TSO_BLOCKEX ≠ 0
      then s.emit (Event.debugTrace (DebugMsg.throwTo_inside_block T.id)) else s
    if T.blocked_exceptions ≠ K.END_BLOCKED_EXCEPTIONS_QUEUE
        ∧ (T.flags &&& K.TSO_BLOCKEX = 0
          ∨ (T.flags &&& K.TSO_INTERRUPTIBLE ≠ 0 ∧ K.interruptible T = true)) then
      performLoop K cap tso fuel s0
    else Res.ok 0 s0

/-- The message `msg` is locked and holds the given source, target and
exception. -/
def LockedWith (msg src tgt exc : Addr) (s : Machine) : Prop :=
  s.info msg = Info.stg_WHITEHOLE_info ∧ (s.msg msg).source = src
    ∧ (s.msg msg).target = tgt ∧ (s.msg msg).exception = exc

/-- The three things `throwToMsg` can do with a message, as they show in the
trace: `raiseAsync` was entered (its `debugTrace` line), the message was
sent to a capability, or `blockedThrowTo` was entered (its `debugTrace`
line). -/
inductive Action where
  | raise (id : Nat)
  | send (target_cap msg : Addr)
  | push (target_id : Nat)
  deriving DecidableEq, Repr

/-- The action an event stands for, if any. -/
def actionOf : Event → Option Action
  | Event.debugTrace (DebugMsg.raising_exception id) => some (Action.raise id)
  | Event.sendMessage tc m => some (Action.send tc m)
  | Event.debugTrace (DebugMsg.throwTo_blocking id) => some (Action.push id)
  | _ => none

/-- The actions of a trace, in order. -/
def actions (tr : List Event) : List Action := tr.filterMap actionOf

/-! ## The shape of a stack -/

/-- Where the walk goes after passing the frame at `f` of type `ty`: past the
update frame, or by the frame's size. -/
def frameAfter (K : Rts) (stk : Int → Word) (f : Int) (ty : FrameType) : Int :=
  if ty = FrameType.UPDATE_FRAME then f + (K.sizeofW_StgUpdateFrame : Int)
  else nextFrame K stk f

/-- The frames `l` (position and type, none of them a stop frame) lie on the
stack `stk` one after the other from `f`, and `e` is where the next frame
would start. -/
def Chain (K : Rts) (stk : Int → Word) : Int → List (Int × FrameType) → Int → Prop
  | f, [], e => f = e
  | f, x :: l, e =>
    x.1 = f ∧ K.get_ret_itbl (stk f) = x.2 ∧ x.2 ≠ FrameType.STOP_FRAME
      ∧ Chain K stk (frameAfter K stk f x.2) l e

/-- The walk does not stop at the frame `x`: the frame is above `stop_here`,
it is a catch frame only when there is no exception to raise, and it is an
atomically frame only when the walk was not asked to stop there. -/
def Passes (exception : Addr) (stop_at_atomically : Bool) (stop_here : Option Int)
    (x : Int × FrameType) : Prop :=
  inLoop stop_here x.1 = true
    ∧ (x.2 = FrameType.CATCH_FRAME → exception = NULL)
    ∧ (x.2 = FrameType.ATOMICALLY_FRAME → stop_at_atomically = false)

/-- The word the update-frame step leaves in place of the frame. -/
def frozenWord (K : Rts) (tso updatee : Addr) (s : Machine) (frame : Int) : Addr :=
  if updateeOf K (s.tso tso).stack frame = updatee then updatee else s.hp

/-- What one iteration of the walk does at a frame it passes, to the state
and the local `sp`. -/
def passFrame (K : Rts) (cap tso updatee : Addr) (st : Machine × Int) (p : Int)
    (ty : FrameType) : Machine × Int :=
  match ty with
  | FrameType.UPDATE_FRAME => freezeUpdateFrame K cap tso updatee st.1 st.2 p
  | FrameType.ATOMICALLY_FRAME => (abortTransaction cap tso st.1, st.2)
  | FrameType.CATCH_STM_FRAME => (abortTransaction cap tso st.1, st.2)
  | FrameType.CATCH_RETRY_FRAME => (abortTransaction cap tso st.1, st.2)
  | _ => st

/-- The iterations of the walk over the frames `l`, all of them passed. -/
def walk (K : Rts) (cap tso updatee : Addr) : List (Int × FrameType) → Machine × Int →
    Machine × Int
  | [], st => st
  | x :: l, st => walk K cap tso updatee l (passFrame K cap tso updatee st x.1 x.2)

/-- The position of the first frame the walk of `raiseAsync` looks at. -/
def firstFrame (K : Rts) (t : StgTSO) : Int :=
  if t.stack t.sp = K.stg_enter_info then t.sp + 1 + 1 else t.sp - 1 + 1

/-- The thread `t` is as in `s` but for its stack above `e` and its
transaction record, and the other threads are as in `s`. -/
def SameBelow (t : Addr) (e : Int) (s s1 : Machine) : Prop :=
  (∀ a, a ≠ t → s1.tso a = s.tso a)
    ∧ { s1.tso t with stack := (s.tso t).stack, trec := (s.tso t).trec } = s.tso t
    ∧ (∀ i, e ≤ i → (s1.tso t).stack i = (s.tso t).stack i)

/-- The state in which `maybePerformBlockedException` hands the message `m`
at the head of the queue of `tso` to `performBlockedException`: `m` is
locked and the queue is the rest after `m`. -/
def dequeued (s : Machine) (tso m : Addr) : Machine :=
  (s.setInfo m Info.stg_WHITEHOLE_info).setTSO tso
    (fun t => { t with blocked_exceptions := (s.msg m).link })

/-- What `maybePerformBlockedException` does when it delivers the message
`m` at the head of the queue of `tso`: the throw of `m` is performed with
`m` dequeued, then the source of `m` is woken and `m` is revoked, and the
result is `1`. -/
def deliverHead (K : Rts) (fuel : Nat) (s : Machine) (cap tso m : Addr) : Res Nat :=
  (performBlockedException K fuel (dequeued s tso m) cap m).bind fun _ s2 =>
    Res.ok 1 (unlockClosure (s2.emit (Event.unblockOne_ cap (s2.msg m).source false)) m
      Info.stg_IND_info)

/-- The updates a trace records: the cell updated and the closure it was
updated with, for each `UPD_IND`, in order. -/
def updatesOf (tr : List Event) : List (Addr × Addr) :=
  tr.filterMap fun e =>
    match e with
    | Event.UPD_IND _ u a => some (u, a)
    | _ => none

/-- The addresses a trace records as allocated, in order. -/
def allocsOf (tr : List Event) : List Addr :=
  tr.filterMap fun e =>
    match e with
    | Event.allocate _ _ p => some p
    | _ => none

/-- The updatees of the update frames among the frames `l` of a stack, in
stack order. -/
def cellsOf (K : Rts) (stk : Int → Word) (l : List (Int × FrameType)) : List Addr :=
  l.filterMap fun x =>
    if x.2 = FrameType.UPDATE_FRAME then some (updateeOf K stk x.1) else none

/-- The update frames among the frames `l`. -/
def updateFrames (l : List (Int × FrameType)) : List (Int × FrameType) :=
  l.filter fun x => decide (x.2 = FrameType.UPDATE_FRAME)

/-! ## Sample constants and states -/

namespace Example

/-- Frame types of the sample info pointers `200 .. 205`. -/
def frameType (w : Word) : FrameType :=
  if w = 200 then FrameType.UPDATE_FRAME
  else if w = 201 then FrameType.STOP_FRAME
  else if w = 202 then FrameType.CATCH_FRAME
  else if w = 203 then FrameType.ATOMICALLY_FRAME
  else if w = 204 then FrameType.CATCH_STM_FRAME
  else if w = 205 then FrameType.CATCH_RETRY_FRAME
  else FrameType.other 0

/-- Sample constants: a threaded, non-profiling build with one-word headers. -/
def rts : Rts where
  THREADED_RTS := true
  mingw32_HOST_OS := false
  TSO_BLOCKEX := 4
  TSO_INTERRUPTIBLE := 8
  ThreadFinished := some WhatNext.ThreadComplete
  END_BLOCKED_EXCEPTIONS_QUEUE := 1
  sizeofW_StgHeader := 1
  sizeofW_MessageThrowTo := 5
  sizeofW_StgThunk := 2
  AP_STACK_sizeW := fun n => n + 3
  stg_enter_info := 100
  stg_dummy_ret_closure := 101
  stg_NO_TREC_closure := 102
  stg_gc_unpt_r1_info := 103
  get_ret_itbl := frameType
  stack_frame_sizeW := fun f =>
    if f 0 = 200 then 2 else if f 0 = 201 then 1 else if f 0 = 202 then 3 else 2
  get_itbl := fun i =>
    match i with
    | Info.other 1 => ClosureType.MVAR_CLEAN
    | Info.other 2 => ClosureType.MVAR_DIRTY
    | _ => ClosureType.other 0
  interruptible := fun t =>
    match t.why_blocked with
    | WhyBlocked.BlockedOnMVar => true
    | WhyBlocked.BlockedOnMsgThrowTo => true
    | WhyBlocked.BlockedOnRead => true
    | WhyBlocked.BlockedOnWrite => true
    | WhyBlocked.BlockedOnDoProc => true
    | WhyBlocked.BlockedOnDelay => true
    | _ => false

/-- A runnable thread on capability `0` whose stack, from `sp = 10`, is a
stop frame alone. -/
def thread : StgTSO where
  _link := 0
  what_next := WhatNext.ThreadRunGHC
  why_blocked := WhyBlocked.NotBlocked
  flags := 0
  block_info := 0
  id := 7
  cap := 0
  trec := 0
  blocked_exceptions := 1
  sp := 10
  stack := fun i => if i = 10 then 201 else 0

/-- A machine in which every thread address holds `t`, every closure is an
unlocked message from thread `3` to thread `7` with exception `9`, and the
heap is free from address `1000`. -/
def machine (t : StgTSO) : Machine where
  tso := fun _ => t
  info := fun _ => Info.stg_MSG_THROWTO_info
  msg := fun _ => { link := 1, source := 3, target := 7, exception := 9 }
  ap_stack := fun _ => { header := Info.other 0, size := 0, fun_ := 0, payload := [] }
  thunk := fun _ => { header := Info.other 0, payload0 := 0 }
  enclosing_trec := fun _ => 0
  hp := 1000
  trace := []

/-- The sample thread, killed. -/
def deadThread : StgTSO := { thread with what_next := WhatNext.ThreadKilled }

/-- The sample thread, masking exceptions. -/
def maskedThread : StgTSO := { thread with flags := 4 }

/-- A runnable, unmasked thread whose stack, from `sp = 10`, is a two-word
return frame, an update frame for the cell `500`, a three-word catch frame
and the stop frame. -/
def catchThread : StgTSO :=
  { thread with
    stack := fun i =>
      if i = 10 then 300 else if i = 12 then 200 else if i = 13 then 500
      else if i = 14 then 202 else if i = 17 then 201 else 0 }

/-- The frames of `catchThread` above its catch frame. -/
def catchFrames : List (Int × FrameType) :=
  [(10, FrameType.other 0), (12, FrameType.UPDATE_FRAME)]

/-- The frames of `catchThread` above its stop frame. -/
def allFrames : List (Int × FrameType) :=
  [(10, FrameType.other 0), (12, FrameType.UPDATE_FRAME), (14, FrameType.CATCH_FRAME)]

/-- The sample machine with the masking thread with a catch frame, in which
the message at `5` carries the exception `91` and every other message the
exception `92`. -/
def queueMachine : Machine :=
  { machine { catchThread with flags := 4 } with
    msg := fun a =>
      if a = 5 then { link := 0, source := 3, target := 7, exception := 91 }
      else { link := 0, source := 3, target := 7, exception := 92 } }

/-- The message `5` and then the message `6` are filed on the queue of the
thread `7`, which then unmasks. -/
def filedThenUnmasked : Machine :=
  (blockedThrowTo (blockedThrowTo queueMachine 0 7 5) 0 7 6).setTSO 7
    (fun t => { t with flags := 0 })

end Example

/-- A projection of the state a run leaves, when it returns. -/
def Res.get? {α β : Type} (r : Res α) (f : Machine → β) : Option β :=
  match r with
  | Res.ok _ s => some (f s)
  | Res.barf => none
  | Res.spin => none

/-- The value a run returns, when it returns. -/
def Res.value? {α : Type} (r : Res α) : Option α :=
  match r with
  | Res.ok a _ => some a
  | Res.barf => none
  | Res.spin => none

/-- The sample machine with the message at address `5` locked. -/
def Example.lockedMachine (t : StgTSO) : Machine :=
  (Example.machine t).setInfo 5 Info.stg_WHITEHOLE_info

/-- The messages `ms`, in order, are the queue that starts at `h`: each is
linked to the next and the last to `END_BLOCKED_EXCEPTIONS_QUEUE`. -/
def QueueFrom (K : Rts) (s : Machine) : Addr → List Addr → Prop
  | h, [] => h = K.END_BLOCKED_EXCEPTIONS_QUEUE
  | h, m :: ms =>
    h = m ∧ m ≠ K.END_BLOCKED_EXCEPTIONS_QUEUE ∧ QueueFrom K s (s.msg m).link ms

/-- The messages of `ms` that are not revoked. -/
def liveMessages (s : Machine) (ms : List Addr) : List Addr :=
  ms.filter fun m => decide (s.info m ≠ Info.stg_IND_info)

/-- The calls `unblockOne_(cap, msg->source, rtsFalse)` for the messages of
`ms` that are not revoked, in order. -/
def wakeups (s : Machine) (cap : Addr) (ms : List Addr) : List Event :=
  (liveMessages s ms).map fun m => Event.unblockOne_ cap (s.msg m).source false

/-- The sample machine with the queue `5`, `6` for the thread `t`: the
message `5`, from the thread `3`, is live and linked to the message `6`,
from the thread `4`, which is revoked and is the last. -/
def Example.wakeMachine (t : StgTSO) : Machine :=
  { Example.machine { t with blocked_exceptions := 5 } with
    msg := fun a =>
      if a = 5 then { link := 6, source := 3, target := 7, exception := 91 }
      else { link := 1, source := 4, target := 7, exception := 92 }
    info := fun a => if a = 6 then Info.stg_IND_info else Info.stg_MSG_THROWTO_info }

/-- The sample thread, complete. -/
def Example.completeThread : StgTSO :=
  { Example.thread with what_next := WhatNext.ThreadComplete }

/-- The sample thread, blocked for the reason `w` on the object `b`, with the
flags `fl`. -/
def Example.blockedThread (w : WhyBlocked) (b : Addr) (fl : Nat) : StgTSO :=
  { Example.thread with why_blocked := w, block_info := b, flags := fl }

/-- What `throwToMsg` does with a message it neither raises nor drops: it
sends it when the target is on another capability and files it otherwise. -/
def sendOrBlock (K : Rts) (s : Machine) (cap target msg : Addr) : Machine :=
  if (s.tso target).cap ≠ cap then throwToSendMsg K s cap (s.tso target).cap msg
  else blockedThrowTo s cap target msg

/-- The sample machine in which the closure at `20` is a clean `MVar`. -/
def Example.mvarMachine (t : StgTSO) : Machine :=
  (Example.machine t).setInfo 20 (Info.other 1)

/-- The frames of the transaction subsystem: the walk aborts the current
transaction at each of them that it passes. -/
def isTxFrame (ty : FrameType) : Bool :=
  decide (ty = FrameType.ATOMICALLY_FRAME) || decide (ty = FrameType.CATCH_STM_FRAME)
    || decide (ty = FrameType.CATCH_RETRY_FRAME)

/-- The number of transaction frames among the frames `l`. -/
def txCount (l : List (Int × FrameType)) : Nat :=
  (l.filter fun x => isTxFrame x.2).length

/-- The transaction record `n` levels out from `r` (`enclosing_trec`
followed `n` times). -/
def enclosingN (s : Machine) : Nat → Addr → Addr
  | 0, r => r
  | n + 1, r => enclosingN s n (s.enclosing_trec r)

/-- The transaction record `r` and the `n - 1` records around it, innermost
first. -/
def trecsFrom (s : Machine) : Nat → Addr → List Addr
  | 0, _ => []
  | n + 1, r => r :: trecsFrom s n (s.enclosing_trec r)

/-- The transaction records a trace records as aborted
(`stmAbortTransaction`), in order. -/
def abortsOf (tr : List Event) : List Addr :=
  tr.filterMap fun e =>
    match e with
    | Event.stmAbortTransaction _ r => some r
    | _ => none

/-- The transaction records a trace records as condemned
(`stmCondemnTransaction`), in order. -/
def condemnsOf (tr : List Event) : List Addr :=
  tr.filterMap fun e =>
    match e with
    | Event.stmCondemnTransaction _ r => some r
    | _ => none

/-- A runnable thread in the transaction `40` whose stack, from `sp = 10`,
is a two-word return frame, an atomically frame, an update frame for the
cell `500` and the stop frame. -/
def Example.stmThread : StgTSO :=
  { Example.thread with
    trec := 40
    stack := fun i =>
      if i = 10 then 300 else if i = 12 then 203 else if i = 14 then 200
      else if i = 15 then 500 else if i = 16 then 201 else 0 }

/-- The transaction records a trace records as freed
(`stmFreeAbortedTRec`), in order. -/
def freesOf (tr : List Event) : List Addr :=
  tr.filterMap fun e =>
    match e with
    | Event.stmFreeAbortedTRec _ r => some r
    | _ => none

/-- A runnable thread whose stack, from `sp = 10`, is a two-word return
frame, an update frame for the cell `500`, an update frame for the cell
`600`, a second update frame for the cell `500` and the stop frame. -/
def Example.loopThread : StgTSO :=
  { Example.thread with
    stack := fun i =>
      if i = 10 then 300 else if i = 12 then 200 else if i = 13 then 500
      else if i = 14 then 200 else if i = 15 then 600
      else if i = 16 then 200 else if i = 17 then 500 else if i = 18 then 201 else 0 }

/-- The sample machine in which the queue of the thread `7` is the revoked
message `6` alone. -/
def Example.revokedMachine (t : StgTSO) : Machine :=
  { Example.machine { t with blocked_exceptions := 6 } with
    info := fun a => if a = 6 then Info.stg_IND_info else Info.stg_MSG_THROWTO_info }

/-- The actions a call of `throwToSendMsg` adds: the send of the message, in
the threaded runtime; its body is compiled only under `THREADED_RTS`. -/
def sendActions (K : Rts) (target_cap msg : Addr) : List Action :=
  if K.THREADED_RTS then [Action.send target_cap msg] else []

/-- What a returning call of `throwToMsg` on `msg`, whose target is the
thread `t`, did from the state `s`: nothing, the target being dead
(`THROWTO_SUCCESS`); one `raiseAsync` on the target with the exception of
`msg` (`THROWTO_SUCCESS`); one `throwToSendMsg` of `msg` to the capability of
the target, with no thread changed (`THROWTO_BLOCKED`); or one
`blockedThrowTo`, which puts `msg` at the front of the queue of the target
(`THROWTO_BLOCKED`). -/
def OneAction (K : Rts) (cap msg t : Addr) (s : Machine) (r : ThrowToResult) (s1 : Machine) :
    Prop :=
  (r = ThrowToResult.THROWTO_SUCCESS
    ∧ ((s.tso t).what_next = WhatNext.ThreadComplete
      ∨ (s.tso t).what_next = WhatNext.ThreadKilled)
    ∧ actions s1.trace = actions s.trace ∧ s1.tso = s.tso)
  ∨ (r = ThrowToResult.THROWTO_SUCCESS
    ∧ ¬ ((s.tso t).what_next = WhatNext.ThreadComplete
      ∨ (s.tso t).what_next = WhatNext.ThreadKilled)
    ∧ actions s1.trace = actions s.trace ++ [Action.raise (s.tso t).id]
    ∧ ∃ n s0 s2, s0.tso = s.tso
        ∧ raiseAsync K n s0 cap t (s.msg msg).exception false none = Res.ok () s2
        ∧ s1.tso = s2.tso)
  ∨ (r = ThrowToResult.THROWTO_BLOCKED
    ∧ ¬ ((s.tso t).what_next = WhatNext.ThreadComplete
      ∨ (s.tso t).what_next = WhatNext.ThreadKilled)
    ∧ actions s1.trace = actions s.trace ++ sendActions K (s.tso t).cap msg
    ∧ s1.tso = s.tso)
  ∨ (r = ThrowToResult.THROWTO_BLOCKED
    ∧ ¬ ((s.tso t).what_next = WhatNext.ThreadComplete
      ∨ (s.tso t).what_next = WhatNext.ThreadKilled)
    ∧ actions s1.trace = actions s.trace ++ [Action.push (s.tso t).id]
    ∧ s1.tso t = { s.tso t with blocked_exceptions := msg }
    ∧ (∀ a, a ≠ t → s1.tso a = s.tso a)
    ∧ (s1.msg msg).link = (s.tso t).blocked_exceptions)

/-- The sample machine in which the record `7` is a stale copy of a thread
that was moved: it is `ThreadRelocated` and linked to the thread at `8`, and
every other address holds the sample thread. -/
def Example.relocatedMachine : Machine :=
  { Example.machine Example.thread with
    tso := fun a =>
      if a = 7 then { Example.thread with what_next := WhatNext.ThreadRelocated, _link := 8 }
      else Example.thread }

/-- The kill of the sample thread through its relocated record `7`. -/
def Example.killedOnce : Res Unit :=
  throwToSingleThreaded Example.rts 4 Example.relocatedMachine 0 7 NULL

/-! ## Basic facts about the state operations -/

@[simp] theorem upd_apply {α β : Type} [DecidableEq α] (f : α → β) (a : α) (b : β)
    (x : α) :
    upd f a b x = if x = a then b else f x := rfl

@[simp] theorem emit_tso (s : Machine) (e : Event) : (s.emit e).tso = s.tso := rfl

@[simp] theorem emit_msg (s : Machine) (e : Event) : (s.emit e).msg = s.msg := rfl

@[simp] theorem emit_info (s : Machine) (e : Event) : (s.emit e).info = s.info := rfl

@[simp] theorem emit_hp (s : Machine) (e : Event) : (s.emit e).hp = s.hp := rfl

@[simp] theorem emit_trace (s : Machine) (e : Event) : (s.emit e).trace = s.trace ++ [e] := rfl

@[simp] theorem emit_ap_stack (s : Machine) (e : Event) : (s.emit e).ap_stack = s.ap_stack := rfl

@[simp] theorem emit_thunk (s : Machine) (e : Event) : (s.emit e).thunk = s.thunk := rfl

@[simp] theorem emit_enclosing_trec (s : Machine) (e : Event) :
    (s.emit e).enclosing_trec = s.enclosing_trec := rfl

@[simp] theorem setTSO_tso (s : Machine) (t : Addr) (f : StgTSO → StgTSO) :
    (s.setTSO t f).tso = upd s.tso t (f (s.tso t)) := rfl

@[simp] theorem setTSO_msg (s : Machine) (t : Addr) (f : StgTSO → StgTSO) :
    (s.setTSO t f).msg = s.msg := rfl

@[simp] theorem setTSO_info (s : Machine) (t : Addr) (f : StgTSO → StgTSO) :
    (s.setTSO t f).info = s.info := rfl

@[simp] theorem setTSO_hp (s : Machine) (t : Addr) (f : StgTSO → StgTSO) :
    (s.setTSO t f).hp = s.hp := rfl

@[simp] theorem setTSO_trace (s : Machine) (t : Addr) (f : StgTSO → StgTSO) :
    (s.setTSO t f).trace = s.trace := rfl

@[simp] theorem setTSO_ap_stack (s : Machine) (t : Addr) (f : StgTSO → StgTSO) :
    (s.setTSO t f).ap_stack = s.ap_stack := rfl

@[simp] theorem setTSO_thunk (s : Machine) (t : Addr) (f : StgTSO → StgTSO) :
    (s.setTSO t f).thunk = s.thunk := rfl

@[simp] theorem setTSO_enclosing_trec (s : Machine) (t : Addr) (f : StgTSO → StgTSO) :
    (s.setTSO t f).enclosing_trec = s.enclosing_trec := rfl

@[simp] theorem setInfo_tso (s : Machine) (p : Addr) (i : Info) : (s.setInfo p i).tso = s.tso := rfl

@[simp] theorem setInfo_msg (s : Machine) (p : Addr) (i : Info) : (s.setInfo p i).msg = s.msg := rfl

@[simp] theorem setInfo_info (s : Machine) (p : Addr) (i : Info) :
    (s.setInfo p i).info = upd s.info p i := rfl

@[simp] theorem setInfo_hp (s : Machine) (p : Addr) (i : Info) : (s.setInfo p i).hp = s.hp := rfl

@[simp] theorem setInfo_trace (s : Machine) (p : Addr) (i : Info) :
    (s.setInfo p i).trace = s.trace := rfl

@[simp] theorem bind_ok {α β : Type} (a : α) (s : Machine) (f : α → Machine → Res β) :
    (Res.ok a s).bind f = f a s := rfl

@[simp] theorem bind_barf {α β : Type} (f : α → Machine → Res β) :
    (Res.barf : Res α).bind f = Res.barf := rfl

@[simp] theorem bind_spin {α β : Type} (f : α → Machine → Res β) :
    (Res.spin : Res α).bind f = Res.spin := rfl

/-- Following relocation links reads only the thread map. -/
theorem followRelocated_congr (fuel : Nat) (s s1 : Machine) (h : s1.tso = s.tso) (t : Addr) :
    followRelocated fuel s1 t = followRelocated fuel s t := by
  induction fuel generalizing t with
  | zero => rfl
  | succ n ih => simp only [followRelocated, h, ih]

/-- A thread that is not relocated is where the links end. -/
theorem followRelocated_self (fuel : Nat) (s : Machine) (t : Addr)
    (h : (s.tso t).what_next ≠ WhatNext.ThreadRelocated) :
    followRelocated (fuel + 1) s t = some t := by
  simp [followRelocated, h]

/-- More fuel does not change where the links end. -/
theorem followRelocated_mono (fuel : Nat) (s : Machine) (t r : Addr)
    (h : followRelocated fuel s t = some r) (k : Nat) :
    followRelocated (fuel + k) s t = some r := by
  induction fuel generalizing t with
  | zero => simp [followRelocated] at h
  | succ n ih =>
    have e : n + 1 + k = (n + k) + 1 := by omega
    rw [e]
    simp only [followRelocated] at h ⊢
    split at h
    · rename_i hr; simp only [hr, if_true]; exact ih _ h
    · rename_i hr; simp only [hr, if_false]; exact h

/-! ## The decisions of `throwToMsg` -/

@[simp] theorem newMessage_fst (K : Rts) (s : Machine) (cap source target exception : Addr) :
    (newMessage K s cap source target exception).1 = s.hp := rfl

@[simp] theorem newMessage_tso (K : Rts) (s : Machine) (cap source target exception : Addr) :
    (newMessage K s cap source target exception).2.tso = s.tso := rfl

@[simp] theorem newMessage_msg (K : Rts) (s : Machine) (cap source target exception : Addr) :
    (newMessage K s cap source target exception).2.msg s.hp
      = { s.msg s.hp with source := source, target := target, exception := exception } := by
  simp [newMessage, allocate]

@[simp] theorem newMessage_info (K : Rts) (s : Machine) (cap source target exception : Addr) :
    (newMessage K s cap source target exception).2.info s.hp = Info.stg_WHITEHOLE_info := by
  simp [newMessage, allocate]

/-- C2: a message whose target (after following relocation links) is
`ThreadComplete` or `ThreadKilled` makes `throwToMsg` return
`THROWTO_SUCCESS` with nothing raised, sent or queued: the state it leaves
is the state it found with the `debugTrace` line added to the trace, so the
target's stack, flags, status and `blocked_exceptions` are as before; and
`throwTo` on such a target returns `NULL`, leaving the state in which it
built the message with that same line added. -/
theorem throwToMsg_dead_target (K : Rts) (fuel : Nat) (s : Machine) (cap tgt target : Addr)
    (hrel : followRelocated fuel s tgt = some target)
    (hdead : (s.tso target).what_next = WhatNext.ThreadComplete
      ∨ (s.tso target).what_next = WhatNext.ThreadKilled) :
    (∀ msg, (s.msg msg).target = tgt →
      throwToMsg K fuel s cap msg = Res.ok ThrowToResult.THROWTO_SUCCESS
        (s.emit (Event.debugTrace (DebugMsg.throwTo_from_to
          (s.tso (s.msg msg).source).id (s.tso tgt).id))))
    ∧ (∀ source exception,
        throwTo K fuel s cap source tgt exception = Res.ok NULL
          ((newMessage K s cap source tgt exception).2.emit
            (Event.debugTrace (DebugMsg.throwTo_from_to (s.tso source).id (s.tso tgt).id)))) := by
  obtain ⟨n, rfl⟩ : ∃ n, fuel = n + 1 := by
    cases fuel with
    | zero => simp [followRelocated] at hrel
    | succ n => exact ⟨n, rfl⟩
  constructor
  · intro msg hm
    simp only [throwToMsg, hm, hrel, throwToMsgCheck, emit_tso, hdead, if_true]
  · intro source exception
    simp only [throwTo, throwToMsg, newMessage_fst, newMessage_msg, newMessage_tso]
    rw [followRelocated_congr (n+1) s _ (newMessage_tso K s cap source tgt exception), hrel]
    simp only [throwToMsgCheck, emit_tso, newMessage_tso, hdead, if_true, bind_ok]

/-- C1: for a message whose target (after following relocation links) is
alive and `NotBlocked` or `BlockedOnMsgWakeup`, `throwToMsg` decides by the
owner and the mask.  If `target->cap != cap` it returns `THROWTO_BLOCKED`,
every thread is as before and (in the threaded runtime) the trace gains the
`sendMessage` of `msg` to `target->cap`.  If `target->cap == cap` and
`TSO_BLOCKEX` is clear it runs `raiseAsync` on the target with
`msg->exception` and returns `THROWTO_SUCCESS` in the state that leaves.  If
`target->cap == cap` and `TSO_BLOCKEX` is set it returns `THROWTO_BLOCKED`
with `msg` at the front of `target->blocked_exceptions`, linked to the old
front, the target otherwise as before and nothing raised. -/
theorem throwToMsg_not_blocked (K : Rts) (n : Nat) (s : Machine) (cap msg target : Addr)
    (hrel : followRelocated (n + 1) s (s.msg msg).target = some target)
    (halive : (s.tso target).what_next ≠ WhatNext.ThreadComplete
      ∧ (s.tso target).what_next ≠ WhatNext.ThreadKilled)
    (hwhy : (s.tso target).why_blocked = WhyBlocked.NotBlocked
      ∨ (s.tso target).why_blocked = WhyBlocked.BlockedOnMsgWakeup) :
    let d := Event.debugTrace (DebugMsg.throwTo_from_to
      (s.tso (s.msg msg).source).id (s.tso (s.msg msg).target).id)
    ((s.tso target).cap ≠ cap →
      throwToMsg K (n + 1) s cap msg
          = Res.ok ThrowToResult.THROWTO_BLOCKED
              (throwToSendMsg K (s.emit d) cap (s.tso target).cap msg)
        ∧ (throwToSendMsg K (s.emit d) cap (s.tso target).cap msg).tso = s.tso
        ∧ (throwToSendMsg K (s.emit d) cap (s.tso target).cap msg).msg = s.msg
        ∧ (K.THREADED_RTS = true →
            (throwToSendMsg K (s.emit d) cap (s.tso target).cap msg).trace
              = s.trace ++ [d, Event.debugTrace (DebugMsg.throwTo_sending (s.tso target).cap),
                  Event.sendMessage (s.tso target).cap msg]))
    ∧ ((s.tso target).cap = cap → (s.tso target).flags &&& K.TSO_BLOCKEX = 0 →
        throwToMsg K (n + 1) s cap msg
          = (raiseAsync K n (s.emit d) cap target (s.msg msg).exception false none).bind
              (fun _ s2 => Res.ok ThrowToResult.THROWTO_SUCCESS s2))
    ∧ ((s.tso target).cap = cap → (s.tso target).flags &&& K.TSO_BLOCKEX ≠ 0 →
        throwToMsg K (n + 1) s cap msg
          = Res.ok ThrowToResult.THROWTO_BLOCKED (blockedThrowTo (s.emit d) cap target msg)
        ∧ (blockedThrowTo (s.emit d) cap target msg).tso target
            = { s.tso target with blocked_exceptions := msg }
        ∧ (∀ a, a ≠ target → (blockedThrowTo (s.emit d) cap target msg).tso a = s.tso a)
        ∧ (blockedThrowTo (s.emit d) cap target msg).msg msg
            = { s.msg msg with link := (s.tso target).blocked_exceptions }
        ∧ (blockedThrowTo (s.emit d) cap target msg).trace
            = s.trace ++ [d, Event.debugTrace (DebugMsg.throwTo_blocking (s.tso target).id),
                Event.dirty_TSO cap target]) := by
  intro d
  have hdead : ¬ ((s.tso target).what_next = WhatNext.ThreadComplete
      ∨ (s.tso target).what_next = WhatNext.ThreadKilled) := by
    rintro (h | h)
    · exact halive.1 h
    · exact halive.2 h
  refine ⟨?_, ?_, ?_⟩
  · intro hcap
    refine ⟨?_, ?_, ?_, ?_⟩
    · rcases hwhy with hw | hw <;>
        simp only [throwToMsg, hrel, throwToMsgCheck, emit_tso, hdead, if_false, hw, hcap,
          ne_eq, not_false_eq_true, if_true, d]
    · unfold throwToSendMsg; split <;> rfl
    · unfold throwToSendMsg; split <;> rfl
    · intro ht
      simp [throwToSendMsg, ht]
  · intro hcap hblk
    rcases hwhy with hw | hw <;>
      simp only [throwToMsg, hrel, throwToMsgCheck, emit_tso, emit_msg, hdead, if_false, hw,
        hcap, ne_eq, not_true_eq_false, if_true, hblk, d, id]
  · intro hcap hblk
    refine ⟨?_, ?_, ?_, ?_, ?_⟩
    · rcases hwhy with hw | hw <;>
        simp only [throwToMsg, hrel, throwToMsgCheck, emit_tso, hdead, if_false, hw, hcap,
          ne_eq, not_true_eq_false, if_true, hblk, d]
    · simp [blockedThrowTo]
    · intro a ha
      simp [blockedThrowTo, ha]
    · simp [blockedThrowTo]
    · simp [blockedThrowTo]

/-! ## What the stack walk leaves alone -/

@[simp] theorem normaliseTop_info (K : Rts) (tso : Addr) (s : Machine) :
    (normaliseTop K tso s).1.info = s.info := by
  simp only [normaliseTop]; split <;> rfl

@[simp] theorem normaliseTop_msg (K : Rts) (tso : Addr) (s : Machine) :
    (normaliseTop K tso s).1.msg = s.msg := by
  simp only [normaliseTop]; split <;> rfl

@[simp] theorem normaliseTop_trace (K : Rts) (tso : Addr) (s : Machine) :
    (normaliseTop K tso s).1.trace = s.trace := by
  simp only [normaliseTop]; split <;> rfl

@[simp] theorem freezeUpdateFrame_info (K : Rts) (cap tso updatee : Addr) (s : Machine)
    (sp frame : Int) : (freezeUpdateFrame K cap tso updatee s sp frame).1.info = s.info := by
  simp only [freezeUpdateFrame]; split <;> rfl

@[simp] theorem freezeUpdateFrame_msg (K : Rts) (cap tso updatee : Addr) (s : Machine)
    (sp frame : Int) : (freezeUpdateFrame K cap tso updatee s sp frame).1.msg = s.msg := by
  simp only [freezeUpdateFrame]; split <;> rfl

@[simp] theorem killThread_info (K : Rts) (tso : Addr) (s : Machine) (frame : Int) :
    (killThread K tso s frame).info = s.info := rfl

@[simp] theorem killThread_msg (K : Rts) (tso : Addr) (s : Machine) (frame : Int) :
    (killThread K tso s frame).msg = s.msg := rfl

@[simp] theorem raiseAtCatchFrame_info (K : Rts) (cap tso exception : Addr) (s : Machine)
    (frame : Int) : (raiseAtCatchFrame K cap tso exception s frame).info = s.info := rfl

@[simp] theorem raiseAtCatchFrame_msg (K : Rts) (cap tso exception : Addr) (s : Machine)
    (frame : Int) : (raiseAtCatchFrame K cap tso exception s frame).msg = s.msg := rfl

@[simp] theorem stopAtAtomically_info (K : Rts) (cap tso : Addr) (s : Machine) (frame : Int) :
    (stopAtAtomically K cap tso s frame).info = s.info := rfl

@[simp] theorem stopAtAtomically_msg (K : Rts) (cap tso : Addr) (s : Machine) (frame : Int) :
    (stopAtAtomically K cap tso s frame).msg = s.msg := rfl

@[simp] theorem abortTransaction_info (cap tso : Addr) (s : Machine) :
    (abortTransaction cap tso s).info = s.info := rfl

@[simp] theorem abortTransaction_msg (cap tso : Addr) (s : Machine) :
    (abortTransaction cap tso s).msg = s.msg := rfl

/-- The stack walk writes neither closure headers nor messages. -/
theorem raiseAsyncLoop_info_msg (K : Rts) (cap tso exception : Addr) (saa : Bool)
    (stop_here : Option Int) (updatee : Addr) (fuel : Nat) (s : Machine) (sp frame : Int)
    (u : Unit) (s1 : Machine)
    (h : raiseAsyncLoop K cap tso exception saa stop_here updatee fuel s sp frame = Res.ok u s1) :
    s1.info = s.info ∧ s1.msg = s.msg := by
  induction fuel generalizing s sp frame with
  | zero => simp [raiseAsyncLoop] at h
  | succ n ih =>
    simp only [raiseAsyncLoop] at h
    split at h
    · split at h
      · have := ih _ _ _ h
        simpa using this
      · cases h; simp
      · split at h
        · exact ih _ _ _ h
        · cases h; simp
      · split at h
        · cases h; simp
        · have := ih _ _ _ h
          simpa using this
      · have := ih _ _ _ h
        simpa using this
      · have := ih _ _ _ h
        simpa using this
      · exact ih _ _ _ h
    · cases h; exact ⟨rfl, rfl⟩

/-- The function `raiseAsync` writes neither closure headers nor messages. -/
theorem raiseAsync_info_msg (K : Rts) (fuel : Nat) (s : Machine) (cap tso exception : Addr)
    (saa : Bool) (stop_here : Option Int) (u : Unit) (s1 : Machine)
    (h : raiseAsync K fuel s cap tso exception saa stop_here = Res.ok u s1) :
    s1.info = s.info ∧ s1.msg = s.msg := by
  simp only [raiseAsync] at h
  split at h
  · cases h
  · have := raiseAsyncLoop_info_msg _ _ _ _ _ _ _ _ _ _ _ _ _ h
    simpa [raiseStart] using this

/-! ## The message stays locked -/

theorem LockedWith.emit {msg src tgt exc : Addr} {s : Machine}
    (h : LockedWith msg src tgt exc s) (e : Event) : LockedWith msg src tgt exc (s.emit e) := h

theorem LockedWith.of_eq {msg src tgt exc : Addr} {s s1 : Machine}
    (h : LockedWith msg src tgt exc s) (hi : s1.info = s.info) (hm : s1.msg = s.msg) :
    LockedWith msg src tgt exc s1 := by
  unfold LockedWith at *
  rw [hi, hm]; exact h

theorem LockedWith.throwToSendMsg {msg src tgt exc : Addr} {s : Machine}
    (h : LockedWith msg src tgt exc s) (K : Rts) (cap tc m : Addr) :
    LockedWith msg src tgt exc (throwToSendMsg K s cap tc m) := by
  unfold RaiseAsync.throwToSendMsg
  split
  · exact h
  · exact h

theorem LockedWith.blockedThrowTo {msg src tgt exc : Addr} {s : Machine}
    (h : LockedWith msg src tgt exc s) (cap target m : Addr) :
    LockedWith msg src tgt exc (blockedThrowTo s cap target m) := by
  unfold LockedWith at *
  simp only [RaiseAsync.blockedThrowTo, emit_info, setTSO_info, emit_msg, setTSO_msg, emit_tso,
    upd_apply]
  refine ⟨h.1, ?_, ?_, ?_⟩ <;> split <;> simp_all

theorem LockedWith.unlockClosure {msg src tgt exc : Addr} {s : Machine}
    (h : LockedWith msg src tgt exc s) (p : Addr) (i : Info) (hp : p ≠ msg) :
    LockedWith msg src tgt exc (unlockClosure s p i) := by
  unfold LockedWith at *
  simp only [RaiseAsync.unlockClosure, setInfo_info, setInfo_msg, upd_apply]
  rw [if_neg (Ne.symm hp)]
  exact h

/-- Taking a lock succeeds only on a closure other than a locked one, and
leaves that one locked. -/
theorem LockedWith.lockClosure {msg src tgt exc : Addr} {s : Machine}
    (h : LockedWith msg src tgt exc s) (p : Addr) (r : Info × Machine)
    (hl : lockClosure s p = some r) : p ≠ msg ∧ LockedWith msg src tgt exc r.2 := by
  unfold RaiseAsync.lockClosure at hl
  split at hl
  · cases hl
  · rename_i hne
    cases hl
    have hp : p ≠ msg := by
      rintro rfl
      exact hne h.1
    refine ⟨hp, ?_⟩
    unfold LockedWith at *
    simp only [setInfo_info, setInfo_msg, upd_apply]
    rw [if_neg (Ne.symm hp)]
    exact h

/-- A try-lock that succeeds was on a closure other than a locked one, and
either way the locked one stays locked. -/
theorem LockedWith.tryLockClosure {msg src tgt exc : Addr} {s : Machine}
    (h : LockedWith msg src tgt exc s) (p : Addr) :
    LockedWith msg src tgt exc (tryLockClosure s p).2
      ∧ ((tryLockClosure s p).1 ≠ none → p ≠ msg) := by
  unfold RaiseAsync.tryLockClosure
  split
  · exact ⟨h, fun hn => absurd rfl hn⟩
  · rename_i hne
    have hp : p ≠ msg := by
      rintro rfl
      exact hne h.1
    refine ⟨?_, fun _ => hp⟩
    unfold LockedWith at *
    simp only [setInfo_info, setInfo_msg, upd_apply]
    rw [if_neg (Ne.symm hp)]
    exact h

/-- Off the two message-blocked states, `removeFromQueues` writes neither
closure headers nor messages. -/
theorem removeFromQueues_info_msg (K : Rts) (s : Machine) (cap tso : Addr) (u : Unit)
    (s1 : Machine) (h : removeFromQueues K s cap tso = Res.ok u s1)
    (h1 : (s.tso tso).why_blocked ≠ WhyBlocked.BlockedOnMsgWakeup)
    (h2 : (s.tso tso).why_blocked ≠ WhyBlocked.BlockedOnMsgThrowTo) :
    s1.info = s.info ∧ s1.msg = s.msg := by
  unfold removeFromQueues at h
  generalize hw : (s.tso tso).why_blocked = w at h h1 h2
  cases w <;> simp only at h <;> try contradiction
  all_goals
    first
    | (cases h; exact ⟨rfl, rfl⟩)
    | (split at h <;> first
        | exact Res.noConfusion h
        | (cases h; exact ⟨rfl, rfl⟩)
        | (split at h <;> first | exact Res.noConfusion h | (cases h; exact ⟨rfl, rfl⟩)))

/-- A step that ends in `Res.ok` after a `bind` went through `Res.ok`. -/
theorem bind_eq_ok {α β : Type} {r : Res α} {f : α → Machine → Res β} {b : β}
    {s1 : Machine}
    (h : r.bind f = Res.ok b s1) : ∃ a s0, r = Res.ok a s0 ∧ f a s0 = Res.ok b s1 := by
  cases r with
  | ok a s0 => exact ⟨a, s0, rfl, h⟩
  | barf => cases h
  | spin => cases h

/-- A step that crashes on a condition and ends in `Res.ok` did not meet the
condition. -/
theorem ite_barf_eq_ok {α : Type} {c : Prop} [Decidable c] {a b : α} {x s1 : Machine}
    (h : (if c then Res.barf else Res.ok a x) = Res.ok b s1) : ¬ c ∧ a = b ∧ x = s1 := by
  split at h
  · cases h
  · rename_i hc
    cases h
    exact ⟨hc, rfl, rfl⟩

/-- The exception is raised in a state where the message is locked, and what
follows keeps it so. -/
theorem LockedWith.raise {msg src tgt exc : Addr} {s : Machine}
    (h : LockedWith msg src tgt exc s) (K : Rts) (fuel : Nat) (cap target e : Addr)
    (after : Machine → Machine)
    (hafter : ∀ s2, LockedWith msg src tgt exc s2 → LockedWith msg src tgt exc (after s2))
    (r : ThrowToResult) (s1 : Machine)
    (he : (raiseAsync K fuel s cap target e false none).bind
      (fun _ s2 => Res.ok ThrowToResult.THROWTO_SUCCESS (after s2)) = Res.ok r s1) :
    LockedWith msg src tgt exc s1 := by
  obtain ⟨u, s0, h0, h1⟩ := bind_eq_ok he
  cases h1
  have := raiseAsync_info_msg _ _ _ _ _ _ _ _ _ _ h0
  exact hafter _ (h.of_eq this.1 this.2)

/-- A locked message stays locked, with its source, target and exception,
through `throwToMsg` from `check_target` on, whatever the result. -/
theorem throwToMsgCheck_locked (K : Rts) (cap msg src tgt exc : Addr) (fuel : Nat)
    (s : Machine) (target : Addr) (r : ThrowToResult) (s1 : Machine)
    (h : LockedWith msg src tgt exc s)
    (he : throwToMsgCheck K cap msg fuel s target = Res.ok r s1) :
    LockedWith msg src tgt exc s1 := by
  induction fuel generalizing s target with
  | zero => simp [throwToMsgCheck] at he
  | succ n ih =>
    simp only [throwToMsgCheck] at he
    split at he
    · cases he; exact h
    · generalize hw : (s.tso target).why_blocked = w at he
      cases w <;> simp only at he
      case NotBlocked =>
        split at he
        · cases he; exact h.throwToSendMsg _ _ _ _
        · split at he
          · exact h.raise K n cap target _ id (fun _ h2 => h2) r s1 he
          · cases he; exact h.blockedThrowTo _ _ _
      case BlockedOnMsgWakeup =>
        split at he
        · cases he; exact h.throwToSendMsg _ _ _ _
        · split at he
          · exact h.raise K n cap target _ id (fun _ h2 => h2) r s1 he
          · cases he; exact h.blockedThrowTo _ _ _
      case BlockedOnCCall =>
        split at he
        · cases he; exact h.throwToSendMsg _ _ _ _
        · cases he; exact h.blockedThrowTo _ _ _
      case BlockedOnCCall_NoUnblockExc =>
        split at he
        · cases he; exact h.throwToSendMsg _ _ _ _
        · cases he; exact h.blockedThrowTo _ _ _
      case other => cases he
      case BlockedOnRead =>
        split at he
        · cases he; exact h.blockedThrowTo _ _ _
        · obtain ⟨u, s0, h0, h1⟩ := bind_eq_ok he
          have hq := removeFromQueues_info_msg _ _ _ _ _ _ h0 (by simp [hw]) (by simp [hw])
          exact (h.of_eq hq.1 hq.2).raise K n cap target _ id (fun _ h2 => h2) r s1 h1
      case BlockedOnWrite =>
        split at he
        · cases he; exact h.blockedThrowTo _ _ _
        · obtain ⟨u, s0, h0, h1⟩ := bind_eq_ok he
          have hq := removeFromQueues_info_msg _ _ _ _ _ _ h0 (by simp [hw]) (by simp [hw])
          exact (h.of_eq hq.1 hq.2).raise K n cap target _ id (fun _ h2 => h2) r s1 h1
      case BlockedOnDelay =>
        split at he
        · cases he; exact h.blockedThrowTo _ _ _
        · obtain ⟨u, s0, h0, h1⟩ := bind_eq_ok he
          have hq := removeFromQueues_info_msg _ _ _ _ _ _ h0 (by simp [hw]) (by simp [hw])
          exact (h.of_eq hq.1 hq.2).raise K n cap target _ id (fun _ h2 => h2) r s1 h1
      case BlockedOnDoProc =>
        split at he
        · split at he
          · cases he; exact h.blockedThrowTo _ _ _
          · obtain ⟨u, s0, h0, h1⟩ := bind_eq_ok he
            have hq := removeFromQueues_info_msg _ _ _ _ _ _ h0 (by simp [hw]) (by simp [hw])
            exact (h.of_eq hq.1 hq.2).raise K n cap target _ id (fun _ h2 => h2) r s1 h1
        · cases he
      case BlockedOnSTM =>
        split at he
        · exact ih _ _ ((h.emit _).emit _ |>.emit _) he
        · split at he
          · cases he
            refine LockedWith.emit ?_ _
            split
            · exact (h.emit _).throwToSendMsg _ _ _ _
            · exact (h.emit _).blockedThrowTo _ _ _
          · exact (h.emit _).raise K n cap target _ _
              (fun _ h2 => (h2.emit _).emit _) r s1 he
      case BlockedOnBlackHole =>
        split at he
        · exact ih _ _ ((h.emit _).emit _ |>.emit _) he
        · split at he
          · cases he
            refine LockedWith.emit ?_ _
            split
            · exact (h.emit _).throwToSendMsg _ _ _ _
            · exact (h.emit _).blockedThrowTo _ _ _
          · exact ((h.emit _).emit _).raise K n cap target _ _
              (fun _ h2 => (h2.emit _).emit _) r s1 he
      case BlockedOnMVar =>
        split at he
        · split at he
          · cases he
          · rename_i r0 hl
            obtain ⟨hp, hl2⟩ := h.lockClosure _ _ hl
            split at he
            · exact ih _ _ ((hl2.unlockClosure _ _ hp).emit _) he
            · split at he
              · exact ih _ _ ((hl2.unlockClosure _ _ hp).emit _) he
              · split at he
                · cases he
                  refine LockedWith.unlockClosure ?_ _ _ hp
                  split
                  · exact hl2.throwToSendMsg _ _ _ _
                  · exact hl2.blockedThrowTo _ _ _
                · exact (hl2.emit _).raise K n cap target _ _
                    (fun _ h2 => (h2.emit _).unlockClosure _ _ hp) r s1 he
        · exact ih _ _ (h.emit _) he
      case BlockedOnMsgThrowTo =>
        have key : ∀ (i : Info) (s0 : Machine), LockedWith msg src tgt exc s0 →
            (s.tso target).block_info ≠ msg →
            (if i ≠ Info.stg_MSG_THROWTO_info then
                throwToMsgCheck K cap msg n
                  ((unlockClosure s0 (s.tso target).block_info i).emit
                    (Event.debugTrace DebugMsg.throwTo_retrying)) target
              else if (s0.tso target).cap ≠ cap then
                Res.ok ThrowToResult.THROWTO_BLOCKED
                  (throwToSendMsg K (unlockClosure s0 (s.tso target).block_info i) cap
                    (s0.tso target).cap msg)
              else if blockedUninterruptibly K (s0.tso target) = true then
                Res.ok ThrowToResult.THROWTO_BLOCKED
                  (blockedThrowTo (unlockClosure s0 (s.tso target).block_info i) cap target msg)
              else
                (raiseAsync K n (unlockClosure s0 (s.tso target).block_info Info.stg_IND_info)
                  cap target
                  ((unlockClosure s0 (s.tso target).block_info Info.stg_IND_info).msg
                    msg).exception false none).bind
                  fun _ s2 => Res.ok ThrowToResult.THROWTO_SUCCESS
                    (s2.emit (Event.unblockOne cap target))) = Res.ok r s1 →
            LockedWith msg src tgt exc s1 := by
          intro i s0 h0 hp hk
          split at hk
          · exact ih _ _ ((h0.unlockClosure _ _ hp).emit _) hk
          · split at hk
            · cases hk; exact (h0.unlockClosure _ _ hp).throwToSendMsg _ _ _ _
            · split at hk
              · cases hk; exact (h0.unlockClosure _ _ hp).blockedThrowTo _ _ _
              · exact (h0.unlockClosure _ _ hp).raise K n cap target _ _
                  (fun _ h2 => h2.emit _) r s1 hk
        split at he
        · split at he
          · cases he
          · rename_i r0 hl
            obtain ⟨hp, hl2⟩ := h.lockClosure _ _ hl
            exact key _ _ hl2 hp he
        · have ht := h.tryLockClosure (s.tso target).block_info
          split at he
          · rename_i s0 hs0
            cases he
            rw [hs0] at ht
            exact ht.1.throwToSendMsg _ _ _ _
          · rename_i i s0 hs0
            rw [hs0] at ht
            exact key _ _ ht.1 (ht.2 (by simp)) he

/-- A locked message stays locked, with its source, target and exception,
through `throwToMsg`, whatever the result. -/
theorem throwToMsg_locked (K : Rts) (cap msg src tgt exc : Addr) (fuel : Nat)
    (s : Machine) (r : ThrowToResult) (s1 : Machine)
    (h : LockedWith msg src tgt exc s)
    (he : throwToMsg K fuel s cap msg = Res.ok r s1) :
    LockedWith msg src tgt exc s1 := by
  simp only [throwToMsg] at he
  split at he
  · cases he
  · exact throwToMsgCheck_locked K cap msg src tgt exc fuel _ _ r s1 (h.emit _) he

/-- C3 (as the code has it): `throwToMsg` never unlocks `msg`.  A call on a
locked message that returns `THROWTO_SUCCESS`, on whatever branch, returns
with the message still locked: its header is `stg_WHITEHOLE_info`, not
`stg_IND_info`. -/
theorem throwToMsg_success_keeps_locked (K : Rts) (fuel : Nat) (s : Machine) (cap msg : Addr)
    (s1 : Machine) (hl : s.info msg = Info.stg_WHITEHOLE_info)
    (he : throwToMsg K fuel s cap msg = Res.ok ThrowToResult.THROWTO_SUCCESS s1) :
    s1.info msg = Info.stg_WHITEHOLE_info ∧ s1.info msg ≠ Info.stg_IND_info := by
  have h : LockedWith msg (s.msg msg).source (s.msg msg).target (s.msg msg).exception s :=
    ⟨hl, rfl, rfl, rfl⟩
  have h1 := throwToMsg_locked K cap msg _ _ _ fuel s _ s1 h he
  refine ⟨h1.1, ?_⟩
  rw [h1.1]
  decide

/-- C4: `throwTo` builds its message at the next free address, locked
(`stg_WHITEHOLE_info`), with the source, target and exception it was given;
and whenever `throwTo` returns a message rather than `NULL`, the message
returned is that one, it is still locked, and its source, target and
exception are as built. -/
theorem throwTo_message_locked (K : Rts) (fuel : Nat) (s : Machine)
    (cap source target exception : Addr) :
    (newMessage K s cap source target exception).1 = s.hp
    ∧ LockedWith s.hp source target exception (newMessage K s cap source target exception).2
    ∧ (∀ m s1, throwTo K fuel s cap source target exception = Res.ok m s1 → m ≠ NULL →
        m = s.hp ∧ LockedWith m source target exception s1) := by
  have hb : LockedWith s.hp source target exception
      (newMessage K s cap source target exception).2 := by
    refine ⟨newMessage_info K s cap source target exception, ?_, ?_, ?_⟩ <;>
      rw [newMessage_msg]
  refine ⟨rfl, hb, ?_⟩
  intro m s1 he hm
  simp only [throwTo, newMessage_fst] at he
  obtain ⟨r, s0, h0, h1⟩ := bind_eq_ok he
  have hk := throwToMsg_locked K cap s.hp _ _ _ fuel _ r s0 hb h0
  cases r with
  | THROWTO_SUCCESS =>
    simp only at h1
    cases h1
    exact absurd rfl hm
  | THROWTO_BLOCKED =>
    simp only at h1
    cases h1
    exact ⟨rfl, hk⟩

/-! ## One action per call -/

@[simp] theorem actions_append (a b : List Event) : actions (a ++ b) = actions a ++ actions b := by
  simp [actions, List.filterMap_append]

@[simp] theorem actions_nil : actions [] = [] := rfl

@[simp] theorem actions_cons (e : Event) (l : List Event) :
    actions (e :: l) = (actionOf e).toList ++ actions l := by
  simp only [actions, List.filterMap_cons]
  cases actionOf e <;> rfl

@[simp] theorem freezeUpdateFrame_actions (K : Rts) (cap tso updatee : Addr) (s : Machine)
    (sp frame : Int) :
    actions (freezeUpdateFrame K cap tso updatee s sp frame).1.trace = actions s.trace := by
  simp only [freezeUpdateFrame]
  split <;> simp [allocate, actionOf]

@[simp] theorem killThread_trace (K : Rts) (tso : Addr) (s : Machine) (frame : Int) :
    (killThread K tso s frame).trace = s.trace := rfl

@[simp] theorem raiseAtCatchFrame_trace (K : Rts) (cap tso exception : Addr) (s : Machine)
    (frame : Int) :
    (raiseAtCatchFrame K cap tso exception s frame).trace
      = s.trace ++ [Event.allocate cap (K.sizeofW_StgThunk + 1) s.hp] := rfl

@[simp] theorem stopAtAtomically_trace (K : Rts) (cap tso : Addr) (s : Machine) (frame : Int) :
    (stopAtAtomically K cap tso s frame).trace
      = s.trace ++ [Event.stmCondemnTransaction cap (s.tso tso).trec] := rfl

@[simp] theorem abortTransaction_trace (cap tso : Addr) (s : Machine) :
    (abortTransaction cap tso s).trace
      = s.trace ++ [Event.debugTrace DebugMsg.found_atomically,
          Event.stmAbortTransaction cap (s.tso tso).trec,
          Event.stmFreeAbortedTRec cap (s.tso tso).trec] := by
  simp [abortTransaction]

/-- The stack walk makes none of the three actions. -/
theorem raiseAsyncLoop_actions (K : Rts) (cap tso exception : Addr) (saa : Bool)
    (stop_here : Option Int) (updatee : Addr) (fuel : Nat) (s : Machine) (sp frame : Int)
    (u : Unit) (s1 : Machine)
    (h : raiseAsyncLoop K cap tso exception saa stop_here updatee fuel s sp frame = Res.ok u s1) :
    actions s1.trace = actions s.trace := by
  induction fuel generalizing s sp frame with
  | zero => simp [raiseAsyncLoop] at h
  | succ n ih =>
    simp only [raiseAsyncLoop] at h
    split at h
    · split at h
      · have := ih _ _ _ h
        simpa using this
      · cases h; simp
      · split at h
        · exact ih _ _ _ h
        · cases h; simp [actionOf]
      · split at h
        · cases h; simp [actionOf]
        · have := ih _ _ _ h
          simpa [actionOf] using this
      · have := ih _ _ _ h
        simpa [actionOf] using this
      · have := ih _ _ _ h
        simpa [actionOf] using this
      · exact ih _ _ _ h
    · cases h; rfl

/-- A returning `raiseAsync` made exactly one action: the raise. -/
theorem raiseAsync_actions (K : Rts) (fuel : Nat) (s : Machine) (cap tso exception : Addr)
    (saa : Bool) (stop_here : Option Int) (u : Unit) (s1 : Machine)
    (h : raiseAsync K fuel s cap tso exception saa stop_here = Res.ok u s1) :
    actions s1.trace = actions s.trace ++ [Action.raise (s.tso tso).id] := by
  simp only [raiseAsync] at h
  split at h
  · cases h
  · have := raiseAsyncLoop_actions _ _ _ _ _ _ _ _ _ _ _ _ _ h
    simpa [actionOf, raiseStart] using this

/-- The function `removeFromQueues` makes none of the three actions. -/
theorem removeFromQueues_actions (K : Rts) (s : Machine) (cap tso : Addr) (u : Unit)
    (s1 : Machine) (h : removeFromQueues K s cap tso = Res.ok u s1) :
    actions s1.trace = actions s.trace := by
  unfold removeFromQueues at h
  generalize (s.tso tso).why_blocked = w at h
  cases w <;> simp only at h
  all_goals
    first
    | exact Res.noConfusion h
    | (cases h; simp [actionOf, unlockClosure])
    | (split at h <;> first
        | exact Res.noConfusion h
        | (cases h; simp [actionOf])
        | (split at h <;> first
            | exact Res.noConfusion h
            | (cases h; simp [actionOf])))

@[simp] theorem unlockClosure_trace (s : Machine) (p : Addr) (i : Info) :
    (unlockClosure s p i).trace = s.trace := rfl

@[simp] theorem unlockClosure_tso (s : Machine) (p : Addr) (i : Info) :
    (unlockClosure s p i).tso = s.tso := rfl

@[simp] theorem unlockClosure_msg (s : Machine) (p : Addr) (i : Info) :
    (unlockClosure s p i).msg = s.msg := rfl

/-! ## The walk over a chain of frames -/

theorem nextFrame_ge (K : Rts) (stk : Int → Word) (f : Int) : f ≤ nextFrame K stk f := by
  unfold nextFrame; omega

theorem frameAfter_ge (K : Rts) (stk : Int → Word) (f : Int) (ty : FrameType) :
    f ≤ frameAfter K stk f ty := by
  unfold frameAfter
  split
  · omega
  · exact nextFrame_ge K stk f

/-- The next frame depends on the stack at and below the frame only. -/
theorem nextFrame_congr (K : Rts) (stk stk1 : Int → Word) (f : Int)
    (h : ∀ i, f ≤ i → stk1 i = stk i) : nextFrame K stk1 f = nextFrame K stk f := by
  unfold nextFrame
  have : (fun (i : Nat) => stk1 (f + (i : Int))) = (fun (i : Nat) => stk (f + (i : Int))) := by
    funext i
    exact h _ (by omega)
  rw [this]

theorem frameAfter_congr (K : Rts) (stk stk1 : Int → Word) (f : Int) (ty : FrameType)
    (h : ∀ i, f ≤ i → stk1 i = stk i) : frameAfter K stk1 f ty = frameAfter K stk f ty := by
  unfold frameAfter
  rw [nextFrame_congr K stk stk1 f h]

/-- A chain ends at or below where it starts. -/
theorem Chain.le {K : Rts} {stk : Int → Word} {l : List (Int × FrameType)} {f e : Int}
    (h : Chain K stk f l e) : f ≤ e := by
  induction l generalizing f with
  | nil => simp only [Chain] at h; omega
  | cons x l ih =>
    simp only [Chain] at h
    have := ih h.2.2.2
    have := frameAfter_ge K stk f x.2
    omega

/-- A chain depends on the stack at and below its start only. -/
theorem Chain.congr_stack {K : Rts} {stk stk1 : Int → Word} {l : List (Int × FrameType)}
    {f e : Int}
    (h : Chain K stk f l e) (hs : ∀ i, f ≤ i → stk1 i = stk i) : Chain K stk1 f l e := by
  induction l generalizing f with
  | nil => exact h
  | cons x l ih =>
    simp only [Chain] at h ⊢
    refine ⟨h.1, ?_, h.2.2.1, ?_⟩
    · rw [hs f (le_refl f)]; exact h.2.1
    · rw [frameAfter_congr K stk stk1 f x.2 hs]
      refine ih h.2.2.2 ?_
      intro i hi
      exact hs i (le_trans (frameAfter_ge K stk f x.2) hi)

/-- A chain of two parts. -/
theorem Chain.append {K : Rts} {stk : Int → Word} {l1 l2 : List (Int × FrameType)}
    {f e : Int} (h : Chain K stk f (l1 ++ l2) e) :
    ∃ m, Chain K stk f l1 m ∧ Chain K stk m l2 e := by
  induction l1 generalizing f with
  | nil => exact ⟨f, rfl, h⟩
  | cons x l ih =>
    simp only [List.cons_append, Chain] at h
    obtain ⟨m, h1, h2⟩ := ih h.2.2.2
    exact ⟨m, ⟨h.1, h.2.1, h.2.2.1, h1⟩, h2⟩

/-- Where the update-frame step leaves `sp`: on the last word of the frame. -/
theorem freezeUpdateFrame_snd (K : Rts) (cap tso updatee : Addr) (s : Machine) (sp frame : Int)
    (h : sp < frame) :
    (freezeUpdateFrame K cap tso updatee s sp frame).2 = frame + (K.sizeofW_StgHeader : Int) := by
  simp only [freezeUpdateFrame, Rts.sizeofW_StgUpdateFrame, Nat.add_sub_cancel]
  have : ((frame - sp - 1).toNat : Int) = frame - sp - 1 := Int.toNat_of_nonneg (by omega)
  rw [this]; omega

/-- The threads after the update-frame step: one word of the stack of `tso`
is written. -/
theorem freezeUpdateFrame_tso (K : Rts) (cap tso updatee : Addr) (s : Machine) (sp frame : Int) :
    (freezeUpdateFrame K cap tso updatee s sp frame).1.tso
      = upd s.tso tso { s.tso tso with
          stack := upd (s.tso tso).stack (freezeUpdateFrame K cap tso updatee s sp frame).2
            (frozenWord K tso updatee s frame) } := by
  simp only [freezeUpdateFrame, frozenWord, allocate]
  split <;> rfl

@[simp] theorem abortTransaction_tso (cap tso : Addr) (s : Machine) :
    (abortTransaction cap tso s).tso
      = upd s.tso tso { s.tso tso with trec := s.enclosing_trec (s.tso tso).trec } := rfl

theorem SameBelow.refl (t : Addr) (e : Int) (s : Machine) : SameBelow t e s s :=
  ⟨fun _ _ => rfl, rfl, fun _ _ => rfl⟩

theorem SameBelow.trans {t : Addr} {e1 e2 : Int} {s s1 s2 : Machine}
    (h1 : SameBelow t e1 s s1) (h2 : SameBelow t e2 s1 s2) (he : e1 ≤ e2) :
    SameBelow t e2 s s2 := by
  obtain ⟨a1, b1, c1⟩ := h1
  obtain ⟨a2, b2, c2⟩ := h2
  refine ⟨fun a ha => (a2 a ha).trans (a1 a ha), ?_, ?_⟩
  · rw [← b1, ← b2]
  · intro i hi
    rw [c2 i hi, c1 i (le_trans he hi)]

/-- One passed frame changes the thread above the next frame only. -/
theorem passFrame_sameBelow (K : Rts) (cap t updatee : Addr) (s : Machine) (sp p : Int)
    (ty : FrameType) (hsp : sp < p) :
    SameBelow t (frameAfter K (s.tso t).stack p ty) s
      (passFrame K cap t updatee (s, sp) p ty).1 := by
  cases ty
  case UPDATE_FRAME =>
    simp only [passFrame, frameAfter, if_true, Rts.sizeofW_StgUpdateFrame]
    rw [SameBelow, freezeUpdateFrame_tso, freezeUpdateFrame_snd K cap t updatee s sp p hsp]
    refine ⟨?_, ?_, ?_⟩
    · intro a ha; simp [ha]
    · simp
    · intro i hi
      have : i ≠ p + (K.sizeofW_StgHeader : Int) := by push_cast at hi; omega
      simp [this]
  all_goals
    simp only [passFrame]
    refine ⟨?_, ?_, ?_⟩
    · intro a ha
      first | rfl | simp [ha]
    · first | rfl | simp
    · intro i _
      first | rfl | simp

/-- Where one passed frame leaves `sp`: above the next frame. -/
theorem passFrame_snd_lt (K : Rts) (cap t updatee : Addr) (s : Machine) (sp p : Int)
    (ty : FrameType) (hsp : sp < p) :
    (passFrame K cap t updatee (s, sp) p ty).2 < frameAfter K (s.tso t).stack p ty := by
  cases ty
  case UPDATE_FRAME =>
    simp only [passFrame, frameAfter, if_true, Rts.sizeofW_StgUpdateFrame]
    rw [freezeUpdateFrame_snd K cap t updatee s sp p hsp]
    push_cast; omega
  all_goals
    simp only [passFrame]
    exact lt_of_lt_of_le hsp (frameAfter_ge K _ p _)

/-- The walk over a chain changes the thread above the end of the chain
only, and leaves `sp` above the end. -/
theorem walk_sameBelow (K : Rts) (cap t updatee : Addr) (l : List (Int × FrameType))
    (s : Machine) (sp f e : Int) (hsp : sp < f) (hc : Chain K (s.tso t).stack f l e) :
    SameBelow t e s (walk K cap t updatee l (s, sp)).1
      ∧ (walk K cap t updatee l (s, sp)).2 < e := by
  induction l generalizing s sp f with
  | nil =>
    simp only [Chain] at hc
    subst hc
    exact ⟨SameBelow.refl t f s, hsp⟩
  | cons x l ih =>
    obtain ⟨p, ty⟩ := x
    simp only [Chain] at hc
    obtain ⟨hp, _, _, hc1⟩ := hc
    subst hp
    have h1 := passFrame_sameBelow K cap t updatee s sp p ty hsp
    have h2 := passFrame_snd_lt K cap t updatee s sp p ty hsp
    have hc2 : Chain K (((passFrame K cap t updatee (s, sp) p ty).1).tso t).stack
        (frameAfter K (s.tso t).stack p ty) l e := hc1.congr_stack h1.2.2
    have := ih (passFrame K cap t updatee (s, sp) p ty).1
      (passFrame K cap t updatee (s, sp) p ty).2 _ h2 hc2
    exact ⟨h1.trans this.1 hc1.le, this.2⟩

@[simp] theorem walk_nil (K : Rts) (cap t updatee : Addr) (st : Machine × Int) :
    walk K cap t updatee [] st = st := rfl

@[simp] theorem walk_cons (K : Rts) (cap t updatee : Addr) (x : Int × FrameType)
    (l : List (Int × FrameType)) (st : Machine × Int) :
    walk K cap t updatee (x :: l) st
      = walk K cap t updatee l (passFrame K cap t updatee st x.1 x.2) := rfl

/-- The loop, started at the top of a chain of frames it passes, arrives at
the end of the chain in the state the walk gives, having used one unit of
fuel for each frame. -/
theorem raiseAsyncLoop_walk (K : Rts) (cap t exception : Addr) (saa : Bool)
    (stop_here : Option Int) (updatee : Addr) (l : List (Int × FrameType))
    (s : Machine) (sp f e : Int) (hsp : sp < f) (hc : Chain K (s.tso t).stack f l e)
    (hp : ∀ x ∈ l, Passes exception saa stop_here x) (fuel : Nat) :
    raiseAsyncLoop K cap t exception saa stop_here updatee (fuel + l.length) s sp f
      = raiseAsyncLoop K cap t exception saa stop_here updatee fuel
          (walk K cap t updatee l (s, sp)).1 (walk K cap t updatee l (s, sp)).2 e := by
  induction l generalizing s sp f with
  | nil =>
    simp only [Chain] at hc
    subst hc
    rfl
  | cons x l ih =>
    obtain ⟨p, ty⟩ := x
    simp only [Chain] at hc
    obtain ⟨hpf, hty, hns, hc1⟩ := hc
    subst hpf
    obtain ⟨hin, hcatch, hatom⟩ := hp (p, ty) (List.mem_cons_self _ _)
    have h1 := passFrame_sameBelow K cap t updatee s sp p ty hsp
    have h2 := passFrame_snd_lt K cap t updatee s sp p ty hsp
    have hc2 : Chain K (((passFrame K cap t updatee (s, sp) p ty).1).tso t).stack
        (frameAfter K (s.tso t).stack p ty) l e := hc1.congr_stack h1.2.2
    have hrec := ih (passFrame K cap t updatee (s, sp) p ty).1
      (passFrame K cap t updatee (s, sp) p ty).2 _ h2 hc2
      (fun x hx => hp x (List.mem_cons_of_mem _ hx))
    rw [walk_cons, ← hrec]
    show raiseAsyncLoop K cap t exception saa stop_here updatee (fuel + l.length + 1) s sp p = _
    simp only [raiseAsyncLoop]
    simp only at hin hty
    rw [if_pos hin, hty]
    cases ty
    case UPDATE_FRAME =>
      simp only [passFrame, frameAfter, if_true, Rts.sizeofW_StgUpdateFrame]
      rw [freezeUpdateFrame_snd K cap t updatee s sp p hsp]
      push_cast
      rw [Int.add_assoc]
    case STOP_FRAME => exact absurd rfl hns
    case CATCH_FRAME =>
      simp only [hcatch rfl, if_true, passFrame, frameAfter]
      rfl
    case ATOMICALLY_FRAME =>
      simp only [hatom rfl, passFrame, frameAfter]
      rfl
    case CATCH_STM_FRAME => rfl
    case CATCH_RETRY_FRAME => rfl
    case other => rfl

/-! ## `raiseAsync` on a chain of frames -/

/-- With the relocation links followed, `raiseAsync` is its loop from the
state the opening statements leave. -/
theorem raiseAsync_eq_loop (K : Rts) (fuel : Nat) (s : Machine) (cap tso t exception : Addr)
    (saa : Bool) (stop_here : Option Int) (hrel : followRelocated fuel s tso = some t) :
    raiseAsync K fuel s cap tso exception saa stop_here
      = raiseAsyncLoop K cap t exception saa stop_here
          (stopUpdatee K (s.tso t).stack stop_here) fuel (raiseStart K cap tso t s).1
          (raiseStart K cap tso t s).2 ((raiseStart K cap tso t s).2 + 1) := by
  simp only [raiseAsync]
  rw [followRelocated_congr fuel s
    (s.emit (Event.debugTrace (DebugMsg.raising_exception (s.tso tso).id))) rfl tso, hrel]

theorem raiseStart_snd (K : Rts) (cap tso t : Addr) (s : Machine) :
    (raiseStart K cap tso t s).2 + 1 = firstFrame K (s.tso t) := by
  simp only [raiseStart, normaliseTop, firstFrame, emit_tso]
  split <;> rfl

theorem raiseStart_sameBelow (K : Rts) (cap tso t : Addr) (s : Machine) :
    SameBelow t (firstFrame K (s.tso t)) s (raiseStart K cap tso t s).1 := by
  simp only [raiseStart, normaliseTop, firstFrame, emit_tso]
  split
  · exact ⟨fun _ _ => rfl, rfl, fun _ _ => rfl⟩
  · refine ⟨?_, ?_, ?_⟩
    · intro a ha; simp [ha]
    · simp
    · intro i hi
      have : i ≠ (s.tso t).sp - 1 := by omega
      simp [this]

@[simp] theorem raiseStart_trace (K : Rts) (cap tso t : Addr) (s : Machine) :
    (raiseStart K cap tso t s).1.trace
      = s.trace ++ [Event.debugTrace (DebugMsg.raising_exception (s.tso tso).id),
          Event.dirty_TSO cap t] := by
  simp [raiseStart]

/-- The function `raiseAsync` on a thread whose stack starts with a chain of frames that
the walk passes: it arrives at the end of the chain, with the thread changed
above the end only. -/
theorem raiseAsync_walk (K : Rts) (k : Nat) (s : Machine) (cap tso t exception : Addr)
    (saa : Bool) (stop_here : Option Int) (l : List (Int × FrameType)) (e : Int)
    (hrel : followRelocated (k + l.length) s tso = some t)
    (hc : Chain K (s.tso t).stack (firstFrame K (s.tso t)) l e)
    (hp : ∀ x ∈ l, Passes exception saa stop_here x) :
    raiseAsync K (k + l.length) s cap tso exception saa stop_here
        = raiseAsyncLoop K cap t exception saa stop_here
            (stopUpdatee K (s.tso t).stack stop_here) k
            (walk K cap t (stopUpdatee K (s.tso t).stack stop_here) l
              (raiseStart K cap tso t s)).1
            (walk K cap t (stopUpdatee K (s.tso t).stack stop_here) l
              (raiseStart K cap tso t s)).2 e
      ∧ SameBelow t e s (walk K cap t (stopUpdatee K (s.tso t).stack stop_here) l
          (raiseStart K cap tso t s)).1 := by
  have h0 := raiseStart_sameBelow K cap tso t s
  have hsp : (raiseStart K cap tso t s).2 < (raiseStart K cap tso t s).2 + 1 := by omega
  have hc0 : Chain K ((raiseStart K cap tso t s).1.tso t).stack
      ((raiseStart K cap tso t s).2 + 1) l e := by
    rw [raiseStart_snd]
    exact hc.congr_stack h0.2.2
  constructor
  · rw [raiseAsync_eq_loop K _ s cap tso t exception saa stop_here hrel]
    exact raiseAsyncLoop_walk K cap t exception saa stop_here _ l _ _ _ e hsp hc0 hp k
  · have := walk_sameBelow K cap t (stopUpdatee K (s.tso t).stack stop_here) l _ _ _ e hsp hc0
    exact h0.trans this.1 hc.le

theorem SameBelow.flags {t : Addr} {e : Int} {s s1 : Machine} (h : SameBelow t e s s1) :
    (s1.tso t).flags = (s.tso t).flags := by
  have h1 := congrArg StgTSO.flags h.2.1
  exact h1

theorem SameBelow.what_next {t : Addr} {e : Int} {s s1 : Machine} (h : SameBelow t e s s1) :
    (s1.tso t).what_next = (s.tso t).what_next := by
  have h1 := congrArg StgTSO.what_next h.2.1
  exact h1

theorem SameBelow.sp {t : Addr} {e : Int} {s s1 : Machine} (h : SameBelow t e s s1) :
    (s1.tso t).sp = (s.tso t).sp := by
  have h1 := congrArg StgTSO.sp h.2.1
  exact h1

theorem SameBelow.blocked_exceptions {t : Addr} {e : Int} {s s1 : Machine}
    (h : SameBelow t e s s1) :
    (s1.tso t).blocked_exceptions = (s.tso t).blocked_exceptions :=
  by
  have h1 := congrArg StgTSO.blocked_exceptions h.2.1
  exact h1

/-- Setting mask bits sets them. -/
theorem or_and_self_left (f a b : Nat) : (f ||| (a ||| b)) &&& a = a := by
  apply Nat.eq_of_testBit_eq
  intro i
  simp only [Nat.testBit_and, Nat.testBit_or]
  cases f.testBit i <;> cases a.testBit i <;> cases b.testBit i <;> rfl

theorem or_and_self_right (f a b : Nat) : (f ||| (a ||| b)) &&& b = b := by
  apply Nat.eq_of_testBit_eq
  intro i
  simp only [Nat.testBit_and, Nat.testBit_or]
  cases f.testBit i <;> cases a.testBit i <;> cases b.testBit i <;> rfl

/-- The function `raiseAsync` with an exception to raise, on a thread whose stack starts
with a chain of passed frames ending at a catch frame `c`: it returns in the
state in which the raise is left on top of that catch frame. -/
theorem raiseAsync_catch_eq (K : Rts) (fuel : Nat) (s : Machine) (cap tso t exception : Addr)
    (saa : Bool) (stop_here : Option Int) (l : List (Int × FrameType)) (c : Int)
    (hrel : followRelocated fuel s tso = some t)
    (hexc : exception ≠ NULL)
    (hc : Chain K (s.tso t).stack (firstFrame K (s.tso t)) l c)
    (hp : ∀ x ∈ l, Passes exception saa stop_here x)
    (hcatch : K.get_ret_itbl ((s.tso t).stack c) = FrameType.CATCH_FRAME)
    (hin : inLoop stop_here c = true)
    (hfuel : l.length < fuel) :
    raiseAsync K fuel s cap tso exception saa stop_here
        = Res.ok () (raiseAtCatchFrame K cap t exception
            (walk K cap t (stopUpdatee K (s.tso t).stack stop_here) l
              (raiseStart K cap tso t s)).1 c)
      ∧ SameBelow t c s (walk K cap t (stopUpdatee K (s.tso t).stack stop_here) l
          (raiseStart K cap tso t s)).1 := by
  obtain ⟨k, rfl⟩ : ∃ k, fuel = (k + 1) + l.length := ⟨fuel - l.length - 1, by omega⟩
  obtain ⟨h1, h2⟩ :=
    raiseAsync_walk K (k + 1) s cap tso t exception saa stop_here l c hrel hc hp
  refine ⟨?_, h2⟩
  rw [h1]
  simp only [raiseAsyncLoop]
  rw [if_pos hin, h2.2.2 c (le_refl c), hcatch]
  simp only [if_neg hexc]

/-- C6: `raiseAsync` with a non-null exception stops at the innermost catch
frame.  When the frames the walk meets first are all passed (none of them a
catch frame) and the next frame, at `c`, is a `CATCH_FRAME`, `raiseAsync`
returns, and in the state it leaves: the stack from `c` on (the catch frame
and all below it) is as before; `sp` is `c - 2`, so that all there is above
the catch frame is the two words `stg_enter_info` and a pointer to a thunk,
the thunk allocated last, with header `stg_raise_info` and `payload[0]` the
exception given; the flags are the old ones with `TSO_BLOCKEX` and
`TSO_INTERRUPTIBLE` set; `what_next` is `ThreadRunGHC`; and the other threads
are untouched. -/
theorem raiseAsync_stops_at_catch_frame (K : Rts) (fuel : Nat) (s : Machine)
    (cap tso t exception : Addr) (saa : Bool) (stop_here : Option Int)
    (l : List (Int × FrameType)) (c : Int)
    (hrel : followRelocated fuel s tso = some t)
    (hexc : exception ≠ NULL)
    (hc : Chain K (s.tso t).stack (firstFrame K (s.tso t)) l c)
    (hp : ∀ x ∈ l, Passes exception saa stop_here x)
    (hcatch : K.get_ret_itbl ((s.tso t).stack c) = FrameType.CATCH_FRAME)
    (hin : inLoop stop_here c = true)
    (hfuel : l.length < fuel) :
    ∃ s1, raiseAsync K fuel s cap tso exception saa stop_here = Res.ok () s1
      ∧ (∀ x ∈ l, x.2 ≠ FrameType.CATCH_FRAME)
      ∧ (∀ i, c ≤ i → (s1.tso t).stack i = (s.tso t).stack i)
      ∧ (s1.tso t).sp = c - 2
      ∧ (s1.tso t).stack (c - 2) = K.stg_enter_info
      ∧ s1.thunk ((s1.tso t).stack (c - 1))
          = { header := Info.stg_raise_info, payload0 := exception }
      ∧ (∃ tr, s1.trace
          = tr ++ [Event.allocate cap (K.sizeofW_StgThunk + 1) ((s1.tso t).stack (c - 1))])
      ∧ (s1.tso t).flags = (s.tso t).flags ||| (K.TSO_BLOCKEX ||| K.TSO_INTERRUPTIBLE)
      ∧ (s1.tso t).flags &&& K.TSO_BLOCKEX = K.TSO_BLOCKEX
      ∧ (s1.tso t).flags &&& K.TSO_INTERRUPTIBLE = K.TSO_INTERRUPTIBLE
      ∧ (s1.tso t).what_next = WhatNext.ThreadRunGHC
      ∧ (∀ a, a ≠ t → s1.tso a = s.tso a) := by
  obtain ⟨heq, hsame⟩ := raiseAsync_catch_eq K fuel s cap tso t exception saa stop_here l c
    hrel hexc hc hp hcatch hin hfuel
  refine ⟨_, heq, ?_, ?_, ?_, ?_, ?_, ?_, ?_, ?_, ?_, ?_, ?_⟩
  · intro x hx hx2
    exact hexc ((hp x hx).2.1 hx2)
  · intro i hi
    have h1 : i ≠ c - 1 - 1 := by omega
    have h2 : i ≠ c - 1 := by omega
    simp only [raiseAtCatchFrame, allocate, setTSO_tso, upd_apply, if_true, h1, h2, if_false]
    exact hsame.2.2 i hi
  · simp only [raiseAtCatchFrame, allocate, setTSO_tso, upd_apply, if_true]
    omega
  · have h1 : c - 2 = c - 1 - 1 := by omega
    simp only [raiseAtCatchFrame, allocate, setTSO_tso, upd_apply, if_true, h1]
  · have h1 : c - 1 ≠ c - 1 - 1 := by omega
    simp only [raiseAtCatchFrame, allocate, setTSO_tso, setTSO_thunk, upd_apply, if_true, h1,
      if_false]
  · have h1 : c - 1 ≠ c - 1 - 1 := by omega
    refine ⟨(walk K cap t (stopUpdatee K (s.tso t).stack stop_here) l
      (raiseStart K cap tso t s)).1.trace, ?_⟩
    simp only [raiseAtCatchFrame, allocate, setTSO_tso, setTSO_trace, upd_apply, if_true, h1,
      if_false]
  · simp only [raiseAtCatchFrame, allocate, setTSO_tso, upd_apply, if_true]
    rw [← hsame.flags]
  · simp only [raiseAtCatchFrame, allocate, setTSO_tso, upd_apply, if_true]
    exact or_and_self_left _ _ _
  · simp only [raiseAtCatchFrame, allocate, setTSO_tso, upd_apply, if_true]
    exact or_and_self_right _ _ _
  · simp only [raiseAtCatchFrame, allocate, setTSO_tso, upd_apply, if_true]
  · intro a ha
    simp only [raiseAtCatchFrame, allocate, setTSO_tso, upd_apply, if_neg ha]
    exact hsame.1 a ha

/-- The function `raiseAsync` on a thread whose stack starts with a chain of passed
frames ending at a stop frame `e`: it returns with the thread killed. -/
theorem raiseAsync_stop_eq (K : Rts) (fuel : Nat) (s : Machine) (cap tso t exception : Addr)
    (saa : Bool) (stop_here : Option Int) (l : List (Int × FrameType)) (e : Int)
    (hrel : followRelocated fuel s tso = some t)
    (hc : Chain K (s.tso t).stack (firstFrame K (s.tso t)) l e)
    (hp : ∀ x ∈ l, Passes exception saa stop_here x)
    (hstop : K.get_ret_itbl ((s.tso t).stack e) = FrameType.STOP_FRAME)
    (hin : inLoop stop_here e = true)
    (hfuel : l.length < fuel) :
    raiseAsync K fuel s cap tso exception saa stop_here
        = Res.ok () (killThread K t
            (walk K cap t (stopUpdatee K (s.tso t).stack stop_here) l
              (raiseStart K cap tso t s)).1 e)
      ∧ SameBelow t e s (walk K cap t (stopUpdatee K (s.tso t).stack stop_here) l
          (raiseStart K cap tso t s)).1 := by
  obtain ⟨k, rfl⟩ : ∃ k, fuel = (k + 1) + l.length := ⟨fuel - l.length - 1, by omega⟩
  obtain ⟨h1, h2⟩ :=
    raiseAsync_walk K (k + 1) s cap tso t exception saa stop_here l e hrel hc hp
  refine ⟨?_, h2⟩
  rw [h1]
  simp only [raiseAsyncLoop]
  rw [if_pos hin, h2.2.2 e (le_refl e), hstop]

/-- The first catch frame of a list of frames that has one. -/
theorem exists_first_catch (l : List (Int × FrameType))
    (h : ∃ x ∈ l, x.2 = FrameType.CATCH_FRAME) :
    ∃ l1 x l2, l = l1 ++ x :: l2 ∧ x.2 = FrameType.CATCH_FRAME
      ∧ ∀ y ∈ l1, y.2 ≠ FrameType.CATCH_FRAME := by
  induction l with
  | nil =>
    obtain ⟨x, hx, _⟩ := h
    cases hx
  | cons y l ih =>
    by_cases hy : y.2 = FrameType.CATCH_FRAME
    · exact ⟨[], y, l, rfl, hy, fun _ hz => by cases hz⟩
    · obtain ⟨x, hx, hx2⟩ := h
      have hx1 : x ∈ l := by
        rcases List.mem_cons.mp hx with rfl | h1
        · exact absurd hx2 hy
        · exact h1
      obtain ⟨l1, x1, l2, e1, e2, e3⟩ := ih ⟨x, hx1, hx2⟩
      refine ⟨y :: l1, x1, l2, by rw [e1]; rfl, e2, ?_⟩
      intro z hz
      rcases List.mem_cons.mp hz with rfl | h1
      · exact hy
      · exact e3 z h1

/-- C7: on a thread whose stack is a chain of frames `l` ending in a
`STOP_FRAME` at `e`, `raiseAsync` without a stop boundary (`stop_here` is
`NULL`, `stop_at_atomically` false) returns, and it leaves the thread
`ThreadKilled` exactly when the exception is `NULL` or none of the frames is
a `CATCH_FRAME`; the killed thread has `sp` just past the stop frame; with a
`NULL` exception the thread is always killed. -/
theorem raiseAsync_killed_iff (K : Rts) (fuel : Nat) (s : Machine) (cap tso t exception : Addr)
    (l : List (Int × FrameType)) (e : Int)
    (hrel : followRelocated fuel s tso = some t)
    (hc : Chain K (s.tso t).stack (firstFrame K (s.tso t)) l e)
    (hstop : K.get_ret_itbl ((s.tso t).stack e) = FrameType.STOP_FRAME)
    (hfuel : l.length < fuel) :
    ∃ s1, raiseAsync K fuel s cap tso exception false none = Res.ok () s1
      ∧ ((s1.tso t).what_next = WhatNext.ThreadKilled
          ↔ (exception = NULL ∨ ∀ x ∈ l, x.2 ≠ FrameType.CATCH_FRAME))
      ∧ ((s1.tso t).what_next = WhatNext.ThreadKilled
          → (s1.tso t).sp = e + (K.sizeofW_StgStopFrame : Int))
      ∧ (exception = NULL → (s1.tso t).what_next = WhatNext.ThreadKilled) := by
  by_cases h : exception = NULL ∨ ∀ x ∈ l, x.2 ≠ FrameType.CATCH_FRAME
  · have hp : ∀ x ∈ l, Passes exception false none x := by
      intro x hx
      refine ⟨rfl, ?_, fun _ => rfl⟩
      intro hx2
      rcases h with h | h
      · exact h
      · exact absurd hx2 (h x hx)
    obtain ⟨heq, _⟩ := raiseAsync_stop_eq K fuel s cap tso t exception false none l e hrel hc hp
      hstop rfl hfuel
    refine ⟨_, heq, ?_, ?_, ?_⟩
    · simp only [killThread, setTSO_tso, upd_apply, if_true, true_iff]
      exact h
    · intro _
      simp only [killThread, setTSO_tso, upd_apply, if_true]
    · intro _
      simp only [killThread, setTSO_tso, upd_apply, if_true]
  · have hexc : exception ≠ NULL := fun h1 => h (Or.inl h1)
    have hex : ∃ x ∈ l, x.2 = FrameType.CATCH_FRAME := by
      by_contra h1
      apply h
      right
      intro x hx hx2
      exact h1 ⟨x, hx, hx2⟩
    obtain ⟨l1, x, l2, rfl, hx2, hl1⟩ := exists_first_catch l hex
    obtain ⟨m, hc1, hc2⟩ := Chain.append hc
    simp only [Chain] at hc2
    obtain ⟨hxm, hty, _, _⟩ := hc2
    have hp : ∀ y ∈ l1, Passes exception false none y := by
      intro y hy
      exact ⟨rfl, fun h1 => absurd h1 (hl1 y hy), fun _ => rfl⟩
    have hlen : l1.length < fuel := by
      simp only [List.length_append, List.length_cons] at hfuel
      omega
    obtain ⟨heq, _⟩ := raiseAsync_catch_eq K fuel s cap tso t exception false none l1 m hrel
      hexc hc1 hp (by rw [hty, hx2]) rfl hlen
    refine ⟨_, heq, ?_, ?_, ?_⟩
    · simp only [raiseAtCatchFrame, allocate, setTSO_tso, upd_apply, if_true]
      constructor
      · intro h1; cases h1
      · intro h1; exact absurd h1 h
    · intro h1
      simp only [raiseAtCatchFrame, allocate, setTSO_tso, upd_apply, if_true] at h1
      cases h1
    · intro h1
      exact absurd h1 hexc

/-! ## Killing a thread -/

/-- The function `removeFromQueues` changes no thread, and it returns or barfs. -/
theorem removeFromQueues_tso (K : Rts) (s : Machine) (cap tso : Addr) :
    removeFromQueues K s cap tso = Res.barf
      ∨ ∃ s1, removeFromQueues K s cap tso = Res.ok () s1 ∧ s1.tso = s.tso := by
  unfold removeFromQueues
  generalize (s.tso tso).why_blocked = w
  cases w <;> simp only
  all_goals
    first
    | exact Or.inl trivial
    | exact Or.inl rfl
    | exact Or.inr ⟨_, rfl, rfl⟩
    | (split <;> first
        | exact Or.inl rfl
        | exact Or.inr ⟨_, rfl, rfl⟩
        | (split <;> first | exact Or.inl rfl | exact Or.inr ⟨_, rfl, rfl⟩))

/-- Where killing is idempotent.  On a record that is `ThreadComplete` or
`ThreadKilled`, `throwToSingleThreaded_` (whatever the exception) and
`suspendComputation` return at once and change nothing at all.  And on a
live record that is not `ThreadRelocated`, with a stack that is a chain of
frames ending in a stop frame, a kill (`throwToSingleThreaded` with `NULL`)
either barfs in `removeFromQueues`, or returns with the thread
`ThreadKilled` in a state that a second kill leaves exactly as it is.  A
`ThreadRelocated` record is another matter: the test for a dead thread looks
at the record passed, before `raiseAsync` follows its link. -/
theorem kill_idempotent (K : Rts) (fuel : Nat) (s : Machine) (cap tso : Addr) :
    ((s.tso tso).what_next = WhatNext.ThreadComplete
        ∨ (s.tso tso).what_next = WhatNext.ThreadKilled →
      (∀ exception saa, throwToSingleThreaded_ K fuel s cap tso exception saa = Res.ok () s)
      ∧ throwToSingleThreaded K fuel s cap tso NULL = Res.ok () s
      ∧ (∀ stop_here, suspendComputation K fuel s cap tso stop_here = Res.ok () s))
    ∧ (∀ (l : List (Int × FrameType)) (e : Int),
        (s.tso tso).what_next ≠ WhatNext.ThreadComplete →
        (s.tso tso).what_next ≠ WhatNext.ThreadKilled →
        (s.tso tso).what_next ≠ WhatNext.ThreadRelocated →
        Chain K (s.tso tso).stack (firstFrame K (s.tso tso)) l e →
        K.get_ret_itbl ((s.tso tso).stack e) = FrameType.STOP_FRAME →
        l.length < fuel →
        (removeFromQueues K s cap tso = Res.barf
          ∧ throwToSingleThreaded K fuel s cap tso NULL = Res.barf)
        ∨ ∃ s1, throwToSingleThreaded K fuel s cap tso NULL = Res.ok () s1
            ∧ (s1.tso tso).what_next = WhatNext.ThreadKilled
            ∧ throwToSingleThreaded K fuel s1 cap tso NULL = Res.ok () s1) := by
  constructor
  · intro hd
    refine ⟨?_, ?_, ?_⟩
    · intro exception saa
      simp only [throwToSingleThreaded_, hd, if_true]
    · simp only [throwToSingleThreaded, throwToSingleThreaded_, hd, if_true]
    · intro stop_here
      simp only [suspendComputation, hd, if_true]
  · intro l e h1 h2 h3 hc hstop hfuel
    have hlive : ¬ ((s.tso tso).what_next = WhatNext.ThreadComplete
        ∨ (s.tso tso).what_next = WhatNext.ThreadKilled) := by
      rintro (h | h)
      · exact h1 h
      · exact h2 h
    rcases removeFromQueues_tso K s cap tso with hq | ⟨s0, hq, ht⟩
    · left
      refine ⟨hq, ?_⟩
      simp only [throwToSingleThreaded, throwToSingleThreaded_, if_neg hlive, hq, bind_barf]
    · right
      obtain ⟨k, rfl⟩ : ∃ k, fuel = k + 1 := ⟨fuel - 1, by omega⟩
      have hrel : followRelocated (k + 1) s0 tso = some tso :=
        followRelocated_self k s0 tso (by rw [ht]; exact h3)
      have hp : ∀ x ∈ l, Passes NULL false none x :=
        fun x _ => ⟨rfl, fun _ => rfl, fun _ => rfl⟩
      obtain ⟨heq, _⟩ := raiseAsync_stop_eq K (k + 1) s0 cap tso tso NULL false none l e hrel
        (by rw [ht]; exact hc) hp (by rw [ht]; exact hstop) rfl hfuel
      have hkill : throwToSingleThreaded K (k + 1) s cap tso NULL = Res.ok ()
          (killThread K tso (walk K cap tso (stopUpdatee K (s0.tso tso).stack none) l
            (raiseStart K cap tso tso s0)).1 e) := by
        simp only [throwToSingleThreaded, throwToSingleThreaded_, if_neg hlive, hq, bind_ok]
        exact heq
      refine ⟨_, hkill, ?_, ?_⟩
      · simp only [killThread, setTSO_tso, upd_apply, if_true]
      · simp only [throwToSingleThreaded, throwToSingleThreaded_]
        rw [if_pos]
        right
        simp only [killThread, setTSO_tso, upd_apply, if_true]

/-! ## The queue of blocked exceptions -/

/-- On a live, unmasked thread whose queue has the live message `m` at its
head, `maybePerformBlockedException` delivers `m`. -/
theorem maybePerformBlockedException_head (K : Rts) (fuel : Nat) (s : Machine)
    (cap tso m : Addr)
    (hlive : (s.tso tso).what_next ≠ WhatNext.ThreadComplete)
    (hfin : K.ThreadFinished ≠ some (s.tso tso).what_next)
    (hq : (s.tso tso).blocked_exceptions = m)
    (hne : m ≠ K.END_BLOCKED_EXCEPTIONS_QUEUE)
    (hmask : (s.tso tso).flags &&& K.TSO_BLOCKEX = 0)
    (hi1 : s.info m ≠ Info.stg_WHITEHOLE_info) (hi2 : s.info m ≠ Info.stg_IND_info) :
    maybePerformBlockedException K (fuel + 1) s cap tso = deliverHead K fuel s cap tso m := by
  have h0 : ¬ ((s.tso tso).what_next = WhatNext.ThreadComplete
      ∨ K.ThreadFinished = some (s.tso tso).what_next) := by
    rintro (h | h)
    · exact hlive h
    · exact hfin h
  simp only [maybePerformBlockedException, if_neg h0, hq, ne_eq, hne, not_false_eq_true,
    hmask, true_and, not_true_eq_false, and_false, if_false, true_or, if_true, performLoop,
    lockClosure, if_neg hi1, if_neg hi2, deliverHead, dequeued]
  rfl

/-- What `performBlockedException` does with a message: the exception of
the message is thrown at the target of the message. -/
theorem performBlockedException_eq (K : Rts) (fuel : Nat) (s : Machine) (cap m : Addr) :
    performBlockedException K fuel s cap m
      = (throwToSingleThreaded K fuel s cap (s.msg m).target (s.msg m).exception).bind
          (fun _ s1 =>
            if (s.msg m).source = NULL then Res.barf
            else Res.ok ()
              (s1.setTSO (s.msg m).source (fun t => { t with sp := t.sp + 3 }))) :=
  rfl

/-- C10 (as the code has it): the queue is served newest first.  When `m1`
is filed on the queue of a thread by `blockedThrowTo` and then `m2` is, `m2`
is at the head of the queue, linked to `m1`, which is linked to the old
queue, and both keep their payload.  In any later state in which the thread
is live and unmasked with the queue and `m2` as filed and `m2` live,
`maybePerformBlockedException` delivers `m2` (it throws the exception of `m2`
at its target, and then moves on the `sp` of the source, which must not be
`NULL`), leaves `m1` at the head of the queue, and when it returns it
returns `1` with `m2` revoked.  In any later state in which the thread is
live and unmasked with `m1`, as filed and live, at the head, it delivers
`m1`, leaves the old queue, and returns `1` with `m1` revoked. -/
theorem blocked_exceptions_newest_first (K : Rts) (fuel : Nat) (s : Machine)
    (cap tso m1 m2 : Addr) (h12 : m1 ≠ m2) :
    let sB := blockedThrowTo (blockedThrowTo s cap tso m1) cap tso m2
    (sB.tso tso).blocked_exceptions = m2
    ∧ (sB.msg m2).link = m1
    ∧ (sB.msg m1).link = (s.tso tso).blocked_exceptions
    ∧ (sB.msg m1).exception = (s.msg m1).exception
    ∧ (sB.msg m2).exception = (s.msg m2).exception
    ∧ (∀ m old : Addr, ∀ sC : Machine,
        (m = m2 ∧ old = m1) ∨ (m = m1 ∧ old = (s.tso tso).blocked_exceptions) →
        (sC.tso tso).blocked_exceptions = m → sC.msg m = sB.msg m →
        (sC.tso tso).what_next ≠ WhatNext.ThreadComplete →
        K.ThreadFinished ≠ some (sC.tso tso).what_next →
        (sC.tso tso).flags &&& K.TSO_BLOCKEX = 0 →
        m ≠ K.END_BLOCKED_EXCEPTIONS_QUEUE →
        sC.info m ≠ Info.stg_WHITEHOLE_info → sC.info m ≠ Info.stg_IND_info →
        maybePerformBlockedException K (fuel + 1) sC cap tso = deliverHead K fuel sC cap tso m
        ∧ ((dequeued sC tso m).tso tso).blocked_exceptions = old
        ∧ performBlockedException K fuel (dequeued sC tso m) cap m
            = (throwToSingleThreaded K fuel (dequeued sC tso m) cap (s.msg m).target
                (s.msg m).exception).bind
                (fun _ s1 =>
                  if (s.msg m).source = NULL then Res.barf
                  else Res.ok ()
                    (s1.setTSO (s.msg m).source (fun t => { t with sp := t.sp + 3 })))
        ∧ (∀ n s1, deliverHead K fuel sC cap tso m = Res.ok n s1 →
            n = 1 ∧ s1.info m = Info.stg_IND_info)) := by
  intro sB
  have e1 : (sB.tso tso).blocked_exceptions = m2 := by simp [sB, blockedThrowTo]
  have e2 : sB.msg m2 = { s.msg m2 with link := m1 } := by
    simp [sB, blockedThrowTo, Ne.symm h12]
  have e3 : sB.msg m1 = { s.msg m1 with link := (s.tso tso).blocked_exceptions } := by
    simp [sB, blockedThrowTo, h12]
  refine ⟨e1, by rw [e2], by rw [e3], by rw [e3], by rw [e2], ?_⟩
  intro m old sC hm hq hmsg hlive hfin hmask hne hi1 hi2
  have hfields : (sC.msg m).link = old ∧ (sC.msg m).target = (s.msg m).target
      ∧ (sC.msg m).exception = (s.msg m).exception
      ∧ (sC.msg m).source = (s.msg m).source := by
    rcases hm with ⟨rfl, rfl⟩ | ⟨rfl, rfl⟩
    · rw [hmsg, e2]; exact ⟨rfl, rfl, rfl, rfl⟩
    · rw [hmsg, e3]; exact ⟨rfl, rfl, rfl, rfl⟩
  refine ⟨maybePerformBlockedException_head K fuel sC cap tso m hlive hfin hq hne hmask hi1 hi2,
    ?_, ?_, ?_⟩
  · simp [dequeued, hfields.1]
  · rw [performBlockedException_eq]
    have : (dequeued sC tso m).msg = sC.msg := rfl
    rw [this, hfields.2.1, hfields.2.2.1, hfields.2.2.2]
  · intro n s1 hd
    simp only [deliverHead] at hd
    obtain ⟨u, s0, _, h1⟩ := bind_eq_ok hd
    cases h1
    exact ⟨rfl, by simp [unlockClosure]⟩

/-! ## The closures built on the way to a catch frame -/

@[simp] theorem updatesOf_append (a b : List Event) :
    updatesOf (a ++ b) = updatesOf a ++ updatesOf b := by
  simp [updatesOf, List.filterMap_append]

@[simp] theorem allocsOf_append (a b : List Event) :
    allocsOf (a ++ b) = allocsOf a ++ allocsOf b := by
  simp [allocsOf, List.filterMap_append]

theorem cellsOf_length (K : Rts) (stk : Int → Word) (l : List (Int × FrameType)) :
    (cellsOf K stk l).length = (updateFrames l).length := by
  induction l with
  | nil => rfl
  | cons x l ih =>
    by_cases hx : x.2 = FrameType.UPDATE_FRAME
    · simp [cellsOf, updateFrames, hx] at ih ⊢
      exact ih
    · simp [cellsOf, updateFrames, hx] at ih ⊢
      exact ih

/-- The frames of a chain lie at or below its start. -/
theorem Chain.mem_ge {K : Rts} {stk : Int → Word} {l : List (Int × FrameType)} {f e : Int}
    (h : Chain K stk f l e) : ∀ x ∈ l, f ≤ x.1 := by
  induction l generalizing f with
  | nil => intro x hx; cases hx
  | cons y l ih =>
    simp only [Chain] at h
    intro x hx
    rcases List.mem_cons.mp hx with rfl | h1
    · rw [h.1]
    · exact le_trans (frameAfter_ge K stk f y.2) (ih h.2.2.2 x h1)

/-- The updatees of the frames of a chain are read at or below its start. -/
theorem cellsOf_congr (K : Rts) (stk stk1 : Int → Word) (l : List (Int × FrameType)) (f : Int)
    (hge : ∀ x ∈ l, f ≤ x.1) (hs : ∀ i, f ≤ i → stk1 i = stk i) :
    cellsOf K stk1 l = cellsOf K stk l := by
  induction l with
  | nil => rfl
  | cons x l ih =>
    have h1 := ih (fun y hy => hge y (List.mem_cons_of_mem _ hy))
    have h2 : updateeOf K stk1 x.1 = updateeOf K stk x.1 := by
      unfold updateeOf
      exact hs _ (by have := hge x (List.mem_cons_self _ _); omega)
    simp only [cellsOf, List.filterMap_cons] at h1 ⊢
    rw [h2, h1]

/-- What the update-frame step does to the heap when the updatee is not the
one of `stop_here`: it allocates at the heap pointer and updates the
updatee with what it allocated. -/
theorem freezeUpdateFrame_heap (K : Rts) (cap t updatee : Addr) (s : Machine) (sp p : Int)
    (h : updateeOf K (s.tso t).stack p ≠ updatee) :
    (freezeUpdateFrame K cap t updatee s sp p).1.trace
        = s.trace ++ [Event.allocate cap (K.AP_STACK_sizeW (p - sp - 1).toNat) s.hp,
            Event.UPD_IND cap (updateeOf K (s.tso t).stack p) s.hp]
      ∧ ((freezeUpdateFrame K cap t updatee s sp p).1.ap_stack s.hp).header
          = Info.stg_AP_STACK_info
      ∧ (∀ a, (s.ap_stack a).header = Info.stg_AP_STACK_info →
          ((freezeUpdateFrame K cap t updatee s sp p).1.ap_stack a).header
            = Info.stg_AP_STACK_info) := by
  simp only [freezeUpdateFrame, allocate, if_neg h]
  refine ⟨by simp, by simp, ?_⟩
  intro a ha
  simp only [setTSO_ap_stack, emit_ap_stack, upd_apply]
  split
  · rfl
  · exact ha

/-- The walk over a chain of frames none of whose update frames has the
updatee of `stop_here`: one allocation and one update for each update
frame, the update being of the frame's updatee with the `AP_STACK`
allocated at that frame. -/
theorem walk_heap (K : Rts) (cap t updatee : Addr) (l : List (Int × FrameType))
    (s : Machine) (sp f e : Int) (hsp : sp < f) (hc : Chain K (s.tso t).stack f l e)
    (hnn : ∀ x ∈ l, x.2 = FrameType.UPDATE_FRAME →
      updateeOf K (s.tso t).stack x.1 ≠ updatee) :
    ∃ aps : List Addr,
      aps.length = (updateFrames l).length
      ∧ updatesOf (walk K cap t updatee l (s, sp)).1.trace
          = updatesOf s.trace ++ (cellsOf K (s.tso t).stack l).zip aps
      ∧ allocsOf (walk K cap t updatee l (s, sp)).1.trace = allocsOf s.trace ++ aps
      ∧ (∀ a, (s.ap_stack a).header = Info.stg_AP_STACK_info ∨ a ∈ aps →
          ((walk K cap t updatee l (s, sp)).1.ap_stack a).header = Info.stg_AP_STACK_info) := by
  induction l generalizing s sp f with
  | nil =>
    refine ⟨[], rfl, by simp [cellsOf], by simp, ?_⟩
    intro a ha
    rcases ha with ha | ha
    · exact ha
    · cases ha
  | cons x l ih =>
    obtain ⟨p, ty⟩ := x
    simp only [Chain] at hc
    obtain ⟨hpf, hty, hns, hc1⟩ := hc
    subst hpf
    have h1 := passFrame_sameBelow K cap t updatee s sp p ty hsp
    have h2 := passFrame_snd_lt K cap t updatee s sp p ty hsp
    have hc2 : Chain K (((passFrame K cap t updatee (s, sp) p ty).1).tso t).stack
        (frameAfter K (s.tso t).stack p ty) l e := hc1.congr_stack h1.2.2
    have hcells : cellsOf K (((passFrame K cap t updatee (s, sp) p ty).1).tso t).stack l
        = cellsOf K (s.tso t).stack l :=
      cellsOf_congr K _ _ l _ hc1.mem_ge h1.2.2
    have hnn2 : ∀ x ∈ l, x.2 = FrameType.UPDATE_FRAME →
        updateeOf K (((passFrame K cap t updatee (s, sp) p ty).1).tso t).stack x.1 ≠ updatee := by
      intro x hx hx2
      have : updateeOf K (((passFrame K cap t updatee (s, sp) p ty).1).tso t).stack x.1
          = updateeOf K (s.tso t).stack x.1 := by
        unfold updateeOf
        exact h1.2.2 _ (by have := hc1.mem_ge x hx; omega)
      rw [this]
      exact hnn x (List.mem_cons_of_mem _ hx) hx2
    obtain ⟨aps, ha1, ha2, ha3, ha4⟩ := ih (passFrame K cap t updatee (s, sp) p ty).1
      (passFrame K cap t updatee (s, sp) p ty).2 _ h2 hc2 hnn2
    rw [hcells] at ha2
    simp only [walk_cons]
    by_cases hu : ty = FrameType.UPDATE_FRAME
    · subst hu
      have hne := hnn (p, FrameType.UPDATE_FRAME) (List.mem_cons_self _ _) rfl
      obtain ⟨t1, t2, t3⟩ := freezeUpdateFrame_heap K cap t updatee s sp p hne
      simp only [passFrame] at ha2 ha3 ha4 ⊢
      refine ⟨s.hp :: aps, by simp [updateFrames, ha1], ?_, ?_, ?_⟩
      · rw [ha2, t1]
        simp [updatesOf, cellsOf]
      · rw [ha3, t1]
        simp [allocsOf]
      · intro a ha
        apply ha4
        rcases ha with ha | ha
        · exact Or.inl (t3 a ha)
        · rcases List.mem_cons.mp ha with rfl | ha
          · exact Or.inl t2
          · exact Or.inr ha
    · have htr : updatesOf (passFrame K cap t updatee (s, sp) p ty).1.trace = updatesOf s.trace
          ∧ allocsOf (passFrame K cap t updatee (s, sp) p ty).1.trace = allocsOf s.trace
          ∧ (passFrame K cap t updatee (s, sp) p ty).1.ap_stack = s.ap_stack := by
        cases ty <;> first
          | exact absurd rfl hu
          | exact ⟨rfl, rfl, rfl⟩
          | (simp only [passFrame, abortTransaction_trace, updatesOf_append, allocsOf_append]
             exact ⟨by simp [updatesOf], by simp [allocsOf], rfl⟩)
      refine ⟨aps, by simp [updateFrames, hu, ha1], ?_, ?_, ?_⟩
      · rw [ha2, htr.1]
        simp [cellsOf, hu]
      · rw [ha3, htr.2.1]
      · intro a ha
        apply ha4
        rw [htr.2.2]
        exact ha

/-- C8: unwinding, with a non-null exception and no stop boundary, a stack
whose frames `l` above a catch frame at `c` are all passed and have `d`
update frames among them (with non-null updatees): `raiseAsync` returns,
having allocated exactly `d` closures `aps`, each with the header
`stg_AP_STACK_info`, and after them the raise thunk; its `UPD_IND` calls are
exactly `d`, the updatee of each update frame, in stack order, being updated
with the closure allocated at that frame; and the thread is left runnable
with `stg_enter_info` and the raise thunk, whose payload is the exception, on
top of the catch frame. -/
theorem raiseAsync_update_frames (K : Rts) (fuel : Nat) (s : Machine)
    (cap tso t exception : Addr) (saa : Bool) (l : List (Int × FrameType)) (c : Int)
    (hrel : followRelocated fuel s tso = some t)
    (hexc : exception ≠ NULL)
    (hc : Chain K (s.tso t).stack (firstFrame K (s.tso t)) l c)
    (hp : ∀ x ∈ l, Passes exception saa none x)
    (hcells : ∀ x ∈ l, x.2 = FrameType.UPDATE_FRAME →
      updateeOf K (s.tso t).stack x.1 ≠ NULL)
    (hcatch : K.get_ret_itbl ((s.tso t).stack c) = FrameType.CATCH_FRAME)
    (hfuel : l.length < fuel) :
    ∃ s1 aps, raiseAsync K fuel s cap tso exception saa none = Res.ok () s1
      ∧ aps.length = (updateFrames l).length
      ∧ (cellsOf K (s.tso t).stack l).length = (updateFrames l).length
      ∧ allocsOf s1.trace = allocsOf s.trace ++ aps ++ [(s1.tso t).stack (c - 1)]
      ∧ (∀ a ∈ aps, (s1.ap_stack a).header = Info.stg_AP_STACK_info)
      ∧ updatesOf s1.trace = updatesOf s.trace ++ (cellsOf K (s.tso t).stack l).zip aps
      ∧ (s1.tso t).sp = c - 2
      ∧ (s1.tso t).stack (c - 2) = K.stg_enter_info
      ∧ s1.thunk ((s1.tso t).stack (c - 1))
          = { header := Info.stg_raise_info, payload0 := exception }
      ∧ (s1.tso t).what_next = WhatNext.ThreadRunGHC := by
  obtain ⟨heq, _⟩ := raiseAsync_catch_eq K fuel s cap tso t exception saa none l c
    hrel hexc hc hp hcatch rfl hfuel
  have h0 := raiseStart_sameBelow K cap tso t s
  have hsp : (raiseStart K cap tso t s).2 < (raiseStart K cap tso t s).2 + 1 := by omega
  have hc0 : Chain K ((raiseStart K cap tso t s).1.tso t).stack
      ((raiseStart K cap tso t s).2 + 1) l c := by
    rw [raiseStart_snd]
    exact hc.congr_stack h0.2.2
  have hcell0 : cellsOf K ((raiseStart K cap tso t s).1.tso t).stack l
      = cellsOf K (s.tso t).stack l :=
    cellsOf_congr K _ _ l _ hc.mem_ge h0.2.2
  have hnn : ∀ x ∈ l, x.2 = FrameType.UPDATE_FRAME →
      updateeOf K ((raiseStart K cap tso t s).1.tso t).stack x.1 ≠ NULL := by
    intro x hx hx2
    have : updateeOf K ((raiseStart K cap tso t s).1.tso t).stack x.1
        = updateeOf K (s.tso t).stack x.1 := by
      unfold updateeOf
      exact h0.2.2 _ (by have := hc.mem_ge x hx; omega)
    rw [this]
    exact hcells x hx hx2
  obtain ⟨aps, ha1, ha2, ha3, ha4⟩ := walk_heap K cap t NULL l _ _ _ c hsp hc0 hnn
  rw [hcell0] at ha2
  have hne : c - 1 ≠ c - 1 - 1 := by omega
  have h2 : c - 2 = c - 1 - 1 := by omega
  simp only [stopUpdatee] at heq
  refine ⟨_, aps, heq, ha1, cellsOf_length K _ l, ?_, ?_, ?_, ?_, ?_, ?_, ?_⟩
  · simp only [raiseAtCatchFrame, allocate, setTSO_tso, setTSO_trace, upd_apply, if_true, hne,
      if_false, allocsOf_append, ha3, raiseStart_trace]
    simp [allocsOf]
  · intro a ha
    have := ha4 a (Or.inr ha)
    simpa [raiseAtCatchFrame, allocate] using this
  · simp only [raiseAtCatchFrame, allocate, setTSO_trace, updatesOf_append, ha2,
      raiseStart_trace]
    simp [updatesOf]
  · simp only [raiseAtCatchFrame, allocate, setTSO_tso, upd_apply, if_true]
    omega
  · simp only [raiseAtCatchFrame, allocate, setTSO_tso, upd_apply, if_true, h2]
  · simp only [raiseAtCatchFrame, allocate, setTSO_tso, setTSO_thunk, upd_apply, if_true, hne,
      if_false]
  · simp only [raiseAtCatchFrame, allocate, setTSO_tso, upd_apply, if_true]

/-- Writing back the header a closure had undoes the write of a header. -/
theorem setInfo_restore (s : Machine) (p : Addr) (i : Info) :
    (s.setInfo p i).setInfo p (s.info p) = s := by
  cases s
  simp only [Machine.setInfo, Machine.mk.injEq, true_and, and_true]
  funext x
  simp only [upd_apply]
  split
  · rename_i h; rw [h]
  · rfl

/-- A lock that is taken returns the header, and unlocking with that header
gives back the state, also after an event. -/
theorem lockClosure_restore (s : Machine) (p : Addr) (r : Info × Machine)
    (h : lockClosure s p = some r) :
    r.1 = s.info p ∧ s.info p ≠ Info.stg_WHITEHOLE_info
      ∧ r.2 = s.setInfo p Info.stg_WHITEHOLE_info
      ∧ unlockClosure r.2 p r.1 = s
      ∧ ∀ e, unlockClosure (r.2.emit e) p r.1 = s.emit e := by
  unfold lockClosure at h
  split at h
  · cases h
  · rename_i hne
    cases h
    refine ⟨rfl, hne, rfl, setInfo_restore s p _, ?_⟩
    intro e
    have := setInfo_restore (s.emit e) p Info.stg_WHITEHOLE_info
    exact this

theorem QueueFrom_congr (K : Rts) (s s1 : Machine) (hm : s1.msg = s.msg) (h : Addr)
    (ms : List Addr) : QueueFrom K s1 h ms ↔ QueueFrom K s h ms := by
  induction ms generalizing h with
  | nil => rfl
  | cons m ms ih => simp only [QueueFrom, hm, ih]

theorem wakeups_congr (s s1 : Machine) (hm : s1.msg = s.msg) (hi : s1.info = s.info)
    (cap : Addr) (ms : List Addr) : wakeups s1 cap ms = wakeups s cap ms := by
  simp only [wakeups, liveMessages, hm, hi]

/-- One turn of the loop of `awakenBlockedExceptionQueue`. -/
theorem awakenLoop_succ (K : Rts) (cap : Addr) (fuel : Nat) (s : Machine) (msg : Addr) :
    awakenLoop K cap (fuel + 1) s msg
      = if msg ≠ K.END_BLOCKED_EXCEPTIONS_QUEUE then
          match lockClosure s msg with
          | none => Res.spin
          | some r =>
            awakenLoop K cap fuel
              (unlockClosure (if r.1 ≠ Info.stg_IND_info then
                r.2.emit (Event.unblockOne_ cap (r.2.msg msg).source false) else r.2) msg r.1)
              ((unlockClosure (if r.1 ≠ Info.stg_IND_info then
                r.2.emit (Event.unblockOne_ cap (r.2.msg msg).source false) else r.2) msg
                  r.1).msg msg).link
        else Res.ok () s := rfl

/-- The loop of `awakenBlockedExceptionQueue` over a queue of unlocked
messages: it returns, and all it leaves is the calls that wake the sources
of the messages that are not revoked. -/
theorem awakenLoop_queue (K : Rts) (cap : Addr) (ms : List Addr) (s : Machine) (h : Addr)
    (fuel : Nat) (hq : QueueFrom K s h ms)
    (hun : ∀ m ∈ ms, s.info m ≠ Info.stg_WHITEHOLE_info) :
    awakenLoop K cap (fuel + ms.length + 1) s h
      = Res.ok () { s with trace := s.trace ++ wakeups s cap ms } := by
  induction ms generalizing s h with
  | nil =>
    simp only [QueueFrom] at hq
    simp [awakenLoop, hq, wakeups, liveMessages]
  | cons m ms ih =>
    simp only [QueueFrom] at hq
    obtain ⟨rfl, hne, hq1⟩ := hq
    have hm := hun h (List.mem_cons_self _ _)
    have hl : lockClosure s h = some (s.info h, s.setInfo h Info.stg_WHITEHOLE_info) := by
      simp [lockClosure, hm]
    obtain ⟨-, -, -, hr1, hr2⟩ := lockClosure_restore s h _ hl
    show awakenLoop K cap (fuel + ms.length + 1 + 1) s h = _
    rw [awakenLoop_succ, if_pos hne, hl]
    simp only
    by_cases hi : s.info h = Info.stg_IND_info
    · simp only [hi, ne_eq, not_true_eq_false, if_false]
      simp only at hr1
      rw [hi] at hr1
      rw [hr1, ih s _ hq1 (fun x hx => hun x (List.mem_cons_of_mem _ hx))]
      simp [wakeups, liveMessages, hi]
    · simp only [hi, ne_eq, not_false_eq_true, if_true]
      have := hr2 (Event.unblockOne_ cap (s.msg h).source false)
      simp only [setInfo_msg] at this ⊢
      rw [this]
      simp only [emit_msg]
      rw [ih (s.emit (Event.unblockOne_ cap (s.msg h).source false)) _
        ((QueueFrom_congr K s (s.emit (Event.unblockOne_ cap (s.msg h).source false)) rfl
          _ _).mpr hq1)
        (fun x hx => hun x (List.mem_cons_of_mem _ hx))]
      simp [wakeups, liveMessages, hi, Machine.emit]

theorem actions_wakeups (s : Machine) (cap : Addr) (ms : List Addr) :
    actions (wakeups s cap ms) = [] := by
  simp only [wakeups]
  induction liveMessages s ms with
  | nil => rfl
  | cons m l ih => simp [actionOf, ih]

/-- The function `awakenBlockedExceptionQueue` on a queue of unlocked
messages. -/
theorem awakenBlockedExceptionQueue_eq (K : Rts) (fuel : Nat) (s : Machine) (cap tso : Addr)
    (ms : List Addr)
    (hq : QueueFrom K s (s.tso tso).blocked_exceptions ms)
    (hun : ∀ m ∈ ms, s.info m ≠ Info.stg_WHITEHOLE_info)
    (hfuel : ms.length < fuel) :
    awakenBlockedExceptionQueue K fuel s cap tso
      = Res.ok () (Machine.setTSO { s with trace := s.trace ++ wakeups s cap ms } tso
          (fun t => { t with blocked_exceptions := K.END_BLOCKED_EXCEPTIONS_QUEUE })) := by
  obtain ⟨k, rfl⟩ : ∃ k, fuel = k + ms.length + 1 := ⟨fuel - ms.length - 1, by omega⟩
  simp only [awakenBlockedExceptionQueue, awakenLoop_queue K cap ms s _ k hq hun, bind_ok]

/-- C12: on a thread whose `blocked_exceptions` queue is the unlocked
messages `ms`, `awakenBlockedExceptionQueue` returns, and the state it leaves
is the state it found but for two things: the trace has gained one
`unblockOne_` of the source of each message of `ms` that is not revoked, in
queue order, and nothing else (so none for a revoked message, and one for
each of the messages when all are live), and the queue of the thread is
empty.  The headers of the messages and the messages are as before, the
thread's stack, status and flags are as before, and nothing was raised, sent
or queued. -/
theorem awakenBlockedExceptionQueue_wakes_all (K : Rts) (fuel : Nat) (s : Machine)
    (cap tso : Addr) (ms : List Addr)
    (hq : QueueFrom K s (s.tso tso).blocked_exceptions ms)
    (hun : ∀ m ∈ ms, s.info m ≠ Info.stg_WHITEHOLE_info)
    (hfuel : ms.length < fuel) :
    ∃ s1, awakenBlockedExceptionQueue K fuel s cap tso = Res.ok () s1
      ∧ s1.trace = s.trace
          ++ (ms.filter (fun m => decide (s.info m ≠ Info.stg_IND_info))).map
              (fun m => Event.unblockOne_ cap (s.msg m).source false)
      ∧ ((∀ m ∈ ms, s.info m ≠ Info.stg_IND_info) →
          s1.trace = s.trace ++ ms.map (fun m => Event.unblockOne_ cap (s.msg m).source false))
      ∧ s1.info = s.info ∧ s1.msg = s.msg
      ∧ s1.tso tso
          = { s.tso tso with blocked_exceptions := K.END_BLOCKED_EXCEPTIONS_QUEUE }
      ∧ (∀ a, a ≠ tso → s1.tso a = s.tso a)
      ∧ actions s1.trace = actions s.trace := by
  refine ⟨_, awakenBlockedExceptionQueue_eq K fuel s cap tso ms hq hun hfuel, rfl, ?_, rfl, rfl,
    ?_, ?_, ?_⟩
  · intro hl
    have : ms.filter (fun m => decide (s.info m ≠ Info.stg_IND_info)) = ms := by
      rw [List.filter_eq_self]
      intro m hm
      simpa using hl m hm
    show s.trace ++ wakeups s cap ms = _
    unfold wakeups liveMessages
    rw [this]
  · simp
  · intro a ha
    simp [ha]
  · simp [actions_wakeups]

/-- C13 (as the code has it): on a thread that is `ThreadComplete` (the test
is `what_next == ThreadComplete || what_next == ThreadFinished`),
`maybePerformBlockedException` returns `0` and changes nothing when the
queue is empty; when the queue is the unlocked messages `ms`, and is not
empty, it returns `1`, having woken the source of each message that is not
revoked, raised nothing, and emptied the queue. -/
theorem maybePerformBlockedException_finished (K : Rts) (fuel : Nat) (s : Machine)
    (cap tso : Addr)
    (hfin : (s.tso tso).what_next = WhatNext.ThreadComplete
      ∨ K.ThreadFinished = some (s.tso tso).what_next) :
    ((s.tso tso).blocked_exceptions = K.END_BLOCKED_EXCEPTIONS_QUEUE →
      maybePerformBlockedException K fuel s cap tso = Res.ok 0 s)
    ∧ (∀ ms : List Addr,
        (s.tso tso).blocked_exceptions ≠ K.END_BLOCKED_EXCEPTIONS_QUEUE →
        QueueFrom K s (s.tso tso).blocked_exceptions ms →
        (∀ m ∈ ms, s.info m ≠ Info.stg_WHITEHOLE_info) →
        ms.length < fuel →
        ∃ s1, maybePerformBlockedException K fuel s cap tso = Res.ok 1 s1
          ∧ s1.trace = s.trace
              ++ (ms.filter (fun m => decide (s.info m ≠ Info.stg_IND_info))).map
                  (fun m => Event.unblockOne_ cap (s.msg m).source false)
          ∧ actions s1.trace = actions s.trace
          ∧ s1.info = s.info ∧ s1.msg = s.msg
          ∧ s1.tso tso
              = { s.tso tso with blocked_exceptions := K.END_BLOCKED_EXCEPTIONS_QUEUE }
          ∧ (∀ a, a ≠ tso → s1.tso a = s.tso a)) := by
  constructor
  · intro he
    simp only [maybePerformBlockedException, hfin, if_true, he, ne_eq, not_true_eq_false,
      if_false]
  · intro ms hne hq hun hfuel
    refine ⟨Machine.setTSO { s with trace := s.trace ++ wakeups s cap ms } tso
      (fun t => { t with blocked_exceptions := K.END_BLOCKED_EXCEPTIONS_QUEUE }),
      ?_, rfl, ?_, rfl, rfl, ?_, ?_⟩
    · simp only [maybePerformBlockedException, hfin, if_true, hne, ne_eq, not_false_eq_true,
        awakenBlockedExceptionQueue_eq K fuel s cap tso ms hq hun hfuel, bind_ok]
    · simp [actions_wakeups]
    · simp
    · intro a ha
      simp [ha]

/-- What a returning `throwToSingleThreaded` did: nothing on a dead thread,
one raise otherwise. -/
theorem throwToSingleThreaded_actions (K : Rts) (fuel : Nat) (s : Machine)
    (cap tso exception : Addr) (u : Unit) (s1 : Machine)
    (he : throwToSingleThreaded K fuel s cap tso exception = Res.ok u s1) :
    (((s.tso tso).what_next = WhatNext.ThreadComplete
        ∨ (s.tso tso).what_next = WhatNext.ThreadKilled) ∧ s1 = s)
    ∨ (¬ ((s.tso tso).what_next = WhatNext.ThreadComplete
        ∨ (s.tso tso).what_next = WhatNext.ThreadKilled)
      ∧ actions s1.trace = actions s.trace ++ [Action.raise (s.tso tso).id]) := by
  simp only [throwToSingleThreaded, throwToSingleThreaded_] at he
  split at he
  · rename_i hd
    cases he
    exact Or.inl ⟨hd, rfl⟩
  · rename_i hd
    obtain ⟨u0, s0, h0, h1⟩ := bind_eq_ok he
    refine Or.inr ⟨hd, ?_⟩
    have ha := removeFromQueues_actions _ _ _ _ _ _ h0
    have ht : s0.tso = s.tso := by
      rcases removeFromQueues_tso K s cap tso with hb | ⟨s2, h2, h3⟩
      · rw [hb] at h0; cases h0
      · rw [h2] at h0; cases h0; exact h3
    rw [raiseAsync_actions _ _ _ _ _ _ _ _ _ _ h1, ha, ht]

/-- One turn of the loop of `maybePerformBlockedException`. -/
theorem performLoop_succ (K : Rts) (cap tso : Addr) (fuel : Nat) (s : Machine) :
    performLoop K cap tso (fuel + 1) s
      = if (s.tso tso).blocked_exceptions = K.END_BLOCKED_EXCEPTIONS_QUEUE then Res.ok 0 s
        else
          match lockClosure s (s.tso tso).blocked_exceptions with
          | none => Res.spin
          | some r =>
            if r.1 = Info.stg_IND_info then
              performLoop K cap tso fuel
                (unlockClosure (r.2.setTSO tso (fun t =>
                  { t with blocked_exceptions :=
                      (r.2.msg (s.tso tso).blocked_exceptions).link }))
                  (s.tso tso).blocked_exceptions r.1)
            else
              (performBlockedException K fuel (r.2.setTSO tso (fun t =>
                  { t with blocked_exceptions :=
                      (r.2.msg (s.tso tso).blocked_exceptions).link })) cap
                  (s.tso tso).blocked_exceptions).bind fun _ s2 =>
                Res.ok 1 (unlockClosure
                  (s2.emit (Event.unblockOne_ cap (s2.msg (s.tso tso).blocked_exceptions).source
                    false))
                  (s.tso tso).blocked_exceptions Info.stg_IND_info) := rfl

/-- What a returning loop of `maybePerformBlockedException` did: with the
result `0` nothing was raised; with the result `1` one exception was raised,
or none and the target of some message is dead. -/
theorem performLoop_actions (K : Rts) (cap tso : Addr) (fuel : Nat) (s : Machine) (n : Nat)
    (s1 : Machine) (he : performLoop K cap tso fuel s = Res.ok n s1) :
    (n = 0 ∧ actions s1.trace = actions s.trace)
    ∨ (n = 1 ∧ ((∃ id, actions s1.trace = actions s.trace ++ [Action.raise id])
        ∨ (actions s1.trace = actions s.trace
          ∧ ∃ m, (s.tso (s.msg m).target).what_next = WhatNext.ThreadComplete
            ∨ (s.tso (s.msg m).target).what_next = WhatNext.ThreadKilled))) := by
  induction fuel generalizing s with
  | zero => simp [performLoop] at he
  | succ k ih =>
    rw [performLoop_succ] at he
    split at he
    · cases he; exact Or.inl ⟨rfl, rfl⟩
    · split at he
      · cases he
      · rename_i r hl
        obtain ⟨hr1, _, hr3, _, _⟩ := lockClosure_restore s _ r hl
        have hwn : ∀ (x : Addr) (a : Addr),
            (((r.2.setTSO tso (fun t => { t with blocked_exceptions := x })).tso a).what_next)
              = (s.tso a).what_next := by
          intro x a
          rw [hr3]
          simp only [setTSO_tso, setInfo_tso, upd_apply]
          split
          · rename_i h; rw [h]
          · rfl
        split at he
        · have := ih _ he
          simp only [unlockClosure_trace, setTSO_trace, unlockClosure_tso, unlockClosure_msg,
            setTSO_msg, hwn] at this
          rw [hr3] at this
          exact this
        · obtain ⟨u0, s0, h0, h1⟩ := bind_eq_ok he
          cases h1
          right
          refine ⟨rfl, ?_⟩
          simp only [performBlockedException] at h0
          obtain ⟨u1, s2, h2, h3⟩ := bind_eq_ok h0
          obtain ⟨_, _, h4⟩ := ite_barf_eq_ok h3
          cases h4
          rcases throwToSingleThreaded_actions _ _ _ _ _ _ _ _ h2 with ⟨hd, rfl⟩ | ⟨_, ha⟩
          · right
            rw [hwn] at hd
            simp only [setTSO_msg] at hd
            rw [hr3] at hd
            simp only [setInfo_msg] at hd
            refine ⟨?_, (s.tso tso).blocked_exceptions, hd⟩
            simp only [unlockClosure_trace, emit_trace, setTSO_trace, actions_append]
            rw [hr3]
            simp [actionOf]
          · left
            rw [setTSO_trace, hr3, setInfo_trace] at ha
            obtain ⟨id, hid⟩ :
                ∃ id, actions s2.trace = actions s.trace ++ [Action.raise id] := ⟨_, ha⟩
            refine ⟨id, ?_⟩
            simp only [unlockClosure_trace, emit_trace, setTSO_trace, actions_append, hid]
            simp [actions, actionOf]

/-- The loop of `awakenBlockedExceptionQueue` raises, sends and queues
nothing. -/
theorem awakenLoop_actions (K : Rts) (cap : Addr) (fuel : Nat) (s : Machine) (h : Addr)
    (u : Unit) (s1 : Machine) (he : awakenLoop K cap fuel s h = Res.ok u s1) :
    actions s1.trace = actions s.trace := by
  induction fuel generalizing s h with
  | zero => simp [awakenLoop] at he
  | succ k ih =>
    rw [awakenLoop_succ] at he
    split at he
    · split at he
      · cases he
      · rename_i r hl
        obtain ⟨_, _, hr3, _, _⟩ := lockClosure_restore s _ r hl
        have := ih _ _ he
        rw [this, hr3]
        simp only [unlockClosure_trace]
        split <;> simp [actionOf]
    · cases he; rfl


/-- Of two writes of a header the later one stands. -/
theorem setInfo_twice (s : Machine) (p : Addr) (i j : Info) :
    (s.setInfo p i).setInfo p j = s.setInfo p j := by
  cases s
  simp only [Machine.setInfo, Machine.mk.injEq, true_and, and_true]
  funext x
  simp only [upd_apply]
  split <;> rfl

theorem throwToSendMsg_tso (K : Rts) (s : Machine) (cap tc msg : Addr) :
    (throwToSendMsg K s cap tc msg).tso = s.tso := by
  unfold throwToSendMsg; split <;> rfl

theorem throwToSendMsg_info (K : Rts) (s : Machine) (cap tc msg : Addr) :
    (throwToSendMsg K s cap tc msg).info = s.info := by
  unfold throwToSendMsg; split <;> rfl

theorem throwToSendMsg_msg (K : Rts) (s : Machine) (cap tc msg : Addr) :
    (throwToSendMsg K s cap tc msg).msg = s.msg := by
  unfold throwToSendMsg; split <;> rfl

/-- C15 (as the code has it): when the target is blocked on its own message
`m` (`BlockedOnMsgThrowTo`) and `m` is held by somebody else, the caller
spins on `m` when `m < msg`, that is when its own message has the higher
identity; otherwise it tries the lock once, fails, sends its own `msg` to
the capability of the target and returns `THROWTO_BLOCKED`, with every
thread, header and message as before. -/
theorem throwToMsg_tie_break (K : Rts) (fuel : Nat) (s : Machine) (cap msg target : Addr)
    (halive : (s.tso target).what_next ≠ WhatNext.ThreadComplete
      ∧ (s.tso target).what_next ≠ WhatNext.ThreadKilled)
    (hwhy : (s.tso target).why_blocked = WhyBlocked.BlockedOnMsgThrowTo)
    (hheld : s.info (s.tso target).block_info = Info.stg_WHITEHOLE_info) :
    ((s.tso target).block_info < msg →
      throwToMsgCheck K cap msg (fuel + 1) s target = Res.spin)
    ∧ (¬ (s.tso target).block_info < msg →
      throwToMsgCheck K cap msg (fuel + 1) s target
          = Res.ok ThrowToResult.THROWTO_BLOCKED
              (throwToSendMsg K s cap (s.tso target).cap msg)
        ∧ (throwToSendMsg K s cap (s.tso target).cap msg).tso = s.tso
        ∧ (throwToSendMsg K s cap (s.tso target).cap msg).info = s.info
        ∧ (throwToSendMsg K s cap (s.tso target).cap msg).msg = s.msg
        ∧ (K.THREADED_RTS = true →
            (throwToSendMsg K s cap (s.tso target).cap msg).trace
              = s.trace ++ [Event.debugTrace (DebugMsg.throwTo_sending (s.tso target).cap),
                  Event.sendMessage (s.tso target).cap msg])) := by
  have hdead : ¬ ((s.tso target).what_next = WhatNext.ThreadComplete
      ∨ (s.tso target).what_next = WhatNext.ThreadKilled) := by
    rintro (h | h)
    · exact halive.1 h
    · exact halive.2 h
  constructor
  · intro hlt
    simp only [throwToMsgCheck, hdead, if_false, hwhy, if_pos hlt, lockClosure, hheld, if_true]
  · intro hlt
    refine ⟨?_, throwToSendMsg_tso _ _ _ _ _, throwToSendMsg_info _ _ _ _ _,
      throwToSendMsg_msg _ _ _ _ _, ?_⟩
    · simp only [throwToMsgCheck, hdead, if_false, hwhy, if_neg hlt, tryLockClosure, hheld,
        if_true]
    · intro hT
      simp [throwToSendMsg, hT, Machine.emit]

/-- C16 (as the code has it): when the target is blocked on its own message
`m` (`BlockedOnMsgThrowTo`) and `m` is not held, the caller acquires it.  If
its header is not `stg_MSG_THROWTO_info` (it was revoked) it is released
unchanged and the call retries.  Otherwise: if `target->cap != cap`, `m` is
released unchanged, `msg` is sent and the result is `THROWTO_BLOCKED`; if the
target is owned and masking uninterruptibly (`TSO_BLOCKEX` set and
`TSO_INTERRUPTIBLE` clear), `m` is released unchanged, `msg` is filed and the
result is `THROWTO_BLOCKED`; in every other case `m` is revoked, the
exception is raised in the target and the target is woken, and when that
returns the result is `THROWTO_SUCCESS` with `m` revoked, one raise made and
the wake-up the last event. -/
theorem throwToMsg_blocked_on_throwto (K : Rts) (fuel : Nat) (s : Machine)
    (cap msg target : Addr)
    (halive : (s.tso target).what_next ≠ WhatNext.ThreadComplete
      ∧ (s.tso target).what_next ≠ WhatNext.ThreadKilled)
    (hwhy : (s.tso target).why_blocked = WhyBlocked.BlockedOnMsgThrowTo)
    (hfree : s.info (s.tso target).block_info ≠ Info.stg_WHITEHOLE_info) :
    (s.info (s.tso target).block_info ≠ Info.stg_MSG_THROWTO_info →
      throwToMsgCheck K cap msg (fuel + 1) s target
        = throwToMsgCheck K cap msg fuel
            (s.emit (Event.debugTrace DebugMsg.throwTo_retrying)) target)
    ∧ (s.info (s.tso target).block_info = Info.stg_MSG_THROWTO_info →
        ((s.tso target).cap ≠ cap →
          throwToMsgCheck K cap msg (fuel + 1) s target
            = Res.ok ThrowToResult.THROWTO_BLOCKED
                (throwToSendMsg K s cap (s.tso target).cap msg))
        ∧ ((s.tso target).cap = cap → blockedUninterruptibly K (s.tso target) = true →
          throwToMsgCheck K cap msg (fuel + 1) s target
            = Res.ok ThrowToResult.THROWTO_BLOCKED (blockedThrowTo s cap target msg))
        ∧ ((s.tso target).cap = cap → blockedUninterruptibly K (s.tso target) = false →
          throwToMsgCheck K cap msg (fuel + 1) s target
              = (raiseAsync K fuel (s.setInfo (s.tso target).block_info Info.stg_IND_info) cap
                  target (s.msg msg).exception false none).bind
                  (fun _ s2 => Res.ok ThrowToResult.THROWTO_SUCCESS
                    (s2.emit (Event.unblockOne cap target)))
            ∧ ∀ r s1, throwToMsgCheck K cap msg (fuel + 1) s target = Res.ok r s1 →
                r = ThrowToResult.THROWTO_SUCCESS
                ∧ s1.info (s.tso target).block_info = Info.stg_IND_info
                ∧ actions s1.trace = actions s.trace ++ [Action.raise (s.tso target).id]
                ∧ s1.trace.getLast? = some (Event.unblockOne cap target))) := by
  have hdead : ¬ ((s.tso target).what_next = WhatNext.ThreadComplete
      ∨ (s.tso target).what_next = WhatNext.ThreadKilled) := by
    rintro (h | h)
    · exact halive.1 h
    · exact halive.2 h
  have hr := setInfo_restore s (s.tso target).block_info Info.stg_WHITEHOLE_info
  have hunf : throwToMsgCheck K cap msg (fuel + 1) s target
      = (fun (i : Info) (s1 : Machine) =>
          if i ≠ Info.stg_MSG_THROWTO_info then
            throwToMsgCheck K cap msg fuel
              ((unlockClosure s1 (s.tso target).block_info i).emit
                (Event.debugTrace DebugMsg.throwTo_retrying)) target
          else if (s1.tso target).cap ≠ cap then
            Res.ok ThrowToResult.THROWTO_BLOCKED
              (throwToSendMsg K (unlockClosure s1 (s.tso target).block_info i) cap
                (s1.tso target).cap msg)
          else if blockedUninterruptibly K (s1.tso target) then
            Res.ok ThrowToResult.THROWTO_BLOCKED
              (blockedThrowTo (unlockClosure s1 (s.tso target).block_info i) cap target msg)
          else
            (raiseAsync K fuel (unlockClosure s1 (s.tso target).block_info Info.stg_IND_info)
              cap target
              ((unlockClosure s1 (s.tso target).block_info Info.stg_IND_info).msg msg).exception
              false none).bind fun _ s2 =>
              Res.ok ThrowToResult.THROWTO_SUCCESS (s2.emit (Event.unblockOne cap target)))
          (s.info (s.tso target).block_info)
          (s.setInfo (s.tso target).block_info Info.stg_WHITEHOLE_info) := by
    by_cases hlt : (s.tso target).block_info < msg
    · simp only [throwToMsgCheck, hdead, if_false, hwhy, if_pos hlt, lockClosure, if_neg hfree]
    · simp only [throwToMsgCheck, hdead, if_false, hwhy, if_neg hlt, tryLockClosure,
        if_neg hfree]
  have hu : unlockClosure (s.setInfo (s.tso target).block_info Info.stg_WHITEHOLE_info)
      (s.tso target).block_info (s.info (s.tso target).block_info) = s := hr
  have hu2 : unlockClosure (s.setInfo (s.tso target).block_info Info.stg_WHITEHOLE_info)
      (s.tso target).block_info Info.stg_IND_info
        = s.setInfo (s.tso target).block_info Info.stg_IND_info := setInfo_twice _ _ _ _
  refine ⟨?_, ?_⟩
  · intro hi
    rw [hunf]
    simp only [ne_eq, hi, not_false_eq_true, if_true, hu]
  · intro hi
    rw [hi] at hu
    have hraise : (s.tso target).cap = cap → blockedUninterruptibly K (s.tso target) = false →
        throwToMsgCheck K cap msg (fuel + 1) s target
          = (raiseAsync K fuel (s.setInfo (s.tso target).block_info Info.stg_IND_info) cap
              target (s.msg msg).exception false none).bind
              (fun _ s2 => Res.ok ThrowToResult.THROWTO_SUCCESS
                (s2.emit (Event.unblockOne cap target))) := by
      intro hcap hb
      rw [hunf]
      simp only [ne_eq, hi, not_true_eq_false, if_false, setInfo_tso, hcap, hb, hu2,
        Bool.false_eq_true, setInfo_msg]
    refine ⟨?_, ?_, ?_⟩
    · intro hcap
      rw [hunf]
      simp only [ne_eq, hi, not_true_eq_false, if_false, setInfo_tso, hcap, not_false_eq_true,
        if_true, hu]
    · intro hcap hb
      rw [hunf]
      simp only [ne_eq, hi, not_true_eq_false, if_false, setInfo_tso, hcap, hb, if_true, hu]
    · intro hcap hb
      refine ⟨hraise hcap hb, ?_⟩
      intro r s1 he
      rw [hraise hcap hb] at he
      obtain ⟨u, s2, h0, h1⟩ := bind_eq_ok he
      cases h1
      obtain ⟨hi2, _⟩ := raiseAsync_info_msg _ _ _ _ _ _ _ _ _ _ h0
      have ha := raiseAsync_actions _ _ _ _ _ _ _ _ _ _ h0
      refine ⟨rfl, ?_, ?_, ?_⟩
      · rw [emit_info, hi2]
        simp [Machine.setInfo, upd_apply]
      · rw [emit_trace, actions_append, ha]
        simp [actions, actionOf]
      · simp [Machine.emit]

/-- C17: for a target blocked on a foreign call (`BlockedOnCCall` or
`BlockedOnCCall_NoUnblockExc`), whatever its flags, `throwToMsg` returns
`THROWTO_BLOCKED`, having sent `msg` when `target->cap != cap` and filed it on
`target->blocked_exceptions` otherwise; nothing is raised, and the stack,
`what_next`, `why_blocked` and flags of the target are as before. -/
theorem throwToMsg_blocked_on_ccall (K : Rts) (fuel : Nat) (s : Machine)
    (cap msg target : Addr)
    (halive : (s.tso target).what_next ≠ WhatNext.ThreadComplete
      ∧ (s.tso target).what_next ≠ WhatNext.ThreadKilled)
    (hwhy : (s.tso target).why_blocked = WhyBlocked.BlockedOnCCall
      ∨ (s.tso target).why_blocked = WhyBlocked.BlockedOnCCall_NoUnblockExc) :
    throwToMsgCheck K cap msg (fuel + 1) s target
        = Res.ok ThrowToResult.THROWTO_BLOCKED (sendOrBlock K s cap target msg)
    ∧ ((s.tso target).cap ≠ cap →
        sendOrBlock K s cap target msg = throwToSendMsg K s cap (s.tso target).cap msg
        ∧ (sendOrBlock K s cap target msg).tso = s.tso)
    ∧ ((s.tso target).cap = cap →
        sendOrBlock K s cap target msg = blockedThrowTo s cap target msg
        ∧ ((sendOrBlock K s cap target msg).tso target).blocked_exceptions = msg
        ∧ ((sendOrBlock K s cap target msg).msg msg).link = (s.tso target).blocked_exceptions)
    ∧ (∀ id, Action.raise id ∈ actions (sendOrBlock K s cap target msg).trace →
        Action.raise id ∈ actions s.trace)
    ∧ ((sendOrBlock K s cap target msg).tso target).stack = (s.tso target).stack
    ∧ ((sendOrBlock K s cap target msg).tso target).sp = (s.tso target).sp
    ∧ ((sendOrBlock K s cap target msg).tso target).what_next = (s.tso target).what_next
    ∧ ((sendOrBlock K s cap target msg).tso target).why_blocked = (s.tso target).why_blocked
    ∧ ((sendOrBlock K s cap target msg).tso target).flags = (s.tso target).flags := by
  have hdead : ¬ ((s.tso target).what_next = WhatNext.ThreadComplete
      ∨ (s.tso target).what_next = WhatNext.ThreadKilled) := by
    rintro (h | h)
    · exact halive.1 h
    · exact halive.2 h
  refine ⟨?_, ?_, ?_, ?_⟩
  · rcases hwhy with hw | hw <;>
      · simp only [throwToMsgCheck, hdead, if_false, hw, sendOrBlock]
        split <;> rfl
  · intro hcap
    simp only [sendOrBlock, if_pos hcap, throwToSendMsg_tso, and_self]
  · intro hcap
    have : ¬ (s.tso target).cap ≠ cap := by simpa using hcap
    simp only [sendOrBlock, if_neg this, true_and]
    simp [blockedThrowTo, upd_apply]
  · by_cases hcap : (s.tso target).cap ≠ cap
    · simp only [sendOrBlock, if_pos hcap, throwToSendMsg_tso, and_self, and_true]
      intro id
      unfold throwToSendMsg
      split <;> simp [actions, actionOf, Machine.emit]
    · simp only [sendOrBlock, if_neg hcap]
      simp [blockedThrowTo, upd_apply, actions, actionOf, Machine.emit]

/-- Writing the header a closure has changes nothing. -/
theorem setInfo_same (s : Machine) (p : Addr) : s.setInfo p (s.info p) = s := by
  cases s
  simp only [Machine.setInfo, Machine.mk.injEq, true_and, and_true]
  funext x
  simp only [upd_apply]
  split
  · rename_i h; rw [h]
  · rfl

theorem sendOrBlock_setInfo (K : Rts) (s : Machine) (cap target msg p : Addr) (i : Info) :
    sendOrBlock K (s.setInfo p i) cap target msg
      = (sendOrBlock K s cap target msg).setInfo p i := by
  unfold sendOrBlock throwToSendMsg
  simp only [setInfo_tso]
  split
  · split <;> rfl
  · rfl

theorem sendOrBlock_info (K : Rts) (s : Machine) (cap target msg : Addr) :
    (sendOrBlock K s cap target msg).info = s.info := by
  unfold sendOrBlock
  split
  · exact throwToSendMsg_info _ _ _ _ _
  · rfl

/-- Filing or sending a message under the lock of a closure and releasing the
lock with the header the closure had is filing or sending it. -/
theorem unlock_sendOrBlock_lock (K : Rts) (s : Machine) (cap target msg p : Addr) :
    unlockClosure (sendOrBlock K (s.setInfo p Info.stg_WHITEHOLE_info) cap target msg) p
        (s.info p)
      = sendOrBlock K s cap target msg := by
  rw [sendOrBlock_setInfo]
  show ((sendOrBlock K s cap target msg).setInfo p Info.stg_WHITEHOLE_info).setInfo p (s.info p)
    = _
  rw [setInfo_twice, ← sendOrBlock_info K s cap target msg, setInfo_same]

/-- C18 (as the code has it): for a target blocked on an `MVar` that is not
held, the lock of the `MVar` is taken and, the target still being blocked on
it: if the target is masking uninterruptibly (`TSO_BLOCKEX` set and
`TSO_INTERRUPTIBLE` clear) the message is sent when `target->cap != cap` and
filed otherwise, nothing is raised, the `MVar` gets its header back and the
result is `THROWTO_BLOCKED`; in every other case the target is removed from
the queue of the `MVar`, the exception is raised in it, it is woken and the
`MVar` is unlocked with the header it had, and when that returns the result
is `THROWTO_SUCCESS`.  For a target blocked on a black hole the same holds
under `sched_mutex`, with the test `TSO_BLOCKEX` set for sending or filing,
and the mutex is released last. -/
theorem throwToMsg_blocked_on_object (K : Rts) (fuel : Nat) (s : Machine)
    (cap msg target : Addr)
    (halive : (s.tso target).what_next ≠ WhatNext.ThreadComplete
      ∧ (s.tso target).what_next ≠ WhatNext.ThreadKilled)
    (hrel : (s.tso target).what_next ≠ WhatNext.ThreadRelocated) :
    ((s.tso target).why_blocked = WhyBlocked.BlockedOnMVar →
      (K.get_itbl (s.info (s.tso target).block_info) = ClosureType.MVAR_CLEAN
        ∨ K.get_itbl (s.info (s.tso target).block_info) = ClosureType.MVAR_DIRTY) →
      s.info (s.tso target).block_info ≠ Info.stg_WHITEHOLE_info →
      (blockedUninterruptibly K (s.tso target) = true →
        throwToMsgCheck K cap msg (fuel + 1) s target
            = Res.ok ThrowToResult.THROWTO_BLOCKED (sendOrBlock K s cap target msg)
          ∧ (sendOrBlock K s cap target msg).info = s.info
          ∧ ∀ id, Action.raise id ∈ actions (sendOrBlock K s cap target msg).trace →
              Action.raise id ∈ actions s.trace)
      ∧ (blockedUninterruptibly K (s.tso target) = false →
        throwToMsgCheck K cap msg (fuel + 1) s target
            = (raiseAsync K fuel
                ((s.setInfo (s.tso target).block_info Info.stg_WHITEHOLE_info).emit
                  (Event.removeThreadFromMVarQueue cap (s.tso target).block_info target))
                cap target (s.msg msg).exception false none).bind
                (fun _ s2 => Res.ok ThrowToResult.THROWTO_SUCCESS
                  (unlockClosure (s2.emit (Event.unblockOne cap target))
                    (s.tso target).block_info (s.info (s.tso target).block_info)))
          ∧ ∀ r s1, throwToMsgCheck K cap msg (fuel + 1) s target = Res.ok r s1 →
              r = ThrowToResult.THROWTO_SUCCESS
              ∧ s1.info = s.info
              ∧ actions s1.trace = actions s.trace ++ [Action.raise (s.tso target).id]
              ∧ s1.trace.getLast? = some (Event.unblockOne cap target)))
    ∧ ((s.tso target).why_blocked = WhyBlocked.BlockedOnBlackHole →
      ((s.tso target).flags &&& K.TSO_BLOCKEX ≠ 0 →
        throwToMsgCheck K cap msg (fuel + 1) s target
            = Res.ok ThrowToResult.THROWTO_BLOCKED
                ((sendOrBlock K (s.emit Event.ACQUIRE_LOCK_sched_mutex) cap target msg).emit
                  Event.RELEASE_LOCK_sched_mutex)
          ∧ ∀ id, Action.raise id ∈ actions
                ((sendOrBlock K (s.emit Event.ACQUIRE_LOCK_sched_mutex) cap target msg).emit
                  Event.RELEASE_LOCK_sched_mutex).trace →
              Action.raise id ∈ actions s.trace)
      ∧ ((s.tso target).flags &&& K.TSO_BLOCKEX = 0 →
        throwToMsgCheck K cap msg (fuel + 1) s target
            = (raiseAsync K fuel
                ((s.emit Event.ACQUIRE_LOCK_sched_mutex).emit
                  (Event.removeThreadFromQueue cap Queue.blackhole_queue target))
                cap target (s.msg msg).exception false none).bind
                (fun _ s2 => Res.ok ThrowToResult.THROWTO_SUCCESS
                  ((s2.emit (Event.unblockOne cap target)).emit
                    Event.RELEASE_LOCK_sched_mutex))
          ∧ ∀ r s1, throwToMsgCheck K cap msg (fuel + 1) s target = Res.ok r s1 →
              r = ThrowToResult.THROWTO_SUCCESS
              ∧ actions s1.trace = actions s.trace ++ [Action.raise (s.tso target).id]
              ∧ s1.trace.getLast? = some Event.RELEASE_LOCK_sched_mutex)) := by
  have hdead : ¬ ((s.tso target).what_next = WhatNext.ThreadComplete
      ∨ (s.tso target).what_next = WhatNext.ThreadKilled) := by
    rintro (h | h)
    · exact halive.1 h
    · exact halive.2 h
  have hnoraise : ∀ (s0 : Machine), actions s0.trace = actions s.trace →
      ∀ id, Action.raise id ∈ actions (sendOrBlock K s0 cap target msg).trace →
        Action.raise id ∈ actions s.trace := by
    intro s0 h0 id
    rw [← h0]
    unfold sendOrBlock
    split
    · unfold throwToSendMsg
      split <;> simp [actions, actionOf, Machine.emit]
    · simp [blockedThrowTo, actions, actionOf, Machine.emit]
  constructor
  · intro hwhy hmv hfree
    have hnv : ¬ ((s.tso target).why_blocked ≠ WhyBlocked.BlockedOnMVar
        ∨ (s.tso target).block_info ≠ (s.tso target).block_info) := by
      rintro (h | h)
      · exact h hwhy
      · exact h rfl
    have hunf : throwToMsgCheck K cap msg (fuel + 1) s target
        = if blockedUninterruptibly K (s.tso target) = true then
            Res.ok ThrowToResult.THROWTO_BLOCKED
              (unlockClosure
                (sendOrBlock K (s.setInfo (s.tso target).block_info Info.stg_WHITEHOLE_info) cap
                  target msg) (s.tso target).block_info (s.info (s.tso target).block_info))
          else
            (raiseAsync K fuel
                ((s.setInfo (s.tso target).block_info Info.stg_WHITEHOLE_info).emit
                  (Event.removeThreadFromMVarQueue cap (s.tso target).block_info target))
                cap target (s.msg msg).exception false none).bind
                (fun _ s2 => Res.ok ThrowToResult.THROWTO_SUCCESS
                  (unlockClosure (s2.emit (Event.unblockOne cap target))
                    (s.tso target).block_info (s.info (s.tso target).block_info))) := by
      rcases hmv with h | h <;>
        simp only [throwToMsgCheck, hdead, if_false, hwhy, h, lockClosure, if_true,
          if_neg hfree, setInfo_tso, if_neg hrel, sendOrBlock, emit_msg, setInfo_msg, ne_eq,
          not_true_eq_false, or_self]
    constructor
    · intro hb
      refine ⟨?_, sendOrBlock_info _ _ _ _ _, hnoraise s rfl⟩
      rw [hunf, if_pos hb, unlock_sendOrBlock_lock]
    · intro hb
      have hb2 : ¬ blockedUninterruptibly K (s.tso target) = true := by simp [hb]
      have heq := hunf.trans (if_neg hb2)
      refine ⟨heq, ?_⟩
      intro r s1 he
      rw [heq] at he
      obtain ⟨u, s2, h0, h1⟩ := bind_eq_ok he
      cases h1
      obtain ⟨hi2, _⟩ := raiseAsync_info_msg _ _ _ _ _ _ _ _ _ _ h0
      have ha := raiseAsync_actions _ _ _ _ _ _ _ _ _ _ h0
      refine ⟨rfl, ?_, ?_, ?_⟩
      · have := setInfo_restore s (s.tso target).block_info Info.stg_WHITEHOLE_info
        simp only [unlockClosure, Machine.setInfo, Machine.emit, hi2]
        simpa [Machine.setInfo] using congrArg Machine.info this
      · simp only [unlockClosure_trace, emit_trace, actions_append, ha]
        simp [actions, actionOf]
      · simp [unlockClosure, Machine.setInfo, Machine.emit]
  · intro hwhy
    have hnv : ¬ (s.tso target).why_blocked ≠ WhyBlocked.BlockedOnBlackHole := by
      intro h; exact h hwhy
    constructor
    · intro hb
      refine ⟨?_, ?_⟩
      · simp only [throwToMsgCheck, hdead, if_false, hwhy, emit_tso, if_pos hb,
          sendOrBlock, ne_eq, not_true_eq_false]
      · intro id h
        apply hnoraise (s.emit Event.ACQUIRE_LOCK_sched_mutex) (by simp [actions, actionOf]) id
        simpa [actions, actionOf] using h
    · intro hb
      have hb2 : ¬ (s.tso target).flags &&& K.TSO_BLOCKEX ≠ 0 := by simpa using hb
      have heq : throwToMsgCheck K cap msg (fuel + 1) s target
          = (raiseAsync K fuel
              ((s.emit Event.ACQUIRE_LOCK_sched_mutex).emit
                (Event.removeThreadFromQueue cap Queue.blackhole_queue target))
              cap target (s.msg msg).exception false none).bind
              (fun _ s2 => Res.ok ThrowToResult.THROWTO_SUCCESS
                ((s2.emit (Event.unblockOne cap target)).emit
                  Event.RELEASE_LOCK_sched_mutex)) := by
        simp only [throwToMsgCheck, hdead, if_false, hwhy, emit_tso, if_neg hb2,
          emit_msg, ne_eq, not_true_eq_false]
      refine ⟨heq, ?_⟩
      intro r s1 he
      rw [heq] at he
      obtain ⟨u, s2, h0, h1⟩ := bind_eq_ok he
      cases h1
      have ha := raiseAsync_actions _ _ _ _ _ _ _ _ _ _ h0
      refine ⟨rfl, ?_, ?_⟩
      · simp only [emit_trace, actions_append, ha]
        simp [actions, actionOf]
      · simp [Machine.emit]

theorem abortsOf_append (a b : List Event) : abortsOf (a ++ b) = abortsOf a ++ abortsOf b := by
  simp [abortsOf, List.filterMap_append]

theorem condemnsOf_append (a b : List Event) :
    condemnsOf (a ++ b) = condemnsOf a ++ condemnsOf b := by
  simp [condemnsOf, List.filterMap_append]

/-- What one passed frame does to the transaction record of the thread and
to the transactions: a transaction frame aborts the current record and makes
the enclosing one current; no frame condemns. -/
theorem passFrame_trec (K : Rts) (cap t updatee : Addr) (st : Machine × Int) (p : Int)
    (ty : FrameType) :
    ((passFrame K cap t updatee st p ty).1.tso t).trec
        = (if isTxFrame ty then st.1.enclosing_trec (st.1.tso t).trec else (st.1.tso t).trec)
      ∧ (passFrame K cap t updatee st p ty).1.enclosing_trec = st.1.enclosing_trec
      ∧ abortsOf (passFrame K cap t updatee st p ty).1.trace
          = abortsOf st.1.trace ++ (if isTxFrame ty then [(st.1.tso t).trec] else [])
      ∧ condemnsOf (passFrame K cap t updatee st p ty).1.trace = condemnsOf st.1.trace := by
  cases ty
  case UPDATE_FRAME =>
    simp only [passFrame, isTxFrame]
    rw [freezeUpdateFrame_tso]
    refine ⟨by simp, ?_, ?_, ?_⟩
    · simp only [freezeUpdateFrame, allocate]; split <;> rfl
    · simp only [freezeUpdateFrame, allocate]
      split <;> simp [abortsOf, Machine.emit, Machine.setTSO]
    · simp only [freezeUpdateFrame, allocate]
      split <;> simp [condemnsOf, Machine.emit, Machine.setTSO]
  all_goals
    simp [passFrame, isTxFrame, abortTransaction, abortsOf, condemnsOf, Machine.emit,
      Machine.setTSO]

theorem enclosingN_congr (s s1 : Machine) (h : s1.enclosing_trec = s.enclosing_trec) (n : Nat)
    (r : Addr) : enclosingN s1 n r = enclosingN s n r := by
  induction n generalizing r with
  | zero => rfl
  | succ n ih => simp only [enclosingN, h, ih]

theorem trecsFrom_congr (s s1 : Machine) (h : s1.enclosing_trec = s.enclosing_trec) (n : Nat)
    (r : Addr) : trecsFrom s1 n r = trecsFrom s n r := by
  induction n generalizing r with
  | zero => rfl
  | succ n ih => simp only [trecsFrom, h, ih]

/-- What the walk over passed frames does to the transactions: each
transaction frame aborts the record that is current and makes the enclosing
one current, and nothing is condemned. -/
theorem walk_trec (K : Rts) (cap t updatee : Addr) (l : List (Int × FrameType))
    (st : Machine × Int) :
    ((walk K cap t updatee l st).1.tso t).trec = enclosingN st.1 (txCount l) (st.1.tso t).trec
      ∧ (walk K cap t updatee l st).1.enclosing_trec = st.1.enclosing_trec
      ∧ abortsOf (walk K cap t updatee l st).1.trace
          = abortsOf st.1.trace ++ trecsFrom st.1 (txCount l) (st.1.tso t).trec
      ∧ condemnsOf (walk K cap t updatee l st).1.trace = condemnsOf st.1.trace := by
  induction l generalizing st with
  | nil => simp [walk, txCount, enclosingN, trecsFrom]
  | cons x l ih =>
    obtain ⟨h1, h2, h3, h4⟩ := passFrame_trec K cap t updatee st x.1 x.2
    obtain ⟨i1, i2, i3, i4⟩ := ih (passFrame K cap t updatee st x.1 x.2)
    simp only [walk]
    rw [i1, i2, i3, i4, h1, h2, h3, h4, enclosingN_congr _ _ h2, trecsFrom_congr _ _ h2]
    by_cases hx : isTxFrame x.2 = true
    · have : txCount (x :: l) = txCount l + 1 := by simp [txCount, List.filter_cons, hx]
      rw [this]
      simp [hx, enclosingN, trecsFrom]
    · have : txCount (x :: l) = txCount l := by simp [txCount, List.filter_cons, hx]
      rw [this]
      simp [hx]

theorem raiseStart_trec (K : Rts) (cap tso t : Addr) (s : Machine) :
    ((raiseStart K cap tso t s).1.tso t).trec = (s.tso t).trec
      ∧ (raiseStart K cap tso t s).1.enclosing_trec = s.enclosing_trec
      ∧ abortsOf (raiseStart K cap tso t s).1.trace = abortsOf s.trace
      ∧ condemnsOf (raiseStart K cap tso t s).1.trace = condemnsOf s.trace := by
  simp only [raiseStart, normaliseTop, emit_tso]
  split
  · simp [abortsOf, condemnsOf, Machine.emit]
  · simp [abortsOf, condemnsOf, Machine.emit, Machine.setTSO]

/-- The function `raiseAsync`, asked to stop at an atomically frame, on a thread whose
stack starts with a chain of passed frames ending at an atomically frame `c`. -/
theorem raiseAsync_atomically_eq (K : Rts) (fuel : Nat) (s : Machine)
    (cap tso t exception : Addr) (stop_here : Option Int) (l : List (Int × FrameType))
    (c : Int)
    (hrel : followRelocated fuel s tso = some t)
    (hc : Chain K (s.tso t).stack (firstFrame K (s.tso t)) l c)
    (hp : ∀ x ∈ l, Passes exception true stop_here x)
    (hatom : K.get_ret_itbl ((s.tso t).stack c) = FrameType.ATOMICALLY_FRAME)
    (hin : inLoop stop_here c = true)
    (hfuel : l.length < fuel) :
    raiseAsync K fuel s cap tso exception true stop_here
        = Res.ok () (stopAtAtomically K cap t
            (walk K cap t (stopUpdatee K (s.tso t).stack stop_here) l
              (raiseStart K cap tso t s)).1 c)
      ∧ SameBelow t c s (walk K cap t (stopUpdatee K (s.tso t).stack stop_here) l
          (raiseStart K cap tso t s)).1 := by
  obtain ⟨k, rfl⟩ : ∃ k, fuel = (k + 1) + l.length := ⟨fuel - l.length - 1, by omega⟩
  obtain ⟨h1, h2⟩ :=
    raiseAsync_walk K (k + 1) s cap tso t exception true stop_here l c hrel hc hp
  refine ⟨?_, h2⟩
  rw [h1]
  simp only [raiseAsyncLoop]
  rw [if_pos hin, h2.2.2 c (le_refl c), hatom]
  simp only [if_true]

/-- The function `raiseAsync` with a `stop_here` on a thread whose stack starts with a
chain of passed frames ending at `stop_here`: the walk is all it does. -/
theorem raiseAsync_stop_here_eq (K : Rts) (fuel : Nat) (s : Machine)
    (cap tso t exception : Addr) (saa : Bool) (l : List (Int × FrameType)) (e : Int)
    (hrel : followRelocated fuel s tso = some t)
    (hc : Chain K (s.tso t).stack (firstFrame K (s.tso t)) l e)
    (hp : ∀ x ∈ l, Passes exception saa (some e) x)
    (hfuel : l.length < fuel) :
    raiseAsync K fuel s cap tso exception saa (some e)
        = Res.ok () (walk K cap t (stopUpdatee K (s.tso t).stack (some e)) l
              (raiseStart K cap tso t s)).1
      ∧ SameBelow t e s (walk K cap t (stopUpdatee K (s.tso t).stack (some e)) l
          (raiseStart K cap tso t s)).1 := by
  obtain ⟨k, rfl⟩ : ∃ k, fuel = (k + 1) + l.length := ⟨fuel - l.length - 1, by omega⟩
  obtain ⟨h1, h2⟩ :=
    raiseAsync_walk K (k + 1) s cap tso t exception saa (some e) l e hrel hc hp
  refine ⟨?_, h2⟩
  rw [h1]
  simp [raiseAsyncLoop, inLoop]

/-- The function `removeFromQueues` leaves the transactions alone. -/
theorem removeFromQueues_stm (K : Rts) (s : Machine) (cap tso : Addr) (u : Unit)
    (s1 : Machine) (h : removeFromQueues K s cap tso = Res.ok u s1) :
    s1.enclosing_trec = s.enclosing_trec ∧ abortsOf s1.trace = abortsOf s.trace
      ∧ condemnsOf s1.trace = condemnsOf s.trace := by
  unfold removeFromQueues at h
  generalize (s.tso tso).why_blocked = w at h
  cases w <;> simp only at h
  all_goals
    first
    | exact Res.noConfusion h
    | (cases h; simp [abortsOf, condemnsOf, unlockClosure, Machine.emit, Machine.setInfo])
    | (split at h <;> first
        | exact Res.noConfusion h
        | (cases h; simp [abortsOf, condemnsOf, Machine.emit])
        | (split at h <;> first
            | exact Res.noConfusion h
            | (cases h; simp [abortsOf, condemnsOf, Machine.emit])))

/-- C19: asked to stop at the atomic block (`stop_at_atomically` true),
`raiseAsync` stops at the first `ATOMICALLY_FRAME`.  When the frames the walk
meets first are all passed and the next frame, at `c`, is an
`ATOMICALLY_FRAME`, `raiseAsync` returns, and in the state it leaves: the
transaction record of the thread is the one it had on reaching the frame
(the record of the thread before, when no nested transaction frame was
passed, and then nothing was aborted); that record is condemned
(`stmCondemnTransaction` is the last event), and nothing else is; the stack
from `c` on (the atomically frame and all below it) is as before; `sp` is
`c - 2`, where `stg_gc_unpt_r1_info` stands with `stg_NO_TREC_closure` in the
word after it; `what_next` is `ThreadRunGHC`; and the other threads are
untouched. -/
theorem raiseAsync_stops_at_atomically (K : Rts) (fuel : Nat) (s : Machine)
    (cap tso t exception : Addr) (stop_here : Option Int)
    (l : List (Int × FrameType)) (c : Int)
    (hrel : followRelocated fuel s tso = some t)
    (hc : Chain K (s.tso t).stack (firstFrame K (s.tso t)) l c)
    (hp : ∀ x ∈ l, Passes exception true stop_here x)
    (hatom : K.get_ret_itbl ((s.tso t).stack c) = FrameType.ATOMICALLY_FRAME)
    (hin : inLoop stop_here c = true)
    (hfuel : l.length < fuel) :
    ∃ s1, raiseAsync K fuel s cap tso exception true stop_here = Res.ok () s1
      ∧ (∀ x ∈ l, x.2 ≠ FrameType.ATOMICALLY_FRAME)
      ∧ (s1.tso t).trec
          = ((walk K cap t (stopUpdatee K (s.tso t).stack stop_here) l
              (raiseStart K cap tso t s)).1.tso t).trec
      ∧ (s1.tso t).trec = enclosingN s (txCount l) (s.tso t).trec
      ∧ (txCount l = 0 →
          (s1.tso t).trec = (s.tso t).trec ∧ abortsOf s1.trace = abortsOf s.trace)
      ∧ condemnsOf s1.trace = condemnsOf s.trace ++ [(s1.tso t).trec]
      ∧ s1.trace.getLast? = some (Event.stmCondemnTransaction cap (s1.tso t).trec)
      ∧ (∀ i, c ≤ i → (s1.tso t).stack i = (s.tso t).stack i)
      ∧ (s1.tso t).sp = c - 2
      ∧ (s1.tso t).stack (c - 2) = K.stg_gc_unpt_r1_info
      ∧ (s1.tso t).stack (c - 1) = K.stg_NO_TREC_closure
      ∧ (s1.tso t).what_next = WhatNext.ThreadRunGHC
      ∧ (s1.tso t).flags = (s.tso t).flags
      ∧ (∀ a, a ≠ t → s1.tso a = s.tso a) := by
  obtain ⟨heq, hsame⟩ := raiseAsync_atomically_eq K fuel s cap tso t exception stop_here l c
    hrel hc hp hatom hin hfuel
  obtain ⟨w1, w2, w3, w4⟩ := walk_trec K cap t (stopUpdatee K (s.tso t).stack stop_here) l
    (raiseStart K cap tso t s)
  obtain ⟨r1, r2, r3, r4⟩ := raiseStart_trec K cap tso t s
  rw [r1, enclosingN_congr _ _ r2] at w1
  rw [r1, r3, trecsFrom_congr _ _ r2] at w3
  rw [r4] at w4
  have htrec : ((stopAtAtomically K cap t
      (walk K cap t (stopUpdatee K (s.tso t).stack stop_here) l
        (raiseStart K cap tso t s)).1 c).tso t).trec
      = ((walk K cap t (stopUpdatee K (s.tso t).stack stop_here) l
          (raiseStart K cap tso t s)).1.tso t).trec := by
    simp only [stopAtAtomically, setTSO_tso, emit_tso, upd_apply, if_true]
  refine ⟨_, heq, ?_, htrec, htrec.trans w1, ?_, ?_, ?_, ?_, ?_, ?_, ?_, ?_, ?_, ?_⟩
  · intro x hx hx2
    have := (hp x hx).2.2 hx2
    cases this
  · intro h0
    rw [htrec, w1, h0]
    refine ⟨rfl, ?_⟩
    simp only [stopAtAtomically, setTSO_trace, emit_trace, abortsOf_append, w3, h0]
    simp [abortsOf, trecsFrom]
  · rw [htrec]
    simp only [stopAtAtomically, setTSO_trace, emit_trace, condemnsOf_append, w4]
    simp [condemnsOf]
  · rw [htrec]
    simp [stopAtAtomically, Machine.emit]
  · intro i hi
    have h1 : i ≠ c - 2 := by omega
    have h2 : i ≠ c - 2 + 1 := by omega
    simp only [stopAtAtomically, setTSO_tso, emit_tso, upd_apply, if_true, h1, h2, if_false]
    exact hsame.2.2 i hi
  · simp only [stopAtAtomically, setTSO_tso, emit_tso, upd_apply, if_true]
  · simp only [stopAtAtomically, setTSO_tso, emit_tso, upd_apply, if_true]
  · have h1 : c - 1 = c - 2 + 1 := by omega
    have h2 : c - 2 + 1 ≠ c - 2 := by omega
    simp only [stopAtAtomically, setTSO_tso, emit_tso, upd_apply, if_true, h1, h2, if_false]
  · simp only [stopAtAtomically, setTSO_tso, emit_tso, upd_apply, if_true]
  · simp only [stopAtAtomically, setTSO_tso, emit_tso, upd_apply, if_true]
    exact hsame.flags
  · intro a ha
    simp only [stopAtAtomically, setTSO_tso, emit_tso, upd_apply, if_neg ha]
    exact hsame.1 a ha

/-- C20 (as the code has it): `suspendComputation` runs the walk with
`stop_at_atomically` false, so a transaction frame between the top of the
stack and `stop_here` is passed like this: the transaction record that is
current is aborted and freed and the enclosing one becomes current.  When
the frames `l` down to `stop_here` are all above it, `suspendComputation`
returns, and in the state it leaves: the transaction record of the thread is
the one `txCount l` levels out; the aborted records are those, innermost
first; nothing is condemned; and the thread has the `what_next` and `sp` it
had (it is not killed) and its stack from `stop_here` on as before. -/
theorem suspendComputation_aborts_transactions (K : Rts) (fuel : Nat) (s : Machine)
    (cap tso t : Addr) (l : List (Int × FrameType)) (e : Int)
    (halive : ¬ ((s.tso tso).what_next = WhatNext.ThreadComplete
      ∨ (s.tso tso).what_next = WhatNext.ThreadKilled))
    (hq : removeFromQueues K s cap tso ≠ Res.barf)
    (hrel : followRelocated fuel s tso = some t)
    (hc : Chain K (s.tso t).stack (firstFrame K (s.tso t)) l e)
    (habove : ∀ x ∈ l, x.1 < e)
    (hfuel : l.length < fuel) :
    ∃ s1, suspendComputation K fuel s cap tso (some e) = Res.ok () s1
      ∧ (s1.tso t).trec = enclosingN s (txCount l) (s.tso t).trec
      ∧ abortsOf s1.trace = abortsOf s.trace ++ trecsFrom s (txCount l) (s.tso t).trec
      ∧ condemnsOf s1.trace = condemnsOf s.trace
      ∧ (s1.tso t).what_next = (s.tso t).what_next
      ∧ (s1.tso t).sp = (s.tso t).sp
      ∧ (∀ i, e ≤ i → (s1.tso t).stack i = (s.tso t).stack i)
      ∧ (∀ a, a ≠ t → s1.tso a = s.tso a) := by
  obtain ⟨s0, h0, ht⟩ :
      ∃ s0, removeFromQueues K s cap tso = Res.ok () s0 ∧ s0.tso = s.tso := by
    rcases removeFromQueues_tso K s cap tso with hb | h
    · exact absurd hb hq
    · exact h
  obtain ⟨q1, q2, q3⟩ := removeFromQueues_stm K s cap tso () s0 h0
  have hrel0 : followRelocated fuel s0 tso = some t := by
    rw [followRelocated_congr fuel s s0 ht]; exact hrel
  have hc0 : Chain K (s0.tso t).stack (firstFrame K (s0.tso t)) l e := by rw [ht]; exact hc
  have hp : ∀ x ∈ l, Passes NULL false (some e) x := by
    intro x hx
    refine ⟨?_, (fun _ => rfl), (fun _ => rfl)⟩
    simp [inLoop, habove x hx]
  obtain ⟨heq, hsame⟩ := raiseAsync_stop_here_eq K fuel s0 cap tso t NULL false l e hrel0 hc0 hp
    hfuel
  generalize stopUpdatee K (s0.tso t).stack (some e) = U at heq hsame
  obtain ⟨w1, w2, w3, w4⟩ := walk_trec K cap t U l (raiseStart K cap tso t s0)
  obtain ⟨r1, r2, r3, r4⟩ := raiseStart_trec K cap tso t s0
  rw [r1, enclosingN_congr _ _ r2, enclosingN_congr _ _ q1, ht] at w1
  rw [r1, r3, trecsFrom_congr _ _ r2, trecsFrom_congr _ _ q1, q2, ht] at w3
  rw [r4, q3] at w4
  refine ⟨_, ?_, w1, w3, w4, ?_, ?_, ?_, ?_⟩
  · simp only [suspendComputation, if_neg halive, h0, bind_ok]
    exact heq
  · rw [hsame.what_next, ht]
  · rw [hsame.sp, ht]
  · intro i hi
    rw [hsame.2.2 i hi, ht]
  · intro a ha
    rw [hsame.1 a ha, ht]

theorem freesOf_append (a b : List Event) : freesOf (a ++ b) = freesOf a ++ freesOf b := by
  simp [freesOf, List.filterMap_append]

/-- One passed frame frees the transaction record it aborts. -/
theorem passFrame_frees (K : Rts) (cap t updatee : Addr) (st : Machine × Int) (p : Int)
    (ty : FrameType) :
    freesOf (passFrame K cap t updatee st p ty).1.trace
      = freesOf st.1.trace ++ (if isTxFrame ty then [(st.1.tso t).trec] else []) := by
  cases ty
  case UPDATE_FRAME =>
    simp only [passFrame, isTxFrame, freezeUpdateFrame, allocate]
    split <;> simp [freesOf, Machine.emit, Machine.setTSO]
  all_goals
    simp [passFrame, isTxFrame, abortTransaction, freesOf, Machine.emit, Machine.setTSO]

/-- The walk frees the transaction records it aborts. -/
theorem walk_frees (K : Rts) (cap t updatee : Addr) (l : List (Int × FrameType))
    (st : Machine × Int) :
    freesOf (walk K cap t updatee l st).1.trace
      = freesOf st.1.trace ++ trecsFrom st.1 (txCount l) (st.1.tso t).trec := by
  induction l generalizing st with
  | nil => simp [walk, txCount, trecsFrom]
  | cons x l ih =>
    obtain ⟨h1, h2, _, _⟩ := passFrame_trec K cap t updatee st x.1 x.2
    have h3 := passFrame_frees K cap t updatee st x.1 x.2
    simp only [walk]
    rw [ih, h1, h3, trecsFrom_congr _ _ h2]
    by_cases hx : isTxFrame x.2 = true
    · have : txCount (x :: l) = txCount l + 1 := by simp [txCount, List.filter_cons, hx]
      rw [this]
      simp [hx, trecsFrom]
    · have : txCount (x :: l) = txCount l := by simp [txCount, List.filter_cons, hx]
      rw [this]
      simp [hx]

theorem raiseStart_frees (K : Rts) (cap tso t : Addr) (s : Machine) :
    freesOf (raiseStart K cap tso t s).1.trace = freesOf s.trace := by
  simp only [raiseStart, normaliseTop, emit_tso]
  split
  · simp [freesOf, Machine.emit]
  · simp [freesOf, Machine.emit, Machine.setTSO]

/-- One turn of the walk at a transaction frame that is passed. -/
theorem raiseAsyncLoop_tx_step (K : Rts) (cap t exception : Addr) (saa : Bool)
    (stop_here : Option Int) (updatee : Addr) (fuel : Nat) (s : Machine) (sp frame : Int)
    (hin : inLoop stop_here frame = true)
    (hty : (K.get_ret_itbl ((s.tso t).stack frame) = FrameType.ATOMICALLY_FRAME ∧ saa = false)
      ∨ K.get_ret_itbl ((s.tso t).stack frame) = FrameType.CATCH_STM_FRAME
      ∨ K.get_ret_itbl ((s.tso t).stack frame) = FrameType.CATCH_RETRY_FRAME) :
    raiseAsyncLoop K cap t exception saa stop_here updatee (fuel + 1) s sp frame
      = raiseAsyncLoop K cap t exception saa stop_here updatee fuel (abortTransaction cap t s) sp
          (nextFrame K (s.tso t).stack frame) := by
  rcases hty with ⟨h, hs⟩ | h | h
  · simp only [raiseAsyncLoop, if_pos hin, h, hs, Bool.false_eq_true, if_false]
  · simp only [raiseAsyncLoop, if_pos hin, h]
  · simp only [raiseAsyncLoop, if_pos hin, h]

/-- C21: when the walk of `raiseAsync` is at a transaction frame that it
passes (an `ATOMICALLY_FRAME` with `stop_at_atomically` false, a
`CATCH_STM_FRAME` or a `CATCH_RETRY_FRAME`), it aborts and frees the current
transaction record of the thread, makes the enclosing record the current one
and goes on with the frame `stack_frame_sizeW` words on, the stack, `sp` and
the rest of the thread being as before.  So after a chain `l` of passed
frames the walk is at the end of the chain with the record of the thread
`txCount l` levels out from the one it had, those records having been
aborted and freed, innermost first, and none condemned. -/
theorem raiseAsync_aborts_at_transaction_frames (K : Rts) (k : Nat) (s : Machine)
    (cap tso t exception : Addr) (saa : Bool) (stop_here : Option Int)
    (l : List (Int × FrameType)) (e : Int)
    (hrel : followRelocated (k + l.length) s tso = some t)
    (hc : Chain K (s.tso t).stack (firstFrame K (s.tso t)) l e)
    (hp : ∀ x ∈ l, Passes exception saa stop_here x) :
    (∀ (updatee : Addr) (fuel : Nat) (s0 : Machine) (sp frame : Int),
      inLoop stop_here frame = true →
      ((K.get_ret_itbl ((s0.tso t).stack frame) = FrameType.ATOMICALLY_FRAME ∧ saa = false)
        ∨ K.get_ret_itbl ((s0.tso t).stack frame) = FrameType.CATCH_STM_FRAME
        ∨ K.get_ret_itbl ((s0.tso t).stack frame) = FrameType.CATCH_RETRY_FRAME) →
      raiseAsyncLoop K cap t exception saa stop_here updatee (fuel + 1) s0 sp frame
          = raiseAsyncLoop K cap t exception saa stop_here updatee fuel
              (abortTransaction cap t s0) sp
              (frame + (K.stack_frame_sizeW
                (fun (i : Nat) => (s0.tso t).stack (frame + (i : Int))) : Int))
        ∧ (abortTransaction cap t s0).trace
            = s0.trace ++ [Event.debugTrace DebugMsg.found_atomically,
                Event.stmAbortTransaction cap (s0.tso t).trec,
                Event.stmFreeAbortedTRec cap (s0.tso t).trec]
        ∧ (abortTransaction cap t s0).tso t
            = { s0.tso t with trec := s0.enclosing_trec (s0.tso t).trec }
        ∧ (∀ a, a ≠ t → (abortTransaction cap t s0).tso a = s0.tso a))
    ∧ raiseAsync K (k + l.length) s cap tso exception saa stop_here
        = raiseAsyncLoop K cap t exception saa stop_here
            (stopUpdatee K (s.tso t).stack stop_here) k
            (walk K cap t (stopUpdatee K (s.tso t).stack stop_here) l
              (raiseStart K cap tso t s)).1
            (walk K cap t (stopUpdatee K (s.tso t).stack stop_here) l
              (raiseStart K cap tso t s)).2 e
    ∧ ((walk K cap t (stopUpdatee K (s.tso t).stack stop_here) l
          (raiseStart K cap tso t s)).1.tso t).trec
        = enclosingN s (txCount l) (s.tso t).trec
    ∧ abortsOf (walk K cap t (stopUpdatee K (s.tso t).stack stop_here) l
          (raiseStart K cap tso t s)).1.trace
        = abortsOf s.trace ++ trecsFrom s (txCount l) (s.tso t).trec
    ∧ freesOf (walk K cap t (stopUpdatee K (s.tso t).stack stop_here) l
          (raiseStart K cap tso t s)).1.trace
        = freesOf s.trace ++ trecsFrom s (txCount l) (s.tso t).trec
    ∧ condemnsOf (walk K cap t (stopUpdatee K (s.tso t).stack stop_here) l
          (raiseStart K cap tso t s)).1.trace
        = condemnsOf s.trace := by
  obtain ⟨h1, _⟩ := raiseAsync_walk K k s cap tso t exception saa stop_here l e hrel hc hp
  generalize stopUpdatee K (s.tso t).stack stop_here = U at h1 ⊢
  obtain ⟨w1, _, w3, w4⟩ := walk_trec K cap t U l (raiseStart K cap tso t s)
  have w5 := walk_frees K cap t U l (raiseStart K cap tso t s)
  obtain ⟨r1, r2, r3, r4⟩ := raiseStart_trec K cap tso t s
  have r5 := raiseStart_frees K cap tso t s
  rw [r1, enclosingN_congr _ _ r2] at w1
  rw [r1, r3, trecsFrom_congr _ _ r2] at w3
  rw [r1, r5, trecsFrom_congr _ _ r2] at w5
  rw [r4] at w4
  refine ⟨?_, h1, w1, w3, w5, w4⟩
  intro updatee fuel s0 sp frame hin hty
  refine ⟨raiseAsyncLoop_tx_step K cap t exception saa stop_here updatee fuel s0 sp frame hin hty,
    abortTransaction_trace cap t s0, ?_, ?_⟩
  · simp [abortTransaction_tso, upd_apply]
  · intro a ha
    simp [abortTransaction_tso, upd_apply, ha]

/-- One turn of the walk at an update frame. -/
theorem raiseAsyncLoop_update_step (K : Rts) (cap t exception : Addr) (saa : Bool)
    (stop_here : Option Int) (updatee : Addr) (fuel : Nat) (s : Machine) (sp frame : Int)
    (hin : inLoop stop_here frame = true)
    (hty : K.get_ret_itbl ((s.tso t).stack frame) = FrameType.UPDATE_FRAME) :
    raiseAsyncLoop K cap t exception saa stop_here updatee (fuel + 1) s sp frame
      = raiseAsyncLoop K cap t exception saa stop_here updatee fuel
          (freezeUpdateFrame K cap t updatee s sp frame).1
          (freezeUpdateFrame K cap t updatee s sp frame).2
          ((freezeUpdateFrame K cap t updatee s sp frame).2 + 1) := by
  simp only [raiseAsyncLoop, if_pos hin, hty]

/-- What the update-frame step does to the heap when the updatee is the one
of `stop_here`: it allocates at the heap pointer and updates nothing. -/
theorem freezeUpdateFrame_kept (K : Rts) (cap t updatee : Addr) (s : Machine) (sp p : Int)
    (h : updateeOf K (s.tso t).stack p = updatee) :
    (freezeUpdateFrame K cap t updatee s sp p).1.trace
        = s.trace ++ [Event.allocate cap (K.AP_STACK_sizeW (p - sp - 1).toNat) s.hp] := by
  simp only [freezeUpdateFrame, allocate, if_pos h]
  simp

/-- The closure the update-frame step builds, at the heap pointer. -/
theorem freezeUpdateFrame_ap (K : Rts) (cap t updatee : Addr) (s : Machine) (sp p : Int) :
    (freezeUpdateFrame K cap t updatee s sp p).1.ap_stack s.hp
      = { header := Info.stg_AP_STACK_info, size := (p - sp - 1).toNat,
          fun_ := (s.tso t).stack sp,
          payload := (List.range (p - sp - 1).toNat).map
            (fun (i : Nat) => (s.tso t).stack (sp + 1 + (i : Int))) } := by
  simp only [freezeUpdateFrame, allocate]
  split <;> simp [Machine.setTSO, Machine.emit]

/-- C22: in `raiseAsync` the local `updatee` is the updatee of `stop_here`,
or `NULL` without a stop boundary.  At every update frame the walk reaches
it allocates an `AP_STACK`; when the updatee of the frame is that `updatee`
the cell is not updated and the cell itself is put in the last word of the
frame; otherwise the cell is updated (`UPD_IND`) with the new `AP_STACK` and
the `AP_STACK` is put there.  Without a stop boundary every update frame for
a cell (its updatee is not `NULL`) has the cell updated. -/
theorem raiseAsync_keeps_stop_updatee (K : Rts) (fuel : Nat) (s : Machine)
    (cap tso t exception : Addr) (saa : Bool) (stop_here : Option Int)
    (hrel : followRelocated fuel s tso = some t) :
    raiseAsync K fuel s cap tso exception saa stop_here
        = raiseAsyncLoop K cap t exception saa stop_here
            (stopUpdatee K (s.tso t).stack stop_here) fuel (raiseStart K cap tso t s).1
            (raiseStart K cap tso t s).2 ((raiseStart K cap tso t s).2 + 1)
    ∧ (∀ p, stop_here = some p →
        stopUpdatee K (s.tso t).stack stop_here = updateeOf K (s.tso t).stack p)
    ∧ (stop_here = none → stopUpdatee K (s.tso t).stack stop_here = NULL)
    ∧ ∀ (n : Nat) (s0 : Machine) (sp frame : Int),
        inLoop stop_here frame = true →
        K.get_ret_itbl ((s0.tso t).stack frame) = FrameType.UPDATE_FRAME →
        raiseAsyncLoop K cap t exception saa stop_here
            (stopUpdatee K (s.tso t).stack stop_here) (n + 1) s0 sp frame
          = raiseAsyncLoop K cap t exception saa stop_here
              (stopUpdatee K (s.tso t).stack stop_here) n
              (freezeUpdateFrame K cap t (stopUpdatee K (s.tso t).stack stop_here)
                s0 sp frame).1
              (freezeUpdateFrame K cap t (stopUpdatee K (s.tso t).stack stop_here)
                s0 sp frame).2
              ((freezeUpdateFrame K cap t (stopUpdatee K (s.tso t).stack stop_here)
                s0 sp frame).2 + 1)
        ∧ allocsOf (freezeUpdateFrame K cap t (stopUpdatee K (s.tso t).stack stop_here)
              s0 sp frame).1.trace = allocsOf s0.trace ++ [s0.hp]
        ∧ ((freezeUpdateFrame K cap t (stopUpdatee K (s.tso t).stack stop_here)
              s0 sp frame).1.ap_stack s0.hp).header = Info.stg_AP_STACK_info
        ∧ (updateeOf K (s0.tso t).stack frame = stopUpdatee K (s.tso t).stack stop_here →
            updatesOf (freezeUpdateFrame K cap t (stopUpdatee K (s.tso t).stack stop_here)
                s0 sp frame).1.trace = updatesOf s0.trace
            ∧ ((freezeUpdateFrame K cap t (stopUpdatee K (s.tso t).stack stop_here)
                s0 sp frame).1.tso t).stack
                (freezeUpdateFrame K cap t (stopUpdatee K (s.tso t).stack stop_here)
                  s0 sp frame).2
              = updateeOf K (s0.tso t).stack frame)
        ∧ (updateeOf K (s0.tso t).stack frame ≠ stopUpdatee K (s.tso t).stack stop_here →
            updatesOf (freezeUpdateFrame K cap t (stopUpdatee K (s.tso t).stack stop_here)
                s0 sp frame).1.trace
              = updatesOf s0.trace ++ [(updateeOf K (s0.tso t).stack frame, s0.hp)]
            ∧ ((freezeUpdateFrame K cap t (stopUpdatee K (s.tso t).stack stop_here)
                s0 sp frame).1.tso t).stack
                (freezeUpdateFrame K cap t (stopUpdatee K (s.tso t).stack stop_here)
                  s0 sp frame).2
              = s0.hp)
        ∧ (stop_here = none → updateeOf K (s0.tso t).stack frame ≠ NULL →
            updatesOf (freezeUpdateFrame K cap t (stopUpdatee K (s.tso t).stack stop_here)
                s0 sp frame).1.trace
              = updatesOf s0.trace ++ [(updateeOf K (s0.tso t).stack frame, s0.hp)]) := by
  refine ⟨raiseAsync_eq_loop K fuel s cap tso t exception saa stop_here hrel, ?_, ?_, ?_⟩
  · intro p hp; rw [hp]; rfl
  · intro hp; rw [hp]; rfl
  · intro n s0 sp frame hin hty
    have hnone : stop_here = none → stopUpdatee K (s.tso t).stack stop_here = NULL := by
      intro hp; rw [hp]; rfl
    generalize stopUpdatee K (s.tso t).stack stop_here = U at hnone ⊢
    have hstk : ((freezeUpdateFrame K cap t U s0 sp frame).1.tso t).stack
        (freezeUpdateFrame K cap t U s0 sp frame).2 = frozenWord K t U s0 frame := by
      rw [freezeUpdateFrame_tso]
      simp [upd_apply]
    have hneq : updateeOf K (s0.tso t).stack frame ≠ U →
        updatesOf (freezeUpdateFrame K cap t U s0 sp frame).1.trace
          = updatesOf s0.trace ++ [(updateeOf K (s0.tso t).stack frame, s0.hp)] := by
      intro h
      rw [(freezeUpdateFrame_heap K cap t U s0 sp frame h).1, updatesOf_append]
      simp [updatesOf]
    refine ⟨raiseAsyncLoop_update_step K cap t exception saa stop_here U n s0 sp frame hin hty,
      ?_, ?_, ?_, ?_, ?_⟩
    · by_cases h : updateeOf K (s0.tso t).stack frame = U
      · rw [freezeUpdateFrame_kept K cap t U s0 sp frame h, allocsOf_append]
        simp [allocsOf]
      · rw [(freezeUpdateFrame_heap K cap t U s0 sp frame h).1, allocsOf_append]
        simp [allocsOf]
    · rw [freezeUpdateFrame_ap]
    · intro h
      refine ⟨?_, ?_⟩
      · rw [freezeUpdateFrame_kept K cap t U s0 sp frame h, updatesOf_append]
        simp [updatesOf]
      · rw [hstk, frozenWord, if_pos h, h]
    · intro h
      refine ⟨hneq h, ?_⟩
      rw [hstk, frozenWord, if_neg h]
    · intro hp h
      apply hneq
      rw [hnone hp]
      exact h

/-- Frames that are not update frames leave the local `sp`, the stack and
the heap as they are. -/
theorem walk_no_update (K : Rts) (cap t updatee : Addr) (l : List (Int × FrameType))
    (st : Machine × Int) (hl : ∀ x ∈ l, x.2 ≠ FrameType.UPDATE_FRAME) :
    (walk K cap t updatee l st).2 = st.2
      ∧ ((walk K cap t updatee l st).1.tso t).stack = (st.1.tso t).stack
      ∧ (walk K cap t updatee l st).1.hp = st.1.hp
      ∧ (walk K cap t updatee l st).1.ap_stack = st.1.ap_stack := by
  induction l generalizing st with
  | nil => exact ⟨rfl, rfl, rfl, rfl⟩
  | cons x l ih =>
    have hx := hl x (List.mem_cons_self _ _)
    obtain ⟨i1, i2, i3, i4⟩ := ih (passFrame K cap t updatee st x.1 x.2)
      (fun y hy => hl y (List.mem_cons_of_mem _ hy))
    simp only [walk]
    rw [i1, i2, i3, i4]
    generalize x.2 = ty at hx
    cases ty <;> first
      | exact absurd rfl hx
      | simp [passFrame, abortTransaction, Machine.emit, Machine.setTSO, upd_apply]

/-- The words of a stack from `sp` up to, and not including, `frame`. -/
theorem slice_eq (stk : Int → Word) (sp : Int) (n : Nat) :
    stk sp :: (List.range n).map (fun (i : Nat) => stk (sp + 1 + (i : Int)))
      = (List.range (n + 1)).map (fun (i : Nat) => stk (sp + (i : Int))) := by
  rw [List.range_succ_eq_map, List.map_cons, List.map_map]
  congr 1
  · simp
  · apply List.map_congr_left
    intro i _
    simp only [Function.comp_apply, Nat.cast_succ]
    congr 1
    omega

/-- C25 (as the code has it): at an update frame the walk builds an
`AP_STACK` at the heap pointer that captures the stack above the frame: its
`fun` is the word on top of the stack, its `size` the number of words
between the top and the frame, its `payload` those words in stack order, so
that `fun` followed by `payload` is the stack from `sp` up to the frame.
Afterwards `sp` is the last word of the former update frame, and that word
holds the `AP_STACK`, unless the updatee of the frame is the updatee of
`stop_here`, when it holds that updatee; every other word of the stack (so
every frame below) is as before, and the `AP_STACK` built at the next update
frame, whatever other frames are passed before it, has that word as its
`fun`. -/
theorem raiseAsync_ap_stack_slice (K : Rts) (cap t exception : Addr) (saa : Bool)
    (stop_here : Option Int) (updatee : Addr) (n : Nat) (s : Machine) (sp frame : Int)
    (hsp : sp < frame) (hin : inLoop stop_here frame = true)
    (hty : K.get_ret_itbl ((s.tso t).stack frame) = FrameType.UPDATE_FRAME) :
    raiseAsyncLoop K cap t exception saa stop_here updatee (n + 1) s sp frame
        = raiseAsyncLoop K cap t exception saa stop_here updatee n
            (freezeUpdateFrame K cap t updatee s sp frame).1
            (freezeUpdateFrame K cap t updatee s sp frame).2
            ((freezeUpdateFrame K cap t updatee s sp frame).2 + 1)
    ∧ ((freezeUpdateFrame K cap t updatee s sp frame).1.ap_stack s.hp).header
        = Info.stg_AP_STACK_info
    ∧ ((freezeUpdateFrame K cap t updatee s sp frame).1.ap_stack s.hp).fun_
        = (s.tso t).stack sp
    ∧ (((freezeUpdateFrame K cap t updatee s sp frame).1.ap_stack s.hp).size : Int)
        = frame - sp - 1
    ∧ ((freezeUpdateFrame K cap t updatee s sp frame).1.ap_stack s.hp).payload.length
        = ((freezeUpdateFrame K cap t updatee s sp frame).1.ap_stack s.hp).size
    ∧ ((freezeUpdateFrame K cap t updatee s sp frame).1.ap_stack s.hp).fun_
          :: ((freezeUpdateFrame K cap t updatee s sp frame).1.ap_stack s.hp).payload
        = (List.range (frame - sp).toNat).map (fun (i : Nat) => (s.tso t).stack (sp + (i : Int)))
    ∧ (freezeUpdateFrame K cap t updatee s sp frame).2
        = frame + (K.sizeofW_StgUpdateFrame : Int) - 1
    ∧ (updateeOf K (s.tso t).stack frame ≠ updatee →
        ((freezeUpdateFrame K cap t updatee s sp frame).1.tso t).stack
          (freezeUpdateFrame K cap t updatee s sp frame).2 = s.hp)
    ∧ (updateeOf K (s.tso t).stack frame = updatee →
        ((freezeUpdateFrame K cap t updatee s sp frame).1.tso t).stack
          (freezeUpdateFrame K cap t updatee s sp frame).2 = updatee)
    ∧ (∀ i, i ≠ (freezeUpdateFrame K cap t updatee s sp frame).2 →
        ((freezeUpdateFrame K cap t updatee s sp frame).1.tso t).stack i = (s.tso t).stack i)
    ∧ (∀ (l : List (Int × FrameType)) (p : Int),
        (∀ x ∈ l, x.2 ≠ FrameType.UPDATE_FRAME) →
        ((freezeUpdateFrame K cap t updatee
            (walk K cap t updatee l (freezeUpdateFrame K cap t updatee s sp frame)).1
            (walk K cap t updatee l (freezeUpdateFrame K cap t updatee s sp frame)).2
            p).1.ap_stack
          (walk K cap t updatee l (freezeUpdateFrame K cap t updatee s sp frame)).1.hp).fun_
          = ((freezeUpdateFrame K cap t updatee s sp frame).1.tso t).stack
              (freezeUpdateFrame K cap t updatee s sp frame).2) := by
  have hw : ((frame - sp - 1).toNat : Int) = frame - sp - 1 := Int.toNat_of_nonneg (by omega)
  have hstk : ((freezeUpdateFrame K cap t updatee s sp frame).1.tso t).stack
      (freezeUpdateFrame K cap t updatee s sp frame).2 = frozenWord K t updatee s frame := by
    rw [freezeUpdateFrame_tso]
    simp [upd_apply]
  refine ⟨raiseAsyncLoop_update_step K cap t exception saa stop_here updatee n s sp frame hin hty,
    ?_, ?_, ?_, ?_, ?_, ?_, ?_, ?_, ?_, ?_⟩
  · rw [freezeUpdateFrame_ap]
  · rw [freezeUpdateFrame_ap]
  · rw [freezeUpdateFrame_ap]
    exact hw
  · rw [freezeUpdateFrame_ap]
    simp
  · rw [freezeUpdateFrame_ap]
    have : (frame - sp).toNat = (frame - sp - 1).toNat + 1 := by omega
    rw [this]
    exact slice_eq _ _ _
  · rw [freezeUpdateFrame_snd K cap t updatee s sp frame hsp]
    simp only [Rts.sizeofW_StgUpdateFrame]
    push_cast
    omega
  · intro h
    rw [hstk, frozenWord, if_neg h]
  · intro h
    rw [hstk, frozenWord, if_pos h]
  · intro i hi
    rw [freezeUpdateFrame_tso]
    simp [upd_apply, hi]
  · intro l p hl
    obtain ⟨w1, w2, _, _⟩ := walk_no_update K cap t updatee l
      (freezeUpdateFrame K cap t updatee s sp frame) hl
    rw [freezeUpdateFrame_ap, w1, w2]

/-- The function `raiseAsync` on a thread whose stack starts with a chain of passed
frames ending at a frame that is not above `stop_here`: the walk is all it
does. -/
theorem raiseAsync_exit_eq (K : Rts) (fuel : Nat) (s : Machine)
    (cap tso t exception : Addr) (saa : Bool) (stop_here : Option Int)
    (l : List (Int × FrameType)) (e : Int)
    (hrel : followRelocated fuel s tso = some t)
    (hc : Chain K (s.tso t).stack (firstFrame K (s.tso t)) l e)
    (hp : ∀ x ∈ l, Passes exception saa stop_here x)
    (hin : inLoop stop_here e = false)
    (hfuel : l.length < fuel) :
    raiseAsync K fuel s cap tso exception saa stop_here
        = Res.ok () (walk K cap t (stopUpdatee K (s.tso t).stack stop_here) l
              (raiseStart K cap tso t s)).1
      ∧ SameBelow t e s (walk K cap t (stopUpdatee K (s.tso t).stack stop_here) l
          (raiseStart K cap tso t s)).1 := by
  obtain ⟨k, rfl⟩ : ∃ k, fuel = (k + 1) + l.length := ⟨fuel - l.length - 1, by omega⟩
  obtain ⟨h1, h2⟩ :=
    raiseAsync_walk K (k + 1) s cap tso t exception saa stop_here l e hrel hc hp
  refine ⟨?_, h2⟩
  rw [h1]
  simp [raiseAsyncLoop, hin]

/-- A list either is all of frames that are passed or has a first frame that
is not. -/
theorem exists_first_stop (P : Int × FrameType → Prop) (l : List (Int × FrameType)) :
    (∀ x ∈ l, P x) ∨ ∃ l1 x l2, l = l1 ++ x :: l2 ∧ (∀ y ∈ l1, P y) ∧ ¬ P x := by
  induction l with
  | nil => exact Or.inl (fun _ h => by cases h)
  | cons y l ih =>
    by_cases hy : P y
    · rcases ih with h | ⟨l1, x, l2, e1, e2, e3⟩
      · left
        intro x hx
        rcases List.mem_cons.mp hx with rfl | h1
        · exact hy
        · exact h x h1
      · right
        refine ⟨y :: l1, x, l2, by rw [e1]; rfl, ?_, e3⟩
        intro z hz
        rcases List.mem_cons.mp hz with rfl | h1
        · exact hy
        · exact e2 z h1
    · exact Or.inr ⟨[], y, l, rfl, (fun _ h => by cases h), hy⟩

/-- A frame of positive size ends below where it starts. -/
theorem frameAfter_gt (K : Rts) (stk : Int → Word) (f : Int) (ty : FrameType)
    (h : 0 < K.stack_frame_sizeW (fun (i : Nat) => stk (f + (i : Int)))) :
    f < frameAfter K stk f ty := by
  unfold frameAfter nextFrame
  split
  · simp only [Rts.sizeofW_StgUpdateFrame]; push_cast; omega
  · omega

/-- C26: on a thread whose stack is a chain of frames `l` of positive size
ending in a `STOP_FRAME` at `e`, `raiseAsync` returns, whatever the
exception, `stop_at_atomically` and `stop_here` are: every frame ends below
where it starts (so the position of the walk increases at every turn, also
at an update frame), and the walk passes a first part `l1` of the frames and
ends at the position `c` after them in exactly one of three ways: `c` is
above `stop_here` and is the stop frame, and the thread is `ThreadKilled`;
`c` is above `stop_here` and is a catch frame, with an exception to raise,
or an atomically frame, with `stop_at_atomically`, and the thread is
`ThreadRunGHC`; or `c` is not above `stop_here`, which is then not `NULL`,
and the thread has the `what_next` it had. -/
theorem raiseAsync_terminates (K : Rts) (fuel : Nat) (s : Machine)
    (cap tso t exception : Addr) (saa : Bool) (stop_here : Option Int)
    (l : List (Int × FrameType)) (e : Int)
    (hrel : followRelocated fuel s tso = some t)
    (hc : Chain K (s.tso t).stack (firstFrame K (s.tso t)) l e)
    (hstop : K.get_ret_itbl ((s.tso t).stack e) = FrameType.STOP_FRAME)
    (hpos : ∀ x ∈ l,
      0 < K.stack_frame_sizeW (fun (i : Nat) => (s.tso t).stack (x.1 + (i : Int))))
    (hfuel : l.length < fuel) :
    (∀ x ∈ l, x.1 < frameAfter K (s.tso t).stack x.1 x.2)
    ∧ ∃ s1 l1 c, raiseAsync K fuel s cap tso exception saa stop_here = Res.ok () s1
        ∧ l1 <+: l
        ∧ Chain K (s.tso t).stack (firstFrame K (s.tso t)) l1 c
        ∧ (∀ x ∈ l1, Passes exception saa stop_here x)
        ∧ ((inLoop stop_here c = true
              ∧ K.get_ret_itbl ((s.tso t).stack c) = FrameType.STOP_FRAME
              ∧ (s1.tso t).what_next = WhatNext.ThreadKilled)
          ∨ (inLoop stop_here c = true
              ∧ ((K.get_ret_itbl ((s.tso t).stack c) = FrameType.CATCH_FRAME
                    ∧ exception ≠ NULL)
                ∨ (K.get_ret_itbl ((s.tso t).stack c) = FrameType.ATOMICALLY_FRAME
                    ∧ saa = true))
              ∧ (s1.tso t).what_next = WhatNext.ThreadRunGHC)
          ∨ (inLoop stop_here c = false
              ∧ (∃ p, stop_here = some p ∧ p ≤ c)
              ∧ (s1.tso t).what_next = (s.tso t).what_next)) := by
  refine ⟨fun x hx => frameAfter_gt K _ _ _ (hpos x hx), ?_⟩
  have hexit : ∀ (l1 : List (Int × FrameType)) (c : Int), l1 <+: l →
      Chain K (s.tso t).stack (firstFrame K (s.tso t)) l1 c →
      (∀ x ∈ l1, Passes exception saa stop_here x) → l1.length < fuel →
      inLoop stop_here c = false →
      ∃ s1 l1 c, raiseAsync K fuel s cap tso exception saa stop_here = Res.ok () s1
        ∧ l1 <+: l
        ∧ Chain K (s.tso t).stack (firstFrame K (s.tso t)) l1 c
        ∧ (∀ x ∈ l1, Passes exception saa stop_here x)
        ∧ ((inLoop stop_here c = true
              ∧ K.get_ret_itbl ((s.tso t).stack c) = FrameType.STOP_FRAME
              ∧ (s1.tso t).what_next = WhatNext.ThreadKilled)
          ∨ (inLoop stop_here c = true
              ∧ ((K.get_ret_itbl ((s.tso t).stack c) = FrameType.CATCH_FRAME
                    ∧ exception ≠ NULL)
                ∨ (K.get_ret_itbl ((s.tso t).stack c) = FrameType.ATOMICALLY_FRAME
                    ∧ saa = true))
              ∧ (s1.tso t).what_next = WhatNext.ThreadRunGHC)
          ∨ (inLoop stop_here c = false
              ∧ (∃ p, stop_here = some p ∧ p ≤ c)
              ∧ (s1.tso t).what_next = (s.tso t).what_next)) := by
    intro l1 c hpre hc1 hp1 hf1 hin
    obtain ⟨heq, hsame⟩ :=
      raiseAsync_exit_eq K fuel s cap tso t exception saa stop_here l1 c hrel hc1 hp1 hin hf1
    refine ⟨_, l1, c, heq, hpre, hc1, hp1, Or.inr (Or.inr ⟨hin, ?_, hsame.what_next⟩)⟩
    cases stop_here with
    | none => simp [inLoop] at hin
    | some p =>
      refine ⟨p, rfl, ?_⟩
      simpa [inLoop] using hin
  rcases exists_first_stop (Passes exception saa stop_here) l with
    hall | ⟨l1, x, l2, hl, hp1, hx⟩
  · by_cases hin : inLoop stop_here e = true
    · obtain ⟨heq, _⟩ :=
        raiseAsync_stop_eq K fuel s cap tso t exception saa stop_here l e hrel hc hall hstop hin
          hfuel
      refine ⟨_, l, e, heq, List.prefix_refl l, hc, hall, Or.inl ⟨hin, hstop, ?_⟩⟩
      simp only [killThread, setTSO_tso, upd_apply, if_true]
    · exact hexit l e (List.prefix_refl l) hc hall hfuel (by simpa using hin)
  · subst hl
    obtain ⟨m, hc1, hc2⟩ := hc.append
    simp only [Chain] at hc2
    obtain ⟨hxm, hty, _, _⟩ := hc2
    have hf1 : l1.length < fuel := by
      simp only [List.length_append, List.length_cons] at hfuel
      omega
    have hpre : l1 <+: l1 ++ x :: l2 := List.prefix_append l1 _
    by_cases hin : inLoop stop_here m = true
    · have hcases : (x.2 = FrameType.CATCH_FRAME ∧ exception ≠ NULL)
          ∨ (x.2 = FrameType.ATOMICALLY_FRAME ∧ saa = true) := by
        by_contra hcon
        apply hx
        refine ⟨by rw [hxm]; exact hin, ?_, ?_⟩
        · intro h1
          by_contra h2
          exact hcon (Or.inl ⟨h1, h2⟩)
        · intro h1
          cases saa with
          | false => rfl
          | true => exact absurd (Or.inr ⟨h1, rfl⟩) hcon
      rcases hcases with ⟨h1, h2⟩ | ⟨h1, h2⟩
      · obtain ⟨heq, _⟩ :=
          raiseAsync_catch_eq K fuel s cap tso t exception saa stop_here l1 m hrel h2 hc1 hp1
            (hty.trans h1) hin hf1
        refine ⟨_, l1, m, heq, hpre, hc1, hp1,
          Or.inr (Or.inl ⟨hin, Or.inl ⟨hty.trans h1, h2⟩, ?_⟩)⟩
        simp only [raiseAtCatchFrame, allocate, setTSO_tso, upd_apply, if_true]
      · subst h2
        obtain ⟨heq, _⟩ :=
          raiseAsync_atomically_eq K fuel s cap tso t exception stop_here l1 m hrel hc1 hp1
            (hty.trans h1) hin hf1
        refine ⟨_, l1, m, heq, hpre, hc1, hp1,
          Or.inr (Or.inl ⟨hin, Or.inr ⟨hty.trans h1, rfl⟩, ?_⟩)⟩
        simp only [stopAtAtomically, setTSO_tso, emit_tso, upd_apply, if_true]
    · exact hexit l1 m hpre hc1 hp1 hf1 (by simpa using hin)

theorem OneAction.send (K : Rts) (cap msg t : Addr) (s s0 : Machine)
    (hd : ¬ ((s.tso t).what_next = WhatNext.ThreadComplete
      ∨ (s.tso t).what_next = WhatNext.ThreadKilled))
    (ht : s0.tso = s.tso) (ha : actions s0.trace = actions s.trace) :
    OneAction K cap msg t s ThrowToResult.THROWTO_BLOCKED
      (throwToSendMsg K s0 cap (s.tso t).cap msg) := by
  refine Or.inr (Or.inr (Or.inl ⟨rfl, hd, ?_, ?_⟩))
  · rw [← ha]
    unfold throwToSendMsg sendActions
    split <;> simp [actionOf]
  · rw [throwToSendMsg_tso, ht]

theorem OneAction.push (K : Rts) (cap msg t : Addr) (s s0 : Machine)
    (hd : ¬ ((s.tso t).what_next = WhatNext.ThreadComplete
      ∨ (s.tso t).what_next = WhatNext.ThreadKilled))
    (ht : s0.tso = s.tso) (ha : actions s0.trace = actions s.trace) :
    OneAction K cap msg t s ThrowToResult.THROWTO_BLOCKED (blockedThrowTo s0 cap t msg) := by
  refine Or.inr (Or.inr (Or.inr ⟨rfl, hd, ?_, ?_, ?_, ?_⟩))
  · rw [← ha, ← ht]
    simp [blockedThrowTo, actionOf]
  · rw [← ht]
    simp [blockedThrowTo, upd_apply]
  · intro a h
    rw [← ht]
    simp [blockedThrowTo, upd_apply, h]
  · rw [← ht]
    simp [blockedThrowTo, upd_apply]

theorem OneAction.sendOrBlock (K : Rts) (cap msg t : Addr) (s s0 : Machine)
    (hd : ¬ ((s.tso t).what_next = WhatNext.ThreadComplete
      ∨ (s.tso t).what_next = WhatNext.ThreadKilled))
    (ht : s0.tso = s.tso) (ha : actions s0.trace = actions s.trace) :
    OneAction K cap msg t s ThrowToResult.THROWTO_BLOCKED
      (if (s0.tso t).cap ≠ cap then throwToSendMsg K s0 cap (s0.tso t).cap msg
        else blockedThrowTo s0 cap t msg) := by
  split
  · rw [ht]
    exact OneAction.send K cap msg t s s0 hd ht ha
  · exact OneAction.push K cap msg t s s0 hd ht ha

/-- C9, where the code departs from it: in the sample machine the record `7`
is `ThreadRelocated` and linked to the live thread `8`.  The kill through the
record `7` returns with the thread `8` `ThreadKilled`, one `raiseAsync`
entered, and the record `7` as it was.  A second kill through the record `7`
is not the no-op: the test for a dead thread looks at the record, which is
not dead, so `raiseAsync` is entered again, on the dead thread `8`, and
whatever the fuel the second kill does not leave the actions the first kill
left (with fuel `4` and `40` it does not return).  The sibling `throwToMsg`,
which follows the link before its test, returns `THROWTO_SUCCESS` for a
message to the record `7` and adds no action. -/
theorem kill_twice_relocated :
    ((Example.relocatedMachine.tso 7).what_next = WhatNext.ThreadRelocated
      ∧ followRelocated 2 Example.relocatedMachine 7 = some 8
      ∧ (Example.relocatedMachine.tso 8).what_next = WhatNext.ThreadRunGHC)
    ∧ Example.killedOnce.get?
        (fun s => ((s.tso 7).what_next, (s.tso 8).what_next, actions s.trace))
      = some (WhatNext.ThreadRelocated, WhatNext.ThreadKilled, [Action.raise 7])
    ∧ (∀ n, (Example.killedOnce.bind
          fun _ s1 => throwToSingleThreaded Example.rts n s1 0 7 NULL).get?
          (fun s => actions s.trace)
        ≠ Example.killedOnce.get? (fun s => actions s.trace))
    ∧ (Example.killedOnce.bind
        fun _ s1 => throwToSingleThreaded Example.rts 4 s1 0 7 NULL) = Res.spin
    ∧ (Example.killedOnce.bind
        fun _ s1 => throwToSingleThreaded Example.rts 40 s1 0 7 NULL) = Res.spin
    ∧ (Example.killedOnce.bind fun _ s1 => throwToMsg Example.rts 4 s1 0 5).value?
        = some ThrowToResult.THROWTO_SUCCESS
    ∧ (Example.killedOnce.bind fun _ s1 => throwToMsg Example.rts 4 s1 0 5).get?
        (fun s => actions s.trace) = some [Action.raise 7] := by
  refine ⟨⟨rfl, rfl, rfl⟩, rfl, ?_, rfl, rfl, rfl, rfl⟩
  intro n
  have h7 : Example.killedOnce.get? (fun s => (s.tso 7).what_next)
      = some WhatNext.ThreadRelocated := rfl
  cases h1 : Example.killedOnce with
  | barf => rw [h1] at h7; cases h7
  | spin => rw [h1] at h7; cases h7
  | ok u s1 =>
    rw [h1] at h7
    simp only [Res.get?, Option.some.injEq] at h7
    simp only [Res.bind]
    cases h2 : throwToSingleThreaded Example.rts n s1 0 7 NULL with
    | barf => simp [Res.get?]
    | spin => simp [Res.get?]
    | ok u2 s2 =>
      rcases throwToSingleThreaded_actions _ _ _ _ _ _ _ _ h2 with ⟨hd, _⟩ | ⟨_, ha⟩
      · rw [h7] at hd
        rcases hd with hd | hd <;> cases hd
      · simp only [Res.get?, ha, ne_eq, Option.some.injEq]
        intro h
        have := congrArg List.length h
        simp at this

/-! ## Instances of the decisions on the sample states -/

/-- The dead-target decision on the sample machine with the killed thread. -/
theorem throwToMsg_dead_target_witness :
    followRelocated 1 (Example.machine Example.deadThread) 7 = some 7
    ∧ throwToMsg Example.rts 1 (Example.machine Example.deadThread) 0 5
        = Res.ok ThrowToResult.THROWTO_SUCCESS
            ((Example.machine Example.deadThread).emit
              (Event.debugTrace (DebugMsg.throwTo_from_to 7 7))) :=
  ⟨rfl, (throwToMsg_dead_target Example.rts 1 (Example.machine Example.deadThread) 0 7 7 rfl
    (Or.inr rfl)).1 5 rfl⟩

/-- The queueing decision on the sample machine with the masking thread. -/
theorem throwToMsg_not_blocked_witness :
    throwToMsg Example.rts 1 (Example.machine Example.maskedThread) 0 5
      = Res.ok ThrowToResult.THROWTO_BLOCKED
          (blockedThrowTo ((Example.machine Example.maskedThread).emit
            (Event.debugTrace (DebugMsg.throwTo_from_to 7 7))) 0 7 5) :=
  ((throwToMsg_not_blocked Example.rts 0 (Example.machine Example.maskedThread) 0 5 7 rfl
    ⟨by decide, by decide⟩ (Or.inl rfl)).2.2 rfl (by decide)).1

/-- C3 fails as stated: on the sample machine with the killed thread and
the message at `5` locked, `throwToMsg` returns `THROWTO_SUCCESS` and the
message is still locked, not revoked; and the same holds when the target is
the runnable, unmasked sample thread, in which the exception is raised. -/
theorem throwToMsg_success_revoked_counterexample :
    throwToMsg Example.rts 1 (Example.lockedMachine Example.deadThread) 0 5
      = Res.ok ThrowToResult.THROWTO_SUCCESS
          ((Example.lockedMachine Example.deadThread).emit
            (Event.debugTrace (DebugMsg.throwTo_from_to 7 7)))
    ∧ ((Example.lockedMachine Example.deadThread).emit
        (Event.debugTrace (DebugMsg.throwTo_from_to 7 7))).info 5 = Info.stg_WHITEHOLE_info
    ∧ Info.stg_WHITEHOLE_info ≠ Info.stg_IND_info
    ∧ (throwToMsg Example.rts 3 (Example.lockedMachine Example.thread) 0 5).value?
        = some ThrowToResult.THROWTO_SUCCESS
    ∧ (throwToMsg Example.rts 3 (Example.lockedMachine Example.thread) 0 5).get?
        (fun s => s.info 5) = some Info.stg_WHITEHOLE_info
    ∧ (throwToMsg Example.rts 3 (Example.lockedMachine Example.thread) 0 5).get?
        (fun s => (s.tso 7).what_next) = some WhatNext.ThreadKilled := by
  refine ⟨rfl, rfl, by decide, ?_, ?_, ?_⟩ <;> rfl

/-- An instance of C3, as the code has it, on the sample machine with the
killed thread. -/
theorem throwToMsg_success_keeps_locked_witness :
    (Example.lockedMachine Example.deadThread).info 5 = Info.stg_WHITEHOLE_info
    ∧ ((Example.lockedMachine Example.deadThread).emit
        (Event.debugTrace (DebugMsg.throwTo_from_to 7 7))).info 5 = Info.stg_WHITEHOLE_info :=
  ⟨rfl, (throwToMsg_success_keeps_locked Example.rts 1
    (Example.lockedMachine Example.deadThread) 0 5 _ rfl rfl).1⟩

/-- C4 on the sample machine with the masking thread: `throwTo` returns the
message it built at address `1000`, still locked. -/
theorem throwTo_message_locked_witness :
    throwTo Example.rts 1 (Example.machine Example.maskedThread) 0 3 7 9
      = Res.ok 1000 (blockedThrowTo
          ((newMessage Example.rts (Example.machine Example.maskedThread) 0 3 7 9).2.emit
            (Event.debugTrace (DebugMsg.throwTo_from_to 7 7))) 0 7 1000)
    ∧ LockedWith 1000 3 7 9 (blockedThrowTo
          ((newMessage Example.rts (Example.machine Example.maskedThread) 0 3 7 9).2.emit
            (Event.debugTrace (DebugMsg.throwTo_from_to 7 7))) 0 7 1000) :=
  ⟨rfl, ((throwTo_message_locked Example.rts 1 (Example.machine Example.maskedThread)
    0 3 7 9).2.2 1000 _ rfl (by decide)).2⟩

theorem Example.catchFrames_chain :
    Chain Example.rts Example.catchThread.stack (firstFrame Example.rts Example.catchThread)
      Example.catchFrames 14 :=
  ⟨rfl, rfl, by decide, rfl, rfl, by decide, rfl⟩

theorem Example.catchFrames_pass (saa : Bool) :
    ∀ x ∈ Example.catchFrames, Passes 9 saa none x := by
  intro x hx
  simp only [Example.catchFrames, List.mem_cons, List.mem_singleton, List.not_mem_nil,
    or_false] at hx
  rcases hx with rfl | rfl
  · exact ⟨rfl, (fun h => by cases h), (fun h => by cases h)⟩
  · exact ⟨rfl, (fun h => by cases h), (fun h => by cases h)⟩

/-- C6 on the sample thread with a catch frame: exception `9` is raised in
thread `7`, which is left at `sp = 12` with `stg_enter_info` on top. -/
theorem raiseAsync_stops_at_catch_frame_witness :
    (raiseAsync Example.rts 3 (Example.machine Example.catchThread) 0 7 9 false none).get?
        (fun s => ((s.tso 7).sp, (s.tso 7).stack (14 - 2), (s.tso 7).what_next))
      = some (14 - 2, 100, WhatNext.ThreadRunGHC) := by
  obtain ⟨s1, h1, _, _, h3, h4, _, _, _, _, _, h5, _⟩ :=
    raiseAsync_stops_at_catch_frame Example.rts 3 (Example.machine Example.catchThread) 0 7 7 9
      false none Example.catchFrames 14 rfl (by decide) Example.catchFrames_chain
      (Example.catchFrames_pass false) rfl rfl (by decide)
  rw [h1]
  simp only [Res.get?]
  rw [h3, h4, h5]
  rfl

theorem Example.allFrames_chain :
    Chain Example.rts Example.catchThread.stack (firstFrame Example.rts Example.catchThread)
      Example.allFrames 17 :=
  ⟨rfl, rfl, by decide, rfl, rfl, by decide, rfl, rfl, by decide, rfl⟩

/-- C7 on the sample thread with a catch frame: with the `NULL` exception
the thread is killed, although its stack has a catch frame. -/
theorem raiseAsync_killed_iff_witness :
    (raiseAsync Example.rts 4 (Example.machine Example.catchThread) 0 7 NULL false none).get?
        (fun s => (s.tso 7).what_next)
      = some WhatNext.ThreadKilled := by
  obtain ⟨s1, h1, _, _, h4⟩ :=
    raiseAsync_killed_iff Example.rts 4 (Example.machine Example.catchThread) 0 7 7 NULL
      Example.allFrames 17 rfl Example.allFrames_chain rfl (by decide)
  rw [h1]
  simp only [Res.get?]
  rw [h4 rfl]

/-- Kills of the sample threads: a kill of the killed thread changes nothing;
a kill of the thread with a catch frame returns with the thread killed, and
a second kill from the state it leaves changes nothing. -/
theorem kill_idempotent_witness :
    throwToSingleThreaded Example.rts 4 (Example.machine Example.deadThread) 0 7 NULL
      = Res.ok () (Example.machine Example.deadThread)
    ∧ (throwToSingleThreaded Example.rts 4 (Example.machine Example.catchThread) 0 7 NULL).get?
        (fun s => (s.tso 7).what_next) = some WhatNext.ThreadKilled
    ∧ ((throwToSingleThreaded Example.rts 4 (Example.machine Example.catchThread) 0 7 NULL
          = Res.barf)
      ∨ ∃ s1, throwToSingleThreaded Example.rts 4 (Example.machine Example.catchThread) 0 7 NULL
            = Res.ok () s1
          ∧ throwToSingleThreaded Example.rts 4 s1 0 7 NULL = Res.ok () s1) := by
  refine ⟨((kill_idempotent Example.rts 4 (Example.machine Example.deadThread) 0 7).1
    (Or.inr rfl)).2.1, rfl, ?_⟩
  rcases (kill_idempotent Example.rts 4 (Example.machine Example.catchThread) 0 7).2
    Example.allFrames 17 (by decide) (by decide) (by decide) Example.allFrames_chain rfl
    (by decide) with h | ⟨s1, h1, _, h3⟩
  · exact Or.inl h.2
  · exact Or.inr ⟨s1, h1, h3⟩

/-- C10 fails as stated: with the message `5` (exception `91`) filed first
and the message `6` (exception `92`) filed second on the masking sample
thread, which then unmasks, the first `maybePerformBlockedException` raises
`92`, the exception of the newer message: the thunk left on the catch frame
holds `92`, message `6` is revoked, and message `5` is left, live, at the
head of the queue. -/
theorem blocked_exceptions_arrival_order_counterexample :
    (Example.filedThenUnmasked.tso 7).blocked_exceptions = 6
    ∧ (Example.filedThenUnmasked.msg 6).link = 5
    ∧ (Example.filedThenUnmasked.msg 5).exception = 91
    ∧ (Example.filedThenUnmasked.msg 6).exception = 92
    ∧ (maybePerformBlockedException Example.rts 5 Example.filedThenUnmasked 0 7).value? = some 1
    ∧ (maybePerformBlockedException Example.rts 5 Example.filedThenUnmasked 0 7).get?
        (fun s => ((s.tso 7).stack 12, (s.thunk ((s.tso 7).stack 13)).payload0))
        = some (100, 92)
    ∧ (maybePerformBlockedException Example.rts 5 Example.filedThenUnmasked 0 7).get?
        (fun s => ((s.tso 7).blocked_exceptions, s.info 6, s.info 5))
        = some (5, Info.stg_IND_info, Info.stg_MSG_THROWTO_info) := by
  refine ⟨rfl, rfl, rfl, rfl, ?_, ?_, ?_⟩ <;> rfl

/-- An instance of C10, as the code has it, on the sample queue: the message
`6`, filed second, is
the one delivered, and the message `5` is left at the head. -/
theorem blocked_exceptions_newest_first_witness :
    maybePerformBlockedException Example.rts (4 + 1) Example.filedThenUnmasked 0 7
      = deliverHead Example.rts 4 Example.filedThenUnmasked 0 7 6
    ∧ ((dequeued Example.filedThenUnmasked 7 6).tso 7).blocked_exceptions = 5 :=
  let h := (blocked_exceptions_newest_first Example.rts 4 Example.queueMachine 0 7 5 6
    (by decide)).2.2.2.2.2 6 5 Example.filedThenUnmasked (Or.inl ⟨rfl, rfl⟩) rfl rfl
    (by decide) (by decide) rfl (by decide) (by decide) (by decide)
  ⟨h.1, h.2.1⟩

/-- C8 on the sample thread with a catch frame, which has one update frame,
for the cell `500`: one `AP_STACK` is allocated, at `1000`, the cell is
updated with it, and the raise thunk is allocated after it. -/
theorem raiseAsync_update_frames_witness :
    (raiseAsync Example.rts 3 (Example.machine Example.catchThread) 0 7 9 false none).get?
        (fun s => (allocsOf s.trace, updatesOf s.trace, (s.ap_stack 1000).header))
      = some ([1000, 1005], [(500, 1000)], Info.stg_AP_STACK_info)
    ∧ (updateFrames Example.catchFrames).length = 1
    ∧ ∃ s1 aps, raiseAsync Example.rts 3 (Example.machine Example.catchThread) 0 7 9 false none
          = Res.ok () s1
        ∧ aps.length = (updateFrames Example.catchFrames).length
        ∧ updatesOf s1.trace
            = updatesOf (Example.machine Example.catchThread).trace
              ++ (cellsOf Example.rts (Example.catchThread).stack Example.catchFrames).zip aps := by
  refine ⟨rfl, rfl, ?_⟩
  obtain ⟨s1, aps, h1, h2, _, _, _, h6, _⟩ :=
    raiseAsync_update_frames Example.rts 3 (Example.machine Example.catchThread) 0 7 7 9
      false Example.catchFrames 14 rfl (by decide) Example.catchFrames_chain
      (Example.catchFrames_pass false)
      (by
        intro x hx h2
        simp only [Example.catchFrames, List.mem_cons, List.mem_singleton, List.not_mem_nil,
          or_false] at hx
        rcases hx with rfl | rfl
        · cases h2
        · decide)
      rfl (by decide)
  exact ⟨s1, aps, h1, h2, h6⟩

theorem Example.wakeMachine_queue (t : StgTSO) :
    QueueFrom Example.rts (Example.wakeMachine t)
      ((Example.wakeMachine t).tso 7).blocked_exceptions [5, 6] :=
  ⟨rfl, by decide, rfl, by decide, rfl⟩

theorem Example.wakeMachine_unlocked (t : StgTSO) :
    ∀ m ∈ [5, 6], (Example.wakeMachine t).info m ≠ Info.stg_WHITEHOLE_info := by
  intro m hm
  simp only [List.mem_cons, List.mem_singleton, List.not_mem_nil, or_false] at hm
  rcases hm with rfl | rfl
  · intro h; cases h
  · intro h; cases h

/-- C12 on the sample queue of the runnable thread: the source `3` of the
live message is woken, the source `4` of the revoked one is not, the queue
is emptied and the headers are as before. -/
theorem awakenBlockedExceptionQueue_wakes_all_witness :
    (awakenBlockedExceptionQueue Example.rts 3 (Example.wakeMachine Example.thread) 0 7).get?
        (fun s => (s.trace, (s.tso 7).blocked_exceptions, s.info 5, s.info 6,
          (s.tso 7).what_next))
      = some ([Event.unblockOne_ 0 3 false], 1, Info.stg_MSG_THROWTO_info, Info.stg_IND_info,
          WhatNext.ThreadRunGHC) := by
  obtain ⟨s1, h1, h2, _, h4, _, h6, _⟩ :=
    awakenBlockedExceptionQueue_wakes_all Example.rts 3 (Example.wakeMachine Example.thread) 0 7
      [5, 6] (Example.wakeMachine_queue _) (Example.wakeMachine_unlocked _) (by decide)
  rw [h1]
  simp only [Res.get?]
  rw [h2, h4, h6]
  rfl

/-- C13 fails as stated: on the complete sample thread with an empty queue
`maybePerformBlockedException` returns `0`; with the sample queue it does not
wake the source `4` of the revoked message; and on the killed sample thread
(the constant `ThreadFinished` being `ThreadComplete`) it returns `1` having
woken the source of the first message alone, with the second message left
on the queue. -/
theorem maybePerformBlockedException_finished_counterexample :
    maybePerformBlockedException Example.rts 3 (Example.machine Example.completeThread) 0 7
      = Res.ok 0 (Example.machine Example.completeThread)
    ∧ (maybePerformBlockedException Example.rts 3
        (Example.wakeMachine Example.completeThread) 0 7).get? (fun s => s.trace)
        = some [Event.unblockOne_ 0 3 false]
    ∧ (maybePerformBlockedException Example.rts 3
        (Example.wakeMachine Example.deadThread) 0 7).get?
          (fun s => (s.trace, (s.tso 7).blocked_exceptions))
        = some ([Event.unblockOne_ 0 3 false], 6)
    ∧ (maybePerformBlockedException Example.rts 3
        (Example.wakeMachine Example.deadThread) 0 7).value? = some 1 := by
  refine ⟨rfl, ?_, ?_, ?_⟩ <;> rfl

/-- An instance of C13, as the code has it, on the complete sample thread
with the sample queue: the result is `1`, the source `3` is woken and the
queue is emptied. -/
theorem maybePerformBlockedException_finished_witness :
    (maybePerformBlockedException Example.rts 3
        (Example.wakeMachine Example.completeThread) 0 7).get?
        (fun s => (s.trace, (s.tso 7).blocked_exceptions))
      = some ([Event.unblockOne_ 0 3 false], 1)
    ∧ (maybePerformBlockedException Example.rts 3
        (Example.wakeMachine Example.completeThread) 0 7).value? = some 1 := by
  obtain ⟨s1, h1, h2, _, _, _, h6, _⟩ :=
    (maybePerformBlockedException_finished Example.rts 3
      (Example.wakeMachine Example.completeThread) 0 7 (Or.inl rfl)).2 [5, 6] (by decide)
      (Example.wakeMachine_queue _) (Example.wakeMachine_unlocked _) (by decide)
  rw [h1]
  simp only [Res.get?, Res.value?]
  rw [h2, h6]
  exact ⟨rfl, trivial⟩

/-- C11 does not hold of the code, whose comment says "Returns: non-zero if
an exception was raised, zero otherwise": on the complete sample thread with
the sample queue, and on the killed sample thread with the sample queue (the
constant `ThreadFinished` being `ThreadComplete`),
`maybePerformBlockedException` returns `1` although nothing was raised: the
trace holds the wake-up of the source of the first message alone. -/
theorem maybePerformBlockedException_nonzero_without_raise :
    (maybePerformBlockedException Example.rts 3
        (Example.wakeMachine Example.completeThread) 0 7).value? = some 1
    ∧ (maybePerformBlockedException Example.rts 3
        (Example.wakeMachine Example.completeThread) 0 7).get?
          (fun s => (actions s.trace, s.trace)) = some ([], [Event.unblockOne_ 0 3 false])
    ∧ (maybePerformBlockedException Example.rts 3
        (Example.wakeMachine Example.deadThread) 0 7).value? = some 1
    ∧ (maybePerformBlockedException Example.rts 3
        (Example.wakeMachine Example.deadThread) 0 7).get?
          (fun s => (actions s.trace, s.trace)) = some ([], [Event.unblockOne_ 0 3 false]) := by
  refine ⟨?_, ?_, ?_, ?_⟩ <;> rfl

/-- C15 fails as stated: with the target blocked on the held message `6`,
the caller with the lower message `5` does not spin (it sends its message and
returns `THROWTO_BLOCKED`); with the target blocked on the held message `5`,
the caller with the higher message `6` spins. -/
theorem throwToMsg_tie_break_counterexample :
    (throwToMsgCheck Example.rts 0 5 3
        ((Example.machine (Example.blockedThread WhyBlocked.BlockedOnMsgThrowTo 6 0)).setInfo 6
          Info.stg_WHITEHOLE_info) 7).get? (fun s => actions s.trace)
      = some [Action.send 0 5]
    ∧ (throwToMsgCheck Example.rts 0 5 3
        ((Example.machine (Example.blockedThread WhyBlocked.BlockedOnMsgThrowTo 6 0)).setInfo 6
          Info.stg_WHITEHOLE_info) 7).value? = some ThrowToResult.THROWTO_BLOCKED
    ∧ throwToMsgCheck Example.rts 0 6 3
        (Example.lockedMachine (Example.blockedThread WhyBlocked.BlockedOnMsgThrowTo 5 0)) 7
      = Res.spin := by
  refine ⟨?_, ?_, ?_⟩ <;> rfl

/-- An instance of C15, as the code has it: the caller with the message `6`
spins on the held message `5`. -/
theorem throwToMsg_tie_break_witness :
    throwToMsgCheck Example.rts 0 6 3
        (Example.lockedMachine (Example.blockedThread WhyBlocked.BlockedOnMsgThrowTo 5 0)) 7
      = Res.spin :=
  (throwToMsg_tie_break Example.rts 2
    (Example.lockedMachine (Example.blockedThread WhyBlocked.BlockedOnMsgThrowTo 5 0)) 0 6 7
    ⟨by decide, by decide⟩ rfl rfl).1 (by decide)

/-- C16 fails as stated: a target that is owned and masking exceptions,
interruptibly (flags `12`), and blocked on its own message `5` gets the
exception raised (the result is `THROWTO_SUCCESS`, the message `5` is
revoked and nothing is filed), while the same target not blocked gets the
message filed. -/
theorem throwToMsg_blocked_on_throwto_counterexample :
    (throwToMsgCheck Example.rts 0 6 3
        (Example.machine (Example.blockedThread WhyBlocked.BlockedOnMsgThrowTo 5 12)) 7).value?
      = some ThrowToResult.THROWTO_SUCCESS
    ∧ (throwToMsgCheck Example.rts 0 6 3
        (Example.machine (Example.blockedThread WhyBlocked.BlockedOnMsgThrowTo 5 12)) 7).get?
          (fun s => (actions s.trace, s.info 5, (s.tso 7).blocked_exceptions))
      = some ([Action.raise 7], Info.stg_IND_info, 1)
    ∧ (throwToMsgCheck Example.rts 0 6 3
        (Example.machine (Example.blockedThread WhyBlocked.NotBlocked 5 12)) 7).get?
          (fun s => (actions s.trace, (s.tso 7).blocked_exceptions))
      = some ([Action.push 7], 6) := by
  refine ⟨?_, ?_, ?_⟩ <;> rfl

/-- An instance of C16, as the code has it, on the target masking
interruptibly and blocked on its own message `5`: the exception is raised
and the message `5` is revoked. -/
theorem throwToMsg_blocked_on_throwto_witness :
    (throwToMsgCheck Example.rts 0 6 3
        (Example.machine (Example.blockedThread WhyBlocked.BlockedOnMsgThrowTo 5 12)) 7).get?
          (fun s => (actions s.trace, s.info 5))
      = some ([Action.raise 7], Info.stg_IND_info) := by
  have h := (((throwToMsg_blocked_on_throwto Example.rts 2
    (Example.machine (Example.blockedThread WhyBlocked.BlockedOnMsgThrowTo 5 12)) 0 6 7
    ⟨by decide, by decide⟩ rfl (by decide)).2 rfl).2.2 rfl rfl).1
  rw [h]
  rfl

/-- An instance of C17 on the sample thread blocked on a foreign call, masked
or not: the message is filed and the result is `THROWTO_BLOCKED`. -/
theorem throwToMsg_blocked_on_ccall_witness :
    throwToMsgCheck Example.rts 0 5 1
        (Example.machine (Example.blockedThread WhyBlocked.BlockedOnCCall 0 0)) 7
      = Res.ok ThrowToResult.THROWTO_BLOCKED
          (sendOrBlock Example.rts
            (Example.machine (Example.blockedThread WhyBlocked.BlockedOnCCall 0 0)) 0 7 5) :=
  (throwToMsg_blocked_on_ccall Example.rts 0
    (Example.machine (Example.blockedThread WhyBlocked.BlockedOnCCall 0 0)) 0 5 7
    ⟨by decide, by decide⟩ (Or.inl rfl)).1

/-- C18 fails as stated: a target blocked on an `MVar` that is masking
exceptions interruptibly (flags `12`) gets the exception raised, not the
message filed; and a masking target (flags `4`) that is on another capability
than the caller gets the message sent, not filed, whether it is blocked on
an `MVar` or on a black hole. -/
theorem throwToMsg_blocked_on_object_counterexample :
    (throwToMsgCheck Example.rts 0 5 3
        (Example.mvarMachine (Example.blockedThread WhyBlocked.BlockedOnMVar 20 12)) 7).value?
      = some ThrowToResult.THROWTO_SUCCESS
    ∧ (throwToMsgCheck Example.rts 0 5 3
        (Example.mvarMachine (Example.blockedThread WhyBlocked.BlockedOnMVar 20 12)) 7).get?
          (fun s => (actions s.trace, (s.tso 7).blocked_exceptions))
      = some ([Action.raise 7], 1)
    ∧ (throwToMsgCheck Example.rts 2 5 3
        (Example.mvarMachine (Example.blockedThread WhyBlocked.BlockedOnMVar 20 4)) 7).get?
          (fun s => (actions s.trace, (s.tso 7).blocked_exceptions))
      = some ([Action.send 0 5], 1)
    ∧ (throwToMsgCheck Example.rts 2 5 3
        (Example.machine (Example.blockedThread WhyBlocked.BlockedOnBlackHole 20 4)) 7).get?
          (fun s => (actions s.trace, (s.tso 7).blocked_exceptions))
      = some ([Action.send 0 5], 1) := by
  refine ⟨?_, ?_, ?_, ?_⟩ <;> rfl

/-- An instance of C18, as the code has it, on the sample thread blocked on
the `MVar` at `20` and masking uninterruptibly: the message is filed, the
`MVar` has its header back and the result is `THROWTO_BLOCKED`. -/
theorem throwToMsg_blocked_on_object_witness :
    (throwToMsgCheck Example.rts 0 5 3
        (Example.mvarMachine (Example.blockedThread WhyBlocked.BlockedOnMVar 20 4)) 7).get?
          (fun s => (actions s.trace, (s.tso 7).blocked_exceptions, s.info 20))
      = some ([Action.push 7], 5, Info.other 1) := by
  have h := (((throwToMsg_blocked_on_object Example.rts 2
    (Example.mvarMachine (Example.blockedThread WhyBlocked.BlockedOnMVar 20 4)) 0 5 7
    ⟨by decide, by decide⟩ (by decide)).1 rfl (Or.inl rfl) (by decide)).1 rfl).1
  rw [h]
  rfl

/-- C19 on the sample thread in a transaction: asked to stop at the atomic
block, `raiseAsync` leaves the thread runnable at `sp = 10` under the dummy
return, in the transaction `40`. -/
theorem raiseAsync_stops_at_atomically_witness :
    (raiseAsync Example.rts 3 (Example.machine Example.stmThread) 0 7 9 true none).get?
        (fun s => ((s.tso 7).sp, (s.tso 7).stack (12 - 2), (s.tso 7).stack (12 - 1),
          (s.tso 7).what_next, (s.tso 7).trec))
      = some (12 - 2, 103, 102, WhatNext.ThreadRunGHC, 40) := by
  obtain ⟨s1, h1, _, _, h4, _, _, _, _, h9, h10, h11, h12, _⟩ :=
    raiseAsync_stops_at_atomically Example.rts 3 (Example.machine Example.stmThread) 0 7 7 9
      none [(10, FrameType.other 0)] 12 rfl ⟨rfl, rfl, by decide, rfl⟩
      (by
        intro x hx
        simp only [List.mem_singleton] at hx
        subst hx
        exact ⟨rfl, (fun h => by cases h), (fun h => by cases h)⟩)
      rfl rfl (by decide)
  rw [h1]
  simp only [Res.get?]
  rw [h9, h10, h11, h12, h4]
  rfl

/-- C20 fails as stated: `suspendComputation` on the sample thread in a
transaction, with the update frame at `14` as `stop_here`, aborts the
transaction `40` and condemns nothing; the thread is left in the enclosing
transaction `0` with its `sp` and the two words on top of the atomically
frame as they were (no dummy return is written). -/
theorem suspendComputation_aborts_transactions_counterexample :
    (suspendComputation Example.rts 4 (Example.machine Example.stmThread) 0 7 (some 14)).get?
        (fun s => (abortsOf s.trace, condemnsOf s.trace, (s.tso 7).trec, (s.tso 7).sp,
          (s.tso 7).stack 10, (s.tso 7).stack 11, (s.tso 7).what_next))
      = some ([40], [], 0, 10, 300, 0, WhatNext.ThreadRunGHC) := by
  rfl

/-- An instance of C20, as the code has it, on the sample thread in a
transaction with the update frame at `14` as `stop_here`. -/
theorem suspendComputation_aborts_transactions_witness :
    ∃ s1, suspendComputation Example.rts 4 (Example.machine Example.stmThread) 0 7 (some 14)
        = Res.ok () s1
      ∧ abortsOf s1.trace = [40] ∧ condemnsOf s1.trace = []
      ∧ (s1.tso 7).what_next = WhatNext.ThreadRunGHC := by
  obtain ⟨s1, h1, _, h3, h4, h5, _⟩ :=
    suspendComputation_aborts_transactions Example.rts 4 (Example.machine Example.stmThread) 0 7 7
      [(10, FrameType.other 0), (12, FrameType.ATOMICALLY_FRAME)] 14
      (by intro h; rcases h with h | h <;> cases h) (by intro h; cases h) rfl
      ⟨rfl, rfl, by decide, rfl, rfl, by decide, rfl⟩
      (by
        intro x hx
        simp only [List.mem_cons, List.mem_singleton, List.not_mem_nil, or_false] at hx
        rcases hx with rfl | rfl <;> decide)
      (by decide)
  exact ⟨s1, h1, h3, h4, h5⟩

/-- C21 on the sample thread in a transaction, with the `NULL` exception and
no stop boundary: the walk passes the atomically frame, after which the
thread is in the enclosing transaction `0`, the transaction `40` having been
aborted and freed; the run ends with the thread killed. -/
theorem raiseAsync_aborts_at_transaction_frames_witness :
    ((walk Example.rts 0 7 NULL [(10, FrameType.other 0), (12, FrameType.ATOMICALLY_FRAME)]
        (raiseStart Example.rts 0 7 7 (Example.machine Example.stmThread))).1.tso 7).trec = 0
    ∧ abortsOf (walk Example.rts 0 7 NULL
        [(10, FrameType.other 0), (12, FrameType.ATOMICALLY_FRAME)]
        (raiseStart Example.rts 0 7 7 (Example.machine Example.stmThread))).1.trace = [40]
    ∧ (raiseAsync Example.rts 5 (Example.machine Example.stmThread) 0 7 NULL false none).get?
        (fun s => ((s.tso 7).trec, abortsOf s.trace, freesOf s.trace, condemnsOf s.trace,
          (s.tso 7).what_next))
      = some (0, [40], [40], [], WhatNext.ThreadKilled) := by
  obtain ⟨_, _, h3, h4, _, _⟩ :=
    raiseAsync_aborts_at_transaction_frames Example.rts 3 (Example.machine Example.stmThread)
      0 7 7 NULL false none [(10, FrameType.other 0), (12, FrameType.ATOMICALLY_FRAME)] 14 rfl
      ⟨rfl, rfl, by decide, rfl, rfl, by decide, rfl⟩
      (by
        intro x hx
        simp only [List.mem_cons, List.mem_singleton, List.not_mem_nil, or_false] at hx
        rcases hx with rfl | rfl
        · exact ⟨rfl, (fun _ => rfl), (fun _ => rfl)⟩
        · exact ⟨rfl, (fun _ => rfl), (fun _ => rfl)⟩)
  exact ⟨h3, h4, rfl⟩

/-- C25 fails as stated: when the sample thread with two update frames for
the cell `500` is suspended with the second of them as the stop boundary, the
`AP_STACK` built at the first update frame is at `1000`, but the word left
on top of the stack is the cell `500`, and the `AP_STACK` built next, at
`1005`, has the cell `500` and not the closure at `1000` as its `fun`. -/
theorem raiseAsync_ap_stack_slice_counterexample :
    (suspendComputation Example.rts 5 (Example.machine Example.loopThread) 0 7 (some 16)).get?
        (fun s => (allocsOf s.trace, (s.ap_stack 1000).header, (s.ap_stack 1000).fun_,
          (s.ap_stack 1000).payload, (s.tso 7).stack 13, (s.ap_stack 1005).header,
          (s.ap_stack 1005).fun_, (s.ap_stack 1005).payload))
      = some ([1000, 1005], Info.stg_AP_STACK_info, 101, [300, 0], 500,
          Info.stg_AP_STACK_info, 500, []) := by
  rfl

/-- An instance of C25, as the code has it, on the sample thread with a
catch frame: the `AP_STACK` built at its update frame, at `1000`, holds the
dummy return closure and the two words of the frame above, and is left in
the last word of the update frame. -/
theorem raiseAsync_ap_stack_slice_witness :
    (freezeUpdateFrame Example.rts 0 7 NULL
        (raiseStart Example.rts 0 7 7 (Example.machine Example.catchThread)).1 9 12).1.ap_stack
        1000
      = { header := Info.stg_AP_STACK_info, size := 2, fun_ := 101, payload := [300, 0] }
    ∧ ((freezeUpdateFrame Example.rts 0 7 NULL
        (raiseStart Example.rts 0 7 7 (Example.machine Example.catchThread)).1 9 12).1.tso
          7).stack 13 = 1000 := by
  obtain ⟨_, _, _, _, _, _, _, h8, _⟩ :=
    raiseAsync_ap_stack_slice Example.rts 0 7 9 false none NULL 3
      (raiseStart Example.rts 0 7 7 (Example.machine Example.catchThread)).1 9 12 (by decide)
      rfl rfl
  exact ⟨rfl, h8 (by decide)⟩

/-- C22 on the sample thread with two update frames for the cell `500`, the
second of them the stop boundary: at the first the cell `500` is not updated
and is itself left in the last word of the frame; over the whole run the cell
`600` alone is updated, with the closure built at its frame. -/
theorem raiseAsync_keeps_stop_updatee_witness :
    updatesOf (freezeUpdateFrame Example.rts 0 7
        (stopUpdatee Example.rts ((Example.machine Example.loopThread).tso 7).stack (some 16))
        (raiseStart Example.rts 0 7 7 (Example.machine Example.loopThread)).1 9 12).1.trace
      = []
    ∧ ((freezeUpdateFrame Example.rts 0 7
        (stopUpdatee Example.rts ((Example.machine Example.loopThread).tso 7).stack (some 16))
        (raiseStart Example.rts 0 7 7 (Example.machine Example.loopThread)).1 9 12).1.tso
          7).stack 13 = 500
    ∧ (suspendComputation Example.rts 5 (Example.machine Example.loopThread) 0 7 (some 16)).get?
        (fun s => (updatesOf s.trace, allocsOf s.trace)) = some ([(600, 1005)], [1000, 1005]) := by
  obtain ⟨_, _, _, h4⟩ :=
    raiseAsync_keeps_stop_updatee Example.rts 5 (Example.machine Example.loopThread) 0 7 7 NULL
      false (some 16) rfl
  obtain ⟨_, _, _, h5, _⟩ :=
    h4 3 (raiseStart Example.rts 0 7 7 (Example.machine Example.loopThread)).1 9 12 rfl rfl
  obtain ⟨h6, h7⟩ := h5 rfl
  exact ⟨h6, h7, rfl⟩

/-- C26 on the sample thread with a catch frame, whose frames have the sizes
`2`, `2` and `3`: with the exception `9` the walk ends at the catch frame and
the thread is runnable; with the `NULL` exception it ends at the stop frame
and the thread is killed. -/
theorem raiseAsync_terminates_witness :
    (∀ x ∈ Example.allFrames,
      x.1 < frameAfter Example.rts ((Example.machine Example.catchThread).tso 7).stack x.1 x.2)
    ∧ (∃ s1, raiseAsync Example.rts 4 (Example.machine Example.catchThread) 0 7 9 false none
          = Res.ok () s1
        ∧ (s1.tso 7).what_next = WhatNext.ThreadRunGHC)
    ∧ (raiseAsync Example.rts 4 (Example.machine Example.catchThread) 0 7 NULL false none).get?
        (fun s => (s.tso 7).what_next) = some WhatNext.ThreadKilled := by
  obtain ⟨h1, s1, _, _, h2, _⟩ :=
    raiseAsync_terminates Example.rts 4 (Example.machine Example.catchThread) 0 7 7 9 false none
      Example.allFrames 17 rfl Example.allFrames_chain rfl
      (by
        intro x hx
        simp only [Example.allFrames, List.mem_cons, List.mem_singleton, List.not_mem_nil,
          or_false] at hx
        rcases hx with rfl | rfl | rfl <;> decide)
      (by decide)
  have h3 : (raiseAsync Example.rts 4 (Example.machine Example.catchThread) 0 7 9 false
      none).get? (fun s => (s.tso 7).what_next) = some WhatNext.ThreadRunGHC := rfl
  rw [h2] at h3
  simp only [Res.get?, Option.some.injEq] at h3
  exact ⟨h1, ⟨s1, h2, h3⟩, rfl⟩

/-- C23 does not hold of the code, in which `blockedThrowTo` calls
`dirty_TSO` with the comment "we modified the blocked_exceptions queue":
`awakenBlockedExceptionQueue` on the sample thread with the sample queue
empties the queue, and `maybePerformBlockedException` on the sample thread
whose queue is a revoked message alone empties the queue too, and neither
calls `dirty_TSO` (the traces hold a wake-up alone, and nothing), while
`blockedThrowTo` on the sample thread does. -/
theorem queue_changed_without_dirty_TSO :
    (awakenBlockedExceptionQueue Example.rts 3 (Example.wakeMachine Example.thread) 0 7).get?
        (fun s => (((Example.wakeMachine Example.thread).tso 7).blocked_exceptions,
          (s.tso 7).blocked_exceptions, s.trace))
      = some (5, 1, [Event.unblockOne_ 0 3 false])
    ∧ (maybePerformBlockedException Example.rts 3
        (Example.revokedMachine Example.thread) 0 7).value? = some 0
    ∧ (maybePerformBlockedException Example.rts 3
        (Example.revokedMachine Example.thread) 0 7).get?
        (fun s => (((Example.revokedMachine Example.thread).tso 7).blocked_exceptions,
          (s.tso 7).blocked_exceptions, s.trace))
      = some (6, 1, [])
    ∧ (blockedThrowTo (Example.machine Example.thread) 0 7 5).trace
      = [Event.debugTrace (DebugMsg.throwTo_blocking 7), Event.dirty_TSO 0 7] := by
  refine ⟨rfl, rfl, rfl, rfl⟩

end RaiseAsync
